import Mathlib

/-!
# service-commerce: order, fulfilment and cart engine

A shallow embedding of the business layer of `apps/default/service`
(`business/orders.go`, `business/fulfilments.go`, `business/carts.go`) over an
in-memory relational store that stands for the repositories of
`repository/*.go`.

Modelling conventions.

* Go `int64` / `int32` values are integers; every arithmetic operation that the
  Go code performs is followed by the two's-complement wrap of its type
  (`wrapInt64`, `wrapInt32`).  Go `/` and `%` truncate toward zero
  (`Int.tdiv`, `Int.tmod`).  SQL arithmetic (`SUM`, `stock_quantity - ?`) is
  exact.
* A table is the list of its rows in primary-key order; `First` returns the
  first matching row, `Find` all matching rows.
* The repository errors the store produces are record-not-found (a lookup or a
  `Delete` by an id no row carries), which `data.ErrorConvertToAPI` reports as
  `NotFound`, and the failed scan of an aggregate that is not an `int64` value,
  reported as `Internal`.  An `UPDATE` whose `WHERE` clause matches no row is
  not an error in gorm.
* A variant is returned with its association `Product`, which is nil when the
  product is not loaded; the row of the store carries it.
* Row identifiers are generated by the storage framework when a row is
  created; operations that create rows take the generated identifiers as
  arguments.  The order number is derived from the clock and is an argument as
  well.
* The status enumerations live in the generated protobuf package; they are
  modelled as enumerations with one constructor per named constant and a
  constructor `OTHER` for every remaining numeric value.
-/

namespace Commerce

/-! ## Machine integers -/

/-- Two's-complement wrap of an integer into the range of Go `int64`. -/
def wrapInt64 (x : Int) : Int :=
  (x + 9223372036854775808) % 18446744073709551616 - 9223372036854775808

/-- Two's-complement wrap of an integer into the range of Go `int32`. -/
def wrapInt32 (x : Int) : Int :=
  (x + 2147483648) % 4294967296 - 2147483648

/-- The value is representable as a Go `int64`. -/
def isInt64 (x : Int) : Prop :=
  -9223372036854775808 ≤ x ∧ x ≤ 9223372036854775807

instance (x : Int) : Decidable (isInt64 x) := by
  unfold isInt64; infer_instance

/-! ## Error codes and status enumerations -/

/-- The connect error codes the business layer reports. -/
inductive Code where
  | InvalidArgument
  | NotFound
  | FailedPrecondition
  | AlreadyExists
  | Internal
  deriving DecidableEq, Repr

/-- Enumeration `commercev1.CartStatus`. -/
inductive CartStatus where
  | CART_STATUS_UNSPECIFIED
  | CART_STATUS_ACTIVE
  | CART_STATUS_CONVERTED
  | CART_STATUS_ABANDONED
  | OTHER (n : Nat)
  deriving DecidableEq, Repr

/-- Enumeration `commercev1.OrderStatus`. -/
inductive OrderStatus where
  | ORDER_STATUS_UNSPECIFIED
  | ORDER_STATUS_CONFIRMED
  | ORDER_STATUS_CANCELLED
  | ORDER_STATUS_FULFILLED
  | OTHER (n : Nat)
  deriving DecidableEq, Repr

/-- Enumeration `commercev1.PaymentStatus`. -/
inductive PaymentStatus where
  | PAYMENT_STATUS_UNSPECIFIED
  | PAYMENT_STATUS_PENDING
  | OTHER (n : Nat)
  deriving DecidableEq, Repr

/-- Enumeration `commercev1.FulfilmentStatus`. -/
inductive FulfilmentStatus where
  | FULFILMENT_STATUS_UNSPECIFIED
  | FULFILMENT_STATUS_PENDING
  | FULFILMENT_STATUS_SHIPPED
  | FULFILMENT_STATUS_DELIVERED
  | OTHER (n : Nat)
  deriving DecidableEq, Repr

/-! ## Rows (`models/models.go`) -/

/-- Row of `models.Shop` (the columns the order engine reads). -/
structure Shop where
  ID : String
  Name : String
  Slug : String
  deriving DecidableEq, Repr

/-- Row of `models.Product` (the columns the order engine can reach). -/
structure Product where
  ID : String
  ShopID : String
  Name : String
  deriving DecidableEq, Repr

/-- Row of `models.ProductVariant`, with the association `Product *Product` as the variant
repository returns it: `none` is Go's nil, a variant whose product is not loaded. -/
structure ProductVariant where
  ID : String
  ProductID : String
  SKU : String
  Name : String
  CurrencyCode : String
  PriceUnits : Int
  PriceNanos : Int
  StockQuantity : Int
  Product : Option Product
  deriving DecidableEq, Repr

/-- Row of `models.Cart`. -/
structure Cart where
  ID : String
  ShopID : String
  Status : CartStatus
  ProfileID : String
  ContactID : String
  deriving DecidableEq, Repr

/-- Row of `models.CartLine`. -/
structure CartLine where
  ID : String
  CartID : String
  ProductVariantID : String
  Quantity : Int
  deriving DecidableEq, Repr

/-- Row of `models.Order`. -/
structure Order where
  ID : String
  ShopID : String
  OrderNumber : String
  IdempotencyKey : String
  Status : OrderStatus
  PaymentStatus : PaymentStatus
  FulfilmentStatus : FulfilmentStatus
  ProfileID : String
  ContactID : String
  AddressID : String
  SubtotalCurrency : String
  SubtotalUnits : Int
  SubtotalNanos : Int
  TotalCurrency : String
  TotalUnits : Int
  TotalNanos : Int
  deriving DecidableEq, Repr

/-- Row of `models.OrderLine`. -/
structure OrderLine where
  ID : String
  OrderID : String
  ProductVariantID : String
  SKUSnapshot : String
  NameSnapshot : String
  UnitPriceCurrency : String
  UnitPriceUnits : Int
  UnitPriceNanos : Int
  Quantity : Int
  TotalPriceCurrency : String
  TotalPriceUnits : Int
  TotalPriceNanos : Int
  deriving DecidableEq, Repr

/-- Row of `models.Fulfilment`. -/
structure Fulfilment where
  ID : String
  OrderID : String
  Status : FulfilmentStatus
  Carrier : String
  TrackingNumber : String
  deriving DecidableEq, Repr

/-- Row of `models.FulfilmentLine`. -/
structure FulfilmentLine where
  ID : String
  FulfilmentID : String
  OrderLineID : String
  Quantity : Int
  deriving DecidableEq, Repr

/-- The datastore: one list of rows per table. -/
structure DB where
  shops : List Shop
  variants : List ProductVariant
  carts : List Cart
  cartLines : List CartLine
  orders : List Order
  orderLines : List OrderLine
  fulfilments : List Fulfilment
  fulfilmentLines : List FulfilmentLine
  deriving DecidableEq, Repr

/-- An order loaded with `Preload(clause.Associations)`: the row and its `Lines`. -/
structure LoadedOrder where
  row : Order
  Lines : List OrderLine
  deriving DecidableEq, Repr

/-- A cart loaded with its `Lines`. -/
structure LoadedCart where
  row : Cart
  Lines : List CartLine
  deriving DecidableEq, Repr

/-- A fulfilment loaded with its `Lines`. -/
structure LoadedFulfilment where
  row : Fulfilment
  Lines : List FulfilmentLine
  deriving DecidableEq, Repr

/-! ## API messages (`commercev1`) and `ToAPI` -/

/-- Message `google.type.Money`. -/
structure Money where
  CurrencyCode : String
  Units : Int
  Nanos : Int
  deriving DecidableEq, Repr

/-- Function `models.MoneyToProto`: no message for an empty currency code. -/
def MoneyToProto (currencyCode : String) (units nanos : Int) : Option Money :=
  if currencyCode = "" then none
  else some { CurrencyCode := currencyCode, Units := units, Nanos := nanos }

/-- Message `commercev1.CartLine`. -/
structure CartLineAPI where
  Id : String
  ProductVariantId : String
  Quantity : Int
  deriving DecidableEq, Repr

/-- Message `commercev1.Cart`. -/
structure CartAPI where
  Id : String
  ShopId : String
  Status : CartStatus
  ProfileId : String
  ContactId : String
  Lines : List CartLineAPI
  deriving DecidableEq, Repr

/-- Message `commercev1.OrderLine`. -/
structure OrderLineAPI where
  Id : String
  ProductVariantId : String
  SkuSnapshot : String
  NameSnapshot : String
  UnitPrice : Option Money
  Quantity : Int
  TotalPrice : Option Money
  deriving DecidableEq, Repr

/-- Message `commercev1.Order`. -/
structure OrderAPI where
  Id : String
  ShopId : String
  OrderNumber : String
  Status : OrderStatus
  PaymentStatus : PaymentStatus
  FulfilmentStatus : FulfilmentStatus
  ProfileId : String
  ContactId : String
  AddressId : String
  Subtotal : Option Money
  Total : Option Money
  Lines : List OrderLineAPI
  deriving DecidableEq, Repr

/-- Message `commercev1.FulfilmentLine` (also the line shape of a create request). -/
structure FulfilmentLineAPI where
  OrderLineId : String
  Quantity : Int
  deriving DecidableEq, Repr

/-- Message `commercev1.Fulfilment`. -/
structure FulfilmentAPI where
  Id : String
  OrderId : String
  Status : FulfilmentStatus
  Carrier : String
  TrackingNumber : String
  Lines : List FulfilmentLineAPI
  deriving DecidableEq, Repr

/-- Method `(*CartLine).ToAPI`. -/
def CartLine.ToAPI (cl : CartLine) : CartLineAPI :=
  { Id := cl.ID, ProductVariantId := cl.ProductVariantID, Quantity := cl.Quantity }

/-- Method `(*Cart).ToAPI`. -/
def LoadedCart.ToAPI (c : LoadedCart) : CartAPI :=
  { Id := c.row.ID, ShopId := c.row.ShopID, Status := c.row.Status,
    ProfileId := c.row.ProfileID, ContactId := c.row.ContactID,
    Lines := c.Lines.map CartLine.ToAPI }

/-- Method `(*OrderLine).ToAPI`. -/
def OrderLine.ToAPI (ol : OrderLine) : OrderLineAPI :=
  { Id := ol.ID, ProductVariantId := ol.ProductVariantID,
    SkuSnapshot := ol.SKUSnapshot, NameSnapshot := ol.NameSnapshot,
    UnitPrice := MoneyToProto ol.UnitPriceCurrency ol.UnitPriceUnits ol.UnitPriceNanos,
    Quantity := ol.Quantity,
    TotalPrice := MoneyToProto ol.TotalPriceCurrency ol.TotalPriceUnits ol.TotalPriceNanos }

/-- Method `(*Order).ToAPI`. -/
def LoadedOrder.ToAPI (o : LoadedOrder) : OrderAPI :=
  { Id := o.row.ID, ShopId := o.row.ShopID, OrderNumber := o.row.OrderNumber,
    Status := o.row.Status, PaymentStatus := o.row.PaymentStatus,
    FulfilmentStatus := o.row.FulfilmentStatus,
    ProfileId := o.row.ProfileID, ContactId := o.row.ContactID,
    AddressId := o.row.AddressID,
    Subtotal := MoneyToProto o.row.SubtotalCurrency o.row.SubtotalUnits o.row.SubtotalNanos,
    Total := MoneyToProto o.row.TotalCurrency o.row.TotalUnits o.row.TotalNanos,
    Lines := o.Lines.map OrderLine.ToAPI }

/-- Method `(*FulfilmentLine).ToAPI`. -/
def FulfilmentLine.ToAPI (fl : FulfilmentLine) : FulfilmentLineAPI :=
  { OrderLineId := fl.OrderLineID, Quantity := fl.Quantity }

/-- Method `(*Fulfilment).ToAPI`. -/
def LoadedFulfilment.ToAPI (f : LoadedFulfilment) : FulfilmentAPI :=
  { Id := f.row.ID, OrderId := f.row.OrderID, Status := f.row.Status,
    Carrier := f.row.Carrier, TrackingNumber := f.row.TrackingNumber,
    Lines := f.Lines.map FulfilmentLine.ToAPI }

/-! ## Repositories (`repository/*.go`) -/

/-- Shop lookup `shopRepo.GetByID`: the row with this primary key, if any. -/
def shopRepository.GetByID (db : DB) (id : String) : Option Shop :=
  db.shops.find? (fun s => s.ID == id)

/-- Variant lookup `variantRepo.GetByID`. -/
def productVariantRepository.GetByID (db : DB) (id : String) : Option ProductVariant :=
  db.variants.find? (fun v => v.ID == id)

/-- Method `DecrementStock`: one conditional `UPDATE ... SET stock_quantity =
stock_quantity - ? WHERE id = ? AND stock_quantity >= ?`.  The returned error is
the statement's `Error`, which is nil also when no row matched. -/
def productVariantRepository.DecrementStock (db : DB) (variantID : String) (quantity : Int) :
    Option Code × DB :=
  (none,
   { db with variants := db.variants.map (fun v =>
      if v.ID = variantID ∧ v.StockQuantity ≥ quantity
      then { v with StockQuantity := v.StockQuantity - quantity } else v) })

/-- Method `orderRepository.GetWithLines`: first order with this id, lines preloaded. -/
def orderRepository.GetWithLines (db : DB) (id : String) : Option LoadedOrder :=
  match db.orders.find? (fun o => o.ID == id) with
  | none => none
  | some o => some { row := o, Lines := db.orderLines.filter (fun l => l.OrderID == o.ID) }

/-- Method `orderRepository.GetByIdempotencyKey`: first order with this key, lines preloaded. -/
def orderRepository.GetByIdempotencyKey (db : DB) (key : String) : Option LoadedOrder :=
  match db.orders.find? (fun o => o.IdempotencyKey == key) with
  | none => none
  | some o => some { row := o, Lines := db.orderLines.filter (fun l => l.OrderID == o.ID) }

/-- Insert of an order row (`orderRepo.Create`). -/
def orderRepository.Create (db : DB) (order : Order) : DB :=
  { db with orders := db.orders ++ [order] }

/-- Column update `orderRepo.Update(ctx, order, columns...)`: the named columns of the
row with the order's primary key take the values held by `order`. -/
def orderRepository.Update (db : DB) (order : Order) (columns : List String) : DB :=
  { db with orders := db.orders.map (fun o =>
      if o.ID = order.ID then
        { o with
          Status := if "status" ∈ columns then order.Status else o.Status,
          FulfilmentStatus :=
            if "fulfilment_status" ∈ columns then order.FulfilmentStatus else o.FulfilmentStatus }
      else o) }

/-- Insert of an order line row (`orderLineRepo.Create`). -/
def orderLineRepository.Create (db : DB) (line : OrderLine) : DB :=
  { db with orderLines := db.orderLines ++ [line] }

/-- Method `fulfilmentRepository.GetWithLines`. -/
def fulfilmentRepository.GetWithLines (db : DB) (id : String) : Option LoadedFulfilment :=
  match db.fulfilments.find? (fun f => f.ID == id) with
  | none => none
  | some f =>
    some { row := f, Lines := db.fulfilmentLines.filter (fun l => l.FulfilmentID == f.ID) }

/-- Insert of a fulfilment row (`fulfilmentRepo.Create`). -/
def fulfilmentRepository.Create (db : DB) (f : Fulfilment) : DB :=
  { db with fulfilments := db.fulfilments ++ [f] }

/-- Insert of a fulfilment line row (`fulfilmentLineRepo.Create`). -/
def fulfilmentLineRepository.Create (db : DB) (l : FulfilmentLine) : DB :=
  { db with fulfilmentLines := db.fulfilmentLines ++ [l] }

/-- The aggregate of `GetFulfilledQuantityByOrderLineID` as the datastore computes it:
`SELECT COALESCE(SUM(quantity), 0) ... WHERE order_line_id = ?`, an exact sum. -/
def fulfilmentLineRepository.sumQuantity (db : DB) (orderLineID : String) : Int :=
  ((db.fulfilmentLines.filter (fun l => l.OrderLineID == orderLineID)).map
    (fun l => l.Quantity)).sum

/-- Method `GetFulfilledQuantityByOrderLineID`: the aggregate is scanned into `total int64`;
a sum that is not an `int64` value is a scan error. -/
def fulfilmentLineRepository.GetFulfilledQuantityByOrderLineID (db : DB) (orderLineID : String) :
    Except Code Int :=
  let total := fulfilmentLineRepository.sumQuantity db orderLineID
  if -9223372036854775808 ≤ total ∧ total ≤ 9223372036854775807 then .ok total
  else .error Code.Internal

/-- Method `cartRepository.GetWithLines`. -/
def cartRepository.GetWithLines (db : DB) (id : String) : Option LoadedCart :=
  match db.carts.find? (fun c => c.ID == id) with
  | none => none
  | some c => some { row := c, Lines := db.cartLines.filter (fun l => l.CartID == c.ID) }

/-- Method `cartLineRepository.GetByCartAndVariant`: first line of the cart for the variant. -/
def cartLineRepository.GetByCartAndVariant (db : DB) (cartID variantID : String) :
    Option CartLine :=
  db.cartLines.find? (fun l => l.CartID == cartID && l.ProductVariantID == variantID)

/-- Insert of a cart line row (`cartLineRepo.Create`). -/
def cartLineRepository.Create (db : DB) (line : CartLine) : DB :=
  { db with cartLines := db.cartLines ++ [line] }

/-- Column update `cartLineRepo.Update(ctx, line, columns...)` by primary key. -/
def cartLineRepository.Update (db : DB) (line : CartLine) (columns : List String) : DB :=
  { db with cartLines := db.cartLines.map (fun l =>
      if l.ID = line.ID then
        { l with Quantity := if "quantity" ∈ columns then line.Quantity else l.Quantity }
      else l) }

/-- Row removal `cartLineRepo.Delete(ctx, id)` by primary key: the row is read first, so an
absent id is a record-not-found error and nothing is removed. -/
def cartLineRepository.Delete (db : DB) (id : String) : Option Code × DB :=
  match db.cartLines.find? (fun l => l.ID == id) with
  | none => (some Code.NotFound, db)
  | some _ => (none, { db with cartLines := db.cartLines.filter (fun l => !(l.ID == id)) })

/-- Column update `cartRepo.Update(ctx, cart, columns...)` by primary key. -/
def cartRepository.Update (db : DB) (cart : Cart) (columns : List String) : DB :=
  { db with carts := db.carts.map (fun c =>
      if c.ID = cart.ID then
        { c with Status := if "status" ∈ columns then cart.Status else c.Status }
      else c) }

/-- Column update `fulfilmentRepo.Update(ctx, fulfilment, columns...)` by primary key.  The
column `modified_at` is not among the modelled columns. -/
def fulfilmentRepository.Update (db : DB) (f : Fulfilment) (columns : List String) : DB :=
  { db with fulfilments := db.fulfilments.map (fun x =>
      if x.ID = f.ID then
        { x with
          Status := if "status" ∈ columns then f.Status else x.Status,
          Carrier := if "carrier" ∈ columns then f.Carrier else x.Carrier,
          TrackingNumber :=
            if "tracking_number" ∈ columns then f.TrackingNumber else x.TrackingNumber }
      else x) }

/-- Method `shopRepository.GetBySlug`: first shop with this slug. -/
def shopRepository.GetBySlug (db : DB) (slug : String) : Option Shop :=
  db.shops.find? (fun x => x.Slug == slug)

/-- Insert of a shop row (`shopRepo.Create`). -/
def shopRepository.Create (db : DB) (shop : Shop) : DB :=
  { db with shops := db.shops ++ [shop] }

/-! ## Order creation (`business/orders.go`) -/

/-- Message `commercev1.CreateOrderLine`. -/
structure CreateOrderLine where
  VariantId : String
  Quantity : Int
  deriving DecidableEq, Repr

/-- Message `commercev1.CreateOrderRequest`. -/
structure CreateOrderRequest where
  ShopId : String
  ProfileId : String
  ContactId : String
  AddressId : String
  IdempotencyKey : String
  Lines : List CreateOrderLine
  deriving DecidableEq, Repr

/-- Line total of `buildOrderLines` (orders.go 241-245): the units product in `int64`,
the nanos product converted to `int32`, then the carry of the `int32` nanos. -/
def lineTotal (priceUnits priceNanos quantity : Int) : Int × Int :=
  let lineTotalUnits := wrapInt64 (priceUnits * quantity)
  let lineTotalNanos := wrapInt32 (wrapInt64 (priceNanos * quantity))
  (wrapInt64 (lineTotalUnits + Int.tdiv lineTotalNanos 1000000000),
   Int.tmod lineTotalNanos 1000000000)

/-- Subtotal accumulation of `buildOrderLines` (orders.go 265-268). -/
def accumulate (subtotalUnits subtotalNanos lineTotalUnits lineTotalNanos : Int) : Int × Int :=
  let subtotalUnits := wrapInt64 (subtotalUnits + lineTotalUnits)
  let subtotalNanos := wrapInt32 (subtotalNanos + lineTotalNanos)
  (wrapInt64 (subtotalUnits + Int.tdiv subtotalNanos 1000000000),
   Int.tmod subtotalNanos 1000000000)

/-- The result tuple of `buildOrderLines`. -/
structure BuiltLines where
  orderLines : List OrderLine
  subtotalCurrency : String
  subtotalUnits : Int
  subtotalNanos : Int
  deriving DecidableEq, Repr

/-- The shop check inside the loop of `buildOrderLines` (orders.go 224-231): the shop is
looked up only when the variant's `Product` is nil, and a failed lookup is NotFound. -/
def orderBusiness.productShopCheck (db : DB) (shopID : String) (variant : ProductVariant) :
    Option Code :=
  match variant.Product with
  | some _ => none
  | none =>
    match shopRepository.GetByID db shopID with
    | none => some Code.NotFound
    | some _ => none

/-- The `for` loop of `buildOrderLines`, with the loop variables as accumulator. -/
def orderBusiness.buildOrderLinesLoop (db : DB) (shopID : String) :
    List CreateOrderLine → BuiltLines → Except Code BuiltLines
  | [], acc => .ok acc
  | line :: rest, acc =>
    if line.Quantity ≤ 0 then .error Code.InvalidArgument
    else
      match productVariantRepository.GetByID db line.VariantId with
      | none => .error Code.NotFound
      | some variant =>
        match orderBusiness.productShopCheck db shopID variant with
        | some e => .error e
        | none =>
          if variant.StockQuantity < line.Quantity then .error Code.FailedPrecondition
          else
            let lt := lineTotal variant.PriceUnits variant.PriceNanos line.Quantity
            let orderLine : OrderLine :=
              { ID := "", OrderID := "",
                ProductVariantID := variant.ID,
                SKUSnapshot := variant.SKU,
                NameSnapshot := variant.Name,
                UnitPriceCurrency := variant.CurrencyCode,
                UnitPriceUnits := variant.PriceUnits,
                UnitPriceNanos := variant.PriceNanos,
                Quantity := line.Quantity,
                TotalPriceCurrency := variant.CurrencyCode,
                TotalPriceUnits := lt.1,
                TotalPriceNanos := lt.2 }
            let st := accumulate acc.subtotalUnits acc.subtotalNanos lt.1 lt.2
            orderBusiness.buildOrderLinesLoop db shopID rest
              { orderLines := acc.orderLines ++ [orderLine],
                subtotalCurrency :=
                  if acc.subtotalCurrency = "" then variant.CurrencyCode
                  else acc.subtotalCurrency,
                subtotalUnits := st.1,
                subtotalNanos := st.2 }

/-- Method `buildOrderLines`. -/
def orderBusiness.buildOrderLines (db : DB) (shopID : String) (lines : List CreateOrderLine) :
    Except Code BuiltLines :=
  orderBusiness.buildOrderLinesLoop db shopID lines
    { orderLines := [], subtotalCurrency := "", subtotalUnits := 0, subtotalNanos := 0 }

/-- Method `GetOrder`. -/
def orderBusiness.GetOrder (db : DB) (id : String) : Except Code OrderAPI :=
  match orderRepository.GetWithLines db id with
  | none => .error Code.NotFound
  | some order => .ok order.ToAPI

/-- The second loop of `CreateOrder` (orders.go 110-121): each line is inserted, then its
stock is decremented.  The i-th line receives the identifier `ids i`. -/
def orderBusiness.createLines (orderID : String) (ids : Nat → String) :
    Nat → List OrderLine → DB → Option Code × DB
  | _, [], db => (none, db)
  | i, line :: rest, db =>
    let line := { line with OrderID := orderID, ID := ids i }
    let db := orderLineRepository.Create db line
    match productVariantRepository.DecrementStock db line.ProductVariantID line.Quantity with
    | (some _, db) => (some Code.FailedPrecondition, db)
    | (none, db) => orderBusiness.createLines orderID ids (i + 1) rest db

/-- Method `CreateOrder`.  The arguments `orderNumber` (from `generateOrderNumber`),
`orderID` and `ids` are the values generated during the call. -/
def orderBusiness.CreateOrder (db : DB) (req : CreateOrderRequest)
    (orderNumber : String) (orderID : String) (ids : Nat → String) :
    Except Code OrderAPI × DB :=
  match (if req.IdempotencyKey ≠ "" then
           orderRepository.GetByIdempotencyKey db req.IdempotencyKey else none) with
  | some existing => (.ok existing.ToAPI, db)
  | none =>
    match shopRepository.GetByID db req.ShopId with
    | none => (.error Code.NotFound, db)
    | some _ =>
      if req.Lines.length = 0 then (.error Code.InvalidArgument, db)
      else
        match orderBusiness.buildOrderLines db req.ShopId req.Lines with
        | .error e => (.error e, db)
        | .ok built =>
          let idempotencyKey :=
            if req.IdempotencyKey = "" then orderNumber else req.IdempotencyKey
          let order : Order :=
            { ID := orderID,
              ShopID := req.ShopId,
              OrderNumber := orderNumber,
              IdempotencyKey := idempotencyKey,
              Status := OrderStatus.ORDER_STATUS_CONFIRMED,
              PaymentStatus := PaymentStatus.PAYMENT_STATUS_PENDING,
              FulfilmentStatus := FulfilmentStatus.FULFILMENT_STATUS_UNSPECIFIED,
              ProfileID := req.ProfileId,
              ContactID := req.ContactId,
              AddressID := req.AddressId,
              SubtotalCurrency := built.subtotalCurrency,
              SubtotalUnits := built.subtotalUnits,
              SubtotalNanos := built.subtotalNanos,
              TotalCurrency := built.subtotalCurrency,
              TotalUnits := built.subtotalUnits,
              TotalNanos := built.subtotalNanos }
          let db1 := orderRepository.Create db order
          match orderBusiness.createLines order.ID ids 0 built.orderLines db1 with
          | (some e, db2) => (.error e, db2)
          | (none, db2) => (orderBusiness.GetOrder db2 order.ID, db2)

/-- Message `commercev1.CreateOrderFromCartRequest`. -/
structure CreateOrderFromCartRequest where
  CartId : String
  ProfileId : String
  ContactId : String
  AddressId : String
  deriving DecidableEq, Repr

/-- The order request `CreateOrderFromCart` builds from a loaded cart (orders.go 140-155):
one request line per cart line, in cart-line order, and no idempotency key. -/
def orderBusiness.cartOrderRequest (cart : LoadedCart) (req : CreateOrderFromCartRequest) :
    CreateOrderRequest :=
  { ShopId := cart.row.ShopID,
    ProfileId := req.ProfileId,
    ContactId := req.ContactId,
    AddressId := req.AddressId,
    IdempotencyKey := "",
    Lines := cart.Lines.map (fun cartLine =>
      { VariantId := cartLine.ProductVariantID, Quantity := cartLine.Quantity }) }

/-- Method `CreateOrderFromCart`; the generated values are those of the inner
`CreateOrder`. -/
def orderBusiness.CreateOrderFromCart (db : DB) (req : CreateOrderFromCartRequest)
    (orderNumber : String) (orderID : String) (ids : Nat → String) :
    Except Code OrderAPI × DB :=
  match cartRepository.GetWithLines db req.CartId with
  | none => (.error Code.NotFound, db)
  | some cart =>
    if cart.row.Status ≠ CartStatus.CART_STATUS_ACTIVE then
      (.error Code.FailedPrecondition, db)
    else if cart.Lines.length = 0 then (.error Code.InvalidArgument, db)
    else
      match orderBusiness.CreateOrder db (orderBusiness.cartOrderRequest cart req)
          orderNumber orderID ids with
      | (.error e, db1) => (.error e, db1)
      | (.ok order, db1) =>
        let db2 := cartRepository.Update db1
          { cart.row with Status := CartStatus.CART_STATUS_CONVERTED } ["status"]
        (.ok order, db2)

/-! ## Fulfilment tracking (`business/fulfilments.go`) -/

/-- Message `commercev1.CreateFulfilmentRequest`. -/
structure CreateFulfilmentRequest where
  OrderId : String
  Lines : List FulfilmentLineAPI
  deriving DecidableEq, Repr

/-- The Go map `orderLineMap` (fulfilments.go 61-64): filled in line order, so a later
line with the same id replaces an earlier one. -/
def orderLineMap : List OrderLine → String → Option OrderLine
  | [], _ => none
  | ol :: rest, k =>
    match orderLineMap rest k with
    | some later => some later
    | none => if ol.ID = k then some ol else none

/-- The validation loop of `CreateFulfilment` (fulfilments.go 67-86); `none` when every
requested line passes. -/
def fulfilmentBusiness.validateLines (db : DB) (lines : List OrderLine) :
    List FulfilmentLineAPI → Option Code
  | [] => none
  | fl :: rest =>
    match orderLineMap lines fl.OrderLineId with
    | none => some Code.InvalidArgument
    | some ol =>
      match fulfilmentLineRepository.GetFulfilledQuantityByOrderLineID db fl.OrderLineId with
      | .error qErr => some qErr
      | .ok fulfilledQty =>
        let remaining := wrapInt64 (ol.Quantity - fulfilledQty)
        if fl.Quantity > remaining then some Code.FailedPrecondition
        else fulfilmentBusiness.validateLines db lines rest

/-- The insertion loop of `CreateFulfilment` (fulfilments.go 99-108); the i-th line
receives the identifier `ids i`. -/
def fulfilmentBusiness.createLines (fulfilmentID : String) (ids : Nat → String) :
    Nat → List FulfilmentLineAPI → DB → DB
  | _, [], db => db
  | i, fl :: rest, db =>
    fulfilmentBusiness.createLines fulfilmentID ids (i + 1) rest
      (fulfilmentLineRepository.Create db
        { ID := ids i, FulfilmentID := fulfilmentID,
          OrderLineID := fl.OrderLineId, Quantity := fl.Quantity })

/-- The loop of `updateOrderFulfilmentStatus` (fulfilments.go 178-185): false at the first
order line whose fulfilled quantity cannot be read or is below its ordered quantity. -/
def fulfilmentBusiness.allFulfilled (db : DB) : List OrderLine → Bool
  | [] => true
  | ol :: rest =>
    match fulfilmentLineRepository.GetFulfilledQuantityByOrderLineID db ol.ID with
    | .error _ => false
    | .ok fulfilledQty =>
      if fulfilledQty < ol.Quantity then false
      else fulfilmentBusiness.allFulfilled db rest

/-- Method `updateOrderFulfilmentStatus`. -/
def fulfilmentBusiness.updateOrderFulfilmentStatus (db : DB) (order : LoadedOrder) : DB :=
  if fulfilmentBusiness.allFulfilled db order.Lines then
    orderRepository.Update db
      { order.row with
        Status := OrderStatus.ORDER_STATUS_FULFILLED,
        FulfilmentStatus := FulfilmentStatus.FULFILMENT_STATUS_DELIVERED }
      ["status", "fulfilment_status"]
  else db

/-- Method `GetFulfilment`. -/
def fulfilmentBusiness.GetFulfilment (db : DB) (id : String) : Except Code FulfilmentAPI :=
  match fulfilmentRepository.GetWithLines db id with
  | none => .error Code.NotFound
  | some f => .ok f.ToAPI

/-- Method `CreateFulfilment`.  The arguments `fulfilmentID` and `ids` are the identifiers
generated for the fulfilment row and for its lines. -/
def fulfilmentBusiness.CreateFulfilment (db : DB) (req : CreateFulfilmentRequest)
    (fulfilmentID : String) (ids : Nat → String) : Except Code FulfilmentAPI × DB :=
  match orderRepository.GetWithLines db req.OrderId with
  | none => (.error Code.NotFound, db)
  | some order =>
    if order.row.Status = OrderStatus.ORDER_STATUS_CANCELLED then
      (.error Code.FailedPrecondition, db)
    else if req.Lines.length = 0 then (.error Code.InvalidArgument, db)
    else
      match fulfilmentBusiness.validateLines db order.Lines req.Lines with
      | some e => (.error e, db)
      | none =>
        let fulfilment : Fulfilment :=
          { ID := fulfilmentID, OrderID := req.OrderId,
            Status := FulfilmentStatus.FULFILMENT_STATUS_PENDING,
            Carrier := "", TrackingNumber := "" }
        let db1 := fulfilmentRepository.Create db fulfilment
        let db2 := fulfilmentBusiness.createLines fulfilment.ID ids 0 req.Lines db1
        let db3 := fulfilmentBusiness.updateOrderFulfilmentStatus db2 order
        (fulfilmentBusiness.GetFulfilment db3 fulfilment.ID, db3)

/-- Message `commercev1.UpdateFulfilmentRequest`; `UpdateMask` holds the paths of the field
mask (empty for an absent mask), `ShippedAt` the optional timestamp. -/
structure UpdateFulfilmentRequest where
  Id : String
  Status : FulfilmentStatus
  Carrier : String
  TrackingNumber : String
  ShippedAt : Option Int
  UpdateMask : List String
  deriving DecidableEq, Repr

/-- One iteration of the `switch field` loop of `UpdateFulfilment` (fulfilments.go
128-151), on the pair of the loaded fulfilment and `updateColumns`. -/
def fulfilmentBusiness.applyField (req : UpdateFulfilmentRequest)
    (acc : Fulfilment × List String) (field : String) : Fulfilment × List String :=
  if field = "status" then
    if req.Status ≠ FulfilmentStatus.FULFILMENT_STATUS_UNSPECIFIED then
      ({ acc.1 with Status := req.Status }, acc.2 ++ ["status"])
    else acc
  else if field = "carrier" then
    if req.Carrier ≠ "" then
      ({ acc.1 with Carrier := req.Carrier }, acc.2 ++ ["carrier"])
    else acc
  else if field = "tracking_number" then
    if req.TrackingNumber ≠ "" then
      ({ acc.1 with TrackingNumber := req.TrackingNumber }, acc.2 ++ ["tracking_number"])
    else acc
  else if field = "shipped_at" then
    if req.ShippedAt.isSome then (acc.1, acc.2 ++ ["modified_at"]) else acc
  else acc

/-- The field list `UpdateFulfilment` walks: the mask's paths, or the default set when
there is none (fulfilments.go 122-125). -/
def fulfilmentBusiness.updateFields (req : UpdateFulfilmentRequest) : List String :=
  if req.UpdateMask.length = 0 then ["status", "carrier", "tracking_number", "shipped_at"]
  else req.UpdateMask

/-- The write of `UpdateFulfilment` (fulfilments.go 153-158): the collected columns are
written when there is at least one. -/
def fulfilmentBusiness.persistFulfilment (db : DB) (r : Fulfilment × List String) : DB :=
  if r.2.length > 0 then fulfilmentRepository.Update db r.1 r.2 else db

/-- The order-level recomputation after an update (fulfilments.go 160-164); a failure to
reload the order skips it. -/
def fulfilmentBusiness.refreshOrderStatus (db : DB) (orderID : String) : DB :=
  match orderRepository.GetWithLines db orderID with
  | some order => fulfilmentBusiness.updateOrderFulfilmentStatus db order
  | none => db

/-- Method `UpdateFulfilment`. -/
def fulfilmentBusiness.UpdateFulfilment (db : DB) (req : UpdateFulfilmentRequest) :
    Except Code FulfilmentAPI × DB :=
  match fulfilmentRepository.GetWithLines db req.Id with
  | none => (.error Code.NotFound, db)
  | some fulfilment =>
    let r := (fulfilmentBusiness.updateFields req).foldl
      (fulfilmentBusiness.applyField req) (fulfilment.row, [])
    let db1 := fulfilmentBusiness.persistFulfilment db r
    let db2 := fulfilmentBusiness.refreshOrderStatus db1 r.1.OrderID
    (fulfilmentBusiness.GetFulfilment db2 req.Id, db2)

/-! ## Cart aggregation (`business/carts.go`) -/

/-- Message `commercev1.AddCartLineRequest`. -/
structure AddCartLineRequest where
  CartId : String
  ProductVariantId : String
  Quantity : Int
  deriving DecidableEq, Repr

/-- Message `commercev1.RemoveCartLineRequest`. -/
structure RemoveCartLineRequest where
  CartId : String
  CartLineId : String
  deriving DecidableEq, Repr

/-- Method `GetCart`. -/
def cartBusiness.GetCart (db : DB) (id : String) : Except Code CartAPI :=
  match cartRepository.GetWithLines db id with
  | none => .error Code.NotFound
  | some cart => .ok cart.ToAPI

/-- Method `AddCartLine`; `lineID` is the identifier generated when a new line is
inserted. -/
def cartBusiness.AddCartLine (db : DB) (req : AddCartLineRequest) (lineID : String) :
    Except Code CartAPI × DB :=
  match cartRepository.GetWithLines db req.CartId with
  | none => (.error Code.NotFound, db)
  | some cart =>
    if cart.row.Status ≠ CartStatus.CART_STATUS_ACTIVE then
      (.error Code.FailedPrecondition, db)
    else
      match productVariantRepository.GetByID db req.ProductVariantId with
      | none => (.error Code.NotFound, db)
      | some _ =>
        if req.Quantity ≤ 0 then (.error Code.InvalidArgument, db)
        else
          match cartLineRepository.GetByCartAndVariant db req.CartId req.ProductVariantId with
          | some existing =>
            let db1 := cartLineRepository.Update db
              { existing with Quantity := wrapInt64 (existing.Quantity + req.Quantity) }
              ["quantity"]
            (cartBusiness.GetCart db1 req.CartId, db1)
          | none =>
            let db1 := cartLineRepository.Create db
              { ID := lineID, CartID := req.CartId,
                ProductVariantID := req.ProductVariantId, Quantity := req.Quantity }
            (cartBusiness.GetCart db1 req.CartId, db1)

/-- Method `RemoveCartLine`. -/
def cartBusiness.RemoveCartLine (db : DB) (req : RemoveCartLineRequest) :
    Except Code CartAPI × DB :=
  match cartRepository.GetWithLines db req.CartId with
  | none => (.error Code.NotFound, db)
  | some cart =>
    if cart.row.Status ≠ CartStatus.CART_STATUS_ACTIVE then
      (.error Code.FailedPrecondition, db)
    else
      match cartLineRepository.Delete db req.CartLineId with
      | (some e, db1) => (.error e, db1)
      | (none, db1) => (cartBusiness.GetCart db1 req.CartId, db1)

/-! ## Shops (`business/shops.go`) -/

/-- Enumeration `commercev1.ShopStatus`. -/
inductive ShopStatus where
  | SHOP_STATUS_UNSPECIFIED
  | SHOP_STATUS_ACTIVE
  | OTHER (n : Nat)
  deriving DecidableEq, Repr

/-- Message `commercev1.CreateShopRequest` (name, slug, description). -/
structure CreateShopRequest where
  Name : String
  Slug : String
  Description : String
  deriving DecidableEq, Repr

/-- Message `commercev1.Shop` (id, name, slug, description, status). -/
structure ShopAPI where
  Id : String
  Name : String
  Slug : String
  Description : String
  Status : ShopStatus
  deriving DecidableEq, Repr

/-- Go `unicode.IsSpace`: the white space characters of Latin-1 and the Unicode
`White_Space` characters beyond it. -/
def isSpace (c : Char) : Bool :=
  c.toNat = 0x09 || c.toNat = 0x0A || c.toNat = 0x0B || c.toNat = 0x0C || c.toNat = 0x0D
  || c.toNat = 0x20 || c.toNat = 0x85 || c.toNat = 0xA0 || c.toNat = 0x1680
  || (0x2000 ≤ c.toNat && c.toNat ≤ 0x200A) || c.toNat = 0x2028 || c.toNat = 0x2029
  || c.toNat = 0x202F || c.toNat = 0x205F || c.toNat = 0x3000

/-- Go `strings.TrimSpace`: the string without its leading and trailing white space. -/
def TrimSpace (s : String) : String :=
  String.mk ((s.data.dropWhile isSpace).reverse.dropWhile isSpace).reverse

/-- Go `strings.ReplaceAll(s, " ", "-")`. -/
def replaceSpaces (s : String) : String :=
  String.mk (s.data.map (fun c => if c = ' ' then '-' else c))

/-- Method `CreateShop`.  The Unicode lower-casing of Go `strings.ToLower` is the parameter
`toLower`; `shopID` is the identifier generated for the new row.  The row keeps the
modelled columns (id, name, slug); description, status, media ids and properties are
written too and take part in no check. -/
def shopBusiness.CreateShop (toLower : String → String) (db : DB) (req : CreateShopRequest)
    (shopID : String) : Except Code ShopAPI × DB :=
  let name := TrimSpace req.Name
  if name = "" then (.error Code.InvalidArgument, db)
  else
    let slug := if TrimSpace req.Slug = "" then toLower (replaceSpaces name)
                else TrimSpace req.Slug
    match shopRepository.GetBySlug db slug with
    | some _ => (.error Code.AlreadyExists, db)
    | none =>
      let db1 := shopRepository.Create db { ID := shopID, Name := name, Slug := slug }
      (.ok { Id := shopID, Name := name, Slug := slug, Description := req.Description,
             Status := ShopStatus.SHOP_STATUS_ACTIVE }, db1)

/-! ## Example data -/

/-- The shop of the test suite. -/
def exShop : Shop := { ID := "shop-1", Name := "Coffee Corner", Slug := "coffee-corner" }

/-- The product of the test suite, in the example shop. -/
def exProduct : Product := { ID := "prod-1", ShopID := "shop-1", Name := "Test Product" }

/-- The variant of the test suite: price 10.50 USD, stock 100, its product loaded. -/
def exVariant : ProductVariant :=
  { ID := "var-1", ProductID := "prod-1", SKU := "SKU-X", Name := "Test Variant",
    CurrencyCode := "USD", PriceUnits := 10, PriceNanos := 500000000, StockQuantity := 100,
    Product := some exProduct }

/-- A store holding the example shop and variant and nothing else. -/
def exDB : DB :=
  { shops := [exShop], variants := [exVariant], carts := [], cartLines := [],
    orders := [], orderLines := [], fulfilments := [], fulfilmentLines := [] }

/-- Identifier supply used in the examples. -/
def exIds (i : Nat) : String :=
  if i = 0 then "line-1" else if i = 1 then "line-2" else "line-n"

/-- A create-order request for the example shop without idempotency key. -/
def exOrderReq (lines : List CreateOrderLine) : CreateOrderRequest :=
  { ShopId := "shop-1", ProfileId := "profile-123", ContactId := "", AddressId := "",
    IdempotencyKey := "", Lines := lines }

/-- The example store after `CreateOrder` of one line of quantity 5: order `o1` with the
single order line `line-1`. -/
def exOrderedDB : DB :=
  (orderBusiness.CreateOrder exDB (exOrderReq [⟨"var-1", 5⟩]) "ORD-1" "o1" exIds).2

/-- A fulfilment request for order `o1`. -/
def exFulfilReq (lines : List FulfilmentLineAPI) : CreateFulfilmentRequest :=
  { OrderId := "o1", Lines := lines }

/-- The example store with one empty active cart `cart-1`. -/
def exCartDB : DB :=
  { exDB with
    carts := [{ ID := "cart-1", ShopID := "shop-1", Status := CartStatus.CART_STATUS_ACTIVE,
                ProfileID := "", ContactID := "" }] }

/-- A store with an active cart `cart-a` and a converted cart `cart-c` that owns the
cart line `cl-1`. -/
def exTwoCartsDB : DB :=
  { exDB with
    carts := [{ ID := "cart-a", ShopID := "shop-1", Status := CartStatus.CART_STATUS_ACTIVE,
                ProfileID := "", ContactID := "" },
              { ID := "cart-c", ShopID := "shop-1", Status := CartStatus.CART_STATUS_CONVERTED,
                ProfileID := "", ContactID := "" }],
    cartLines := [{ ID := "cl-1", CartID := "cart-c", ProductVariantID := "var-1",
                    Quantity := 2 }] }

/-- The state and reply of the fulfilment request that names `line-1` twice with
quantity 3, in the store reached by ordering 5 units. -/
def exDoubleFulfil : Except Code FulfilmentAPI × DB :=
  fulfilmentBusiness.CreateFulfilment exOrderedDB
    (exFulfilReq [⟨"line-1", 3⟩, ⟨"line-1", 3⟩]) "f1" exIds

/-- Status and fulfilment status of the order with this id, as read by `GetWithLines`. -/
def orderStatusOf (db : DB) (id : String) : Option (OrderStatus × FulfilmentStatus) :=
  (orderRepository.GetWithLines db id).map (fun o => (o.row.Status, o.row.FulfilmentStatus))

/-- A create-order request for the example shop with idempotency key `k1`. -/
def exIdemReq : CreateOrderRequest :=
  { ShopId := "shop-1", ProfileId := "profile-123", ContactId := "", AddressId := "",
    IdempotencyKey := "k1", Lines := [⟨"var-1", 1⟩] }

/-- The reply and state of the first `CreateOrder` with key `k1` on the example store. -/
def exIdemFirst : Except Code OrderAPI × DB :=
  orderBusiness.CreateOrder exDB exIdemReq "ORD-1" "o1" exIds

/-- The reply and state of `CreateOrder` for two lines of 60 units of the example
variant, whose stock is 100. -/
def exOversell : Except Code OrderAPI × DB :=
  orderBusiness.CreateOrder exDB (exOrderReq [⟨"var-1", 60⟩, ⟨"var-1", 60⟩]) "ORD-1" "o1" exIds

/-- The reply and state after adding 2 units of the example variant to the empty cart. -/
def exCartAdd2 : Except Code CartAPI × DB :=
  cartBusiness.AddCartLine exCartDB ⟨"cart-1", "var-1", 2⟩ "cl-1"

/-- The reply and state after adding 9223372036854775807 units (the largest `int64`) of
the example variant to the empty cart. -/
def exCartAddMax : Except Code CartAPI × DB :=
  cartBusiness.AddCartLine exCartDB ⟨"cart-1", "var-1", 9223372036854775807⟩ "cl-1"

/-- Total quantity the lines of a cart hold for one variant (0 when there is none). -/
def quantityOf (lines : List CartLine) (variantID : String) : Int :=
  ((lines.filter (fun l => l.ProductVariantID == variantID)).map (fun l => l.Quantity)).sum

/-- The error code of a reply, if it is an error. -/
def codeOf {α : Type} (r : Except Code α) : Option Code :=
  match r with
  | .error e => some e
  | .ok _ => none

/-- A second variant, priced 100.00 in another currency, stock 50. -/
def exVariantKES : ProductVariant :=
  { ID := "var-2", ProductID := "prod-1", SKU := "SKU-Y", Name := "Other Variant",
    CurrencyCode := "KES", PriceUnits := 100, PriceNanos := 0, StockQuantity := 50,
    Product := some exProduct }

/-- The example store with both variants. -/
def exTwoCurrencyDB : DB := { exDB with variants := [exVariant, exVariantKES] }

/-- The store after adding 3 units of the example variant to the empty active cart. -/
def exCart3DB : DB :=
  (cartBusiness.AddCartLine exCartDB ⟨"cart-1", "var-1", 3⟩ "cl-1").2

/-- The store after `CreateFulfilment` of all 5 units of order `o1` (fulfilment `f1`,
status Pending). -/
def exPendingDB : DB :=
  (fulfilmentBusiness.CreateFulfilment exOrderedDB (exFulfilReq [⟨"line-1", 5⟩]) "f1" exIds).2

/-- The store after moving fulfilment `f1` to Delivered with `UpdateFulfilment`. -/
def exDeliveredDB : DB :=
  (fulfilmentBusiness.UpdateFulfilment exPendingDB
    { Id := "f1", Status := FulfilmentStatus.FULFILMENT_STATUS_DELIVERED, Carrier := "",
      TrackingNumber := "", ShippedAt := none, UpdateMask := [] }).2

/-- Status, carrier and tracking number of the fulfilment with this id. -/
def fulfilmentFieldsOf (db : DB) (id : String) :
    Option (FulfilmentStatus × String × String) :=
  (fulfilmentRepository.GetWithLines db id).map
    (fun f => (f.row.Status, f.row.Carrier, f.row.TrackingNumber))

/-- Lower-casing of the ASCII letters, used in the examples for `strings.ToLower`. -/
def asciiLower (s : String) : String :=
  String.mk (s.data.map Char.toLower)

/-- The store after `CreateFulfilment` of all 5 units (order `o1` is then Fulfilled) and a
later write of status Cancelled on the order row. -/
def exCancelledDB : DB :=
  { exPendingDB with
    orders := exPendingDB.orders.map
      (fun o => { o with Status := OrderStatus.ORDER_STATUS_CANCELLED }) }

/-- An update request for fulfilment `f1` with status Shipped and no mask. -/
def exShipReq : UpdateFulfilmentRequest :=
  { Id := "f1", Status := FulfilmentStatus.FULFILMENT_STATUS_SHIPPED, Carrier := "",
    TrackingNumber := "", ShippedAt := none, UpdateMask := [] }

/-- The store after `CreateFulfilment` of 3 of the 5 units of order `o1`. -/
def exPartialDB : DB :=
  (fulfilmentBusiness.CreateFulfilment exOrderedDB (exFulfilReq [⟨"line-1", 3⟩]) "f1" exIds).2

/-- The store after `CreateFulfilment` of 3 of the 5 units of order `o1` and a later write
of status Cancelled on the order row. -/
def exCancelledPartialDB : DB :=
  { exPartialDB with
    orders := exPartialDB.orders.map
      (fun o => { o with Status := OrderStatus.ORDER_STATUS_CANCELLED }) }

/-- Two `CreateOrder` calls in sequence, each for 60 units of the example variant. -/
def exSixtyTwice : List (CreateOrderRequest × String × String × (Nat → String)) :=
  [(exOrderReq [⟨"var-1", 60⟩], "ORD-1", "o1", exIds),
   (exOrderReq [⟨"var-1", 60⟩], "ORD-2", "o2", exIds)]

/-! ## Properties of the store -/

/-- The fulfilment bound: no order line is fulfilled beyond its ordered quantity. -/
def fulfilmentWithinOrdered (db : DB) : Prop :=
  ∀ ol ∈ db.orderLines,
    fulfilmentLineRepository.sumQuantity db ol.ID ≤ ol.Quantity

instance (db : DB) : Decidable (fulfilmentWithinOrdered db) := by
  unfold fulfilmentWithinOrdered; infer_instance

/-- Stock of a variant as read by `GetByID`. -/
def stockOf (db : DB) (variantID : String) : Option Int :=
  (productVariantRepository.GetByID db variantID).map (fun v => v.StockQuantity)

/-- The lines of a cart as read by `GetWithLines`. -/
def cartLinesOf (db : DB) (cartID : String) : List CartLine :=
  db.cartLines.filter (fun l => l.CartID == cartID)

/-- Total quantity a list of request lines asks of one variant. -/
def requestedOf (lines : List CreateOrderLine) (variantID : String) : Int :=
  ((lines.filter (fun l => l.VariantId == variantID)).map (fun l => l.Quantity)).sum

/-- Total quantity the lines of an order message carry for one variant. -/
def orderedOf (lines : List OrderLineAPI) (variantID : String) : Int :=
  ((lines.filter (fun l => l.ProductVariantId == variantID)).map (fun l => l.Quantity)).sum

/-- The per-line validation as the specification words it: quantity must be positive
(else InvalidArgument), the variant must resolve (else NotFound), and the quantity must
not exceed the variant's visible stock (else FailedPrecondition); `none` for a line that
passes. -/
def lineCheck (db : DB) (l : CreateOrderLine) : Option Code :=
  if l.Quantity ≤ 0 then some Code.InvalidArgument
  else
    match productVariantRepository.GetByID db l.VariantId with
    | none => some Code.NotFound
    | some v => if l.Quantity > v.StockQuantity then some Code.FailedPrecondition else none

/-- The mask names the field: its paths hold the field, or it is empty or absent, in
which case every field counts as named. -/
def maskNames (req : UpdateFulfilmentRequest) (field : String) : Prop :=
  req.UpdateMask = [] ∨ field ∈ req.UpdateMask

instance (req : UpdateFulfilmentRequest) (field : String) : Decidable (maskNames req field) := by
  unfold maskNames; infer_instance

/-- Position of a fulfilment status in the order Pending, Shipped, Delivered. -/
def statusRank : FulfilmentStatus → Option Nat
  | FulfilmentStatus.FULFILMENT_STATUS_PENDING => some 0
  | FulfilmentStatus.FULFILMENT_STATUS_SHIPPED => some 1
  | FulfilmentStatus.FULFILMENT_STATUS_DELIVERED => some 2
  | _ => none

/-- The first non-empty currency code of a list of codes, the empty code when there is
none. -/
def firstCurrency (codes : List String) : String :=
  (codes.find? (fun c => !(c == ""))).getD ""

/-- Currency code of the variant a request line names (empty when it does not resolve). -/
def variantCurrency (db : DB) (l : CreateOrderLine) : String :=
  ((productVariantRepository.GetByID db l.VariantId).map (fun v => v.CurrencyCode)).getD ""

/-- The value is representable as a Go `int32`. -/
def isInt32 (x : Int) : Prop :=
  -2147483648 ≤ x ∧ x ≤ 2147483647

/-- The columns of an order other than status and fulfilment status. -/
def orderFixedFields (o : Order) :
    String × String × String × String × PaymentStatus × String × String × String
      × (String × Int × Int) × (String × Int × Int) :=
  (o.ID, o.ShopID, o.OrderNumber, o.IdempotencyKey, o.PaymentStatus, o.ProfileID,
   o.ContactID, o.AddressID, (o.SubtotalCurrency, o.SubtotalUnits, o.SubtotalNanos),
   (o.TotalCurrency, o.TotalUnits, o.TotalNanos))

/-- The order line `buildOrderLines` builds for a variant and a quantity (orders.go
240-258): snapshot of SKU, name and unit price, and the line total. -/
def snapshotLine (v : ProductVariant) (quantity : Int) : OrderLine :=
  { ID := "", OrderID := "",
    ProductVariantID := v.ID,
    SKUSnapshot := v.SKU,
    NameSnapshot := v.Name,
    UnitPriceCurrency := v.CurrencyCode,
    UnitPriceUnits := v.PriceUnits,
    UnitPriceNanos := v.PriceNanos,
    Quantity := quantity,
    TotalPriceCurrency := v.CurrencyCode,
    TotalPriceUnits := (lineTotal v.PriceUnits v.PriceNanos quantity).1,
    TotalPriceNanos := (lineTotal v.PriceUnits v.PriceNanos quantity).2 }

/-- The order line is the one built for the request line: the variant resolves, the
quantity is positive and within the visible stock, and the line is the snapshot. -/
def builtFrom (db : DB) (l : CreateOrderLine) (ol : OrderLine) : Prop :=
  ∃ v, productVariantRepository.GetByID db l.VariantId = some v
    ∧ 0 < l.Quantity ∧ l.Quantity ≤ v.StockQuantity
    ∧ ol = snapshotLine v l.Quantity

/-- One step of the running subtotal: the line total of an order line is accumulated. -/
def addLine (s : Int × Int) (l : OrderLine) : Int × Int :=
  accumulate s.1 s.2 l.TotalPriceUnits l.TotalPriceNanos

/-- The exact amount of a list of order lines, in nanos. -/
def exactTotal (lines : List OrderLine) : Int :=
  (lines.map (fun l => l.TotalPriceUnits * 1000000000 + l.TotalPriceNanos)).sum

/-- A bound on the units any running subtotal over the lines can reach: the magnitudes of
the line units plus one carry for each line. -/
def unitsBound (lines : List OrderLine) : Int :=
  (lines.map (fun l => (l.TotalPriceUnits.natAbs : Int) + 1)).sum

/-- A sequential sequence of `CreateOrder` calls, each with its generated values; the
store after the last call. -/
def runOrders (db : DB) :
    List (CreateOrderRequest × String × String × (Nat → String)) → DB
  | [] => db
  | c :: rest => runOrders (orderBusiness.CreateOrder db c.1 c.2.1 c.2.2.1 c.2.2.2).2 rest

/-- The effective slug of a create-shop request as the specification words it: the trimmed
slug, or when that is empty the lower-cased name with each space replaced by a hyphen. -/
def effectiveSlug (toLower : String → String) (req : CreateShopRequest) : String :=
  if TrimSpace req.Slug = "" then toLower (replaceSpaces (TrimSpace req.Name))
  else TrimSpace req.Slug

/-- Claim C1 (fails on the code): for the price 10.50 (units 10, nanos 500000000) and
quantity 5, with stock 100, `buildOrderLines` stores the line total units 49 and nanos
-794967296, because the nanos product 2500000000 is converted to `int32` before the
carry; the stored amount is not the exact product 52.50 and its nanos are negative. -/
theorem C1_line_total_truncated_to_int32 :
    (orderBusiness.buildOrderLines exDB "shop-1" [⟨"var-1", 5⟩]).toOption.map
        (fun b => b.orderLines.map (fun l => (l.TotalPriceUnits, l.TotalPriceNanos)))
      = some [(49, -794967296)]
    ∧ (0 : Int) ≤ 10 ∧ (0 : Int) ≤ 500000000 ∧ (500000000 : Int) < 1000000000
    ∧ (0 : Int) < 5 ∧ isInt64 (10 * 5)
    ∧ (49 : Int) * 1000000000 + (-794967296) ≠ (10 * 1000000000 + 500000000) * 5
    ∧ ¬ ((0 : Int) ≤ -794967296) := by
  decide

/-- Claim C2: for the unit price units 10, nanos 500000000, `buildOrderLines` computes
the line total (21, 0) for quantity 2 and (31, 500000000) for quantity 3, and
`CreateOrder` of the single line of quantity 2 returns an order whose total is
units 21, nanos 0, whatever identifiers and order number are generated. -/
theorem C2_money_multiply_examples :
    (orderBusiness.buildOrderLines exDB "shop-1" [⟨"var-1", 2⟩]).toOption.map
        (fun b => b.orderLines.map (fun l => (l.TotalPriceUnits, l.TotalPriceNanos)))
      = some [(21, 0)]
    ∧ (orderBusiness.buildOrderLines exDB "shop-1" [⟨"var-1", 3⟩]).toOption.map
        (fun b => b.orderLines.map (fun l => (l.TotalPriceUnits, l.TotalPriceNanos)))
      = some [(31, 500000000)]
    ∧ ∀ (orderNumber orderID : String) (ids : Nat → String),
        (orderBusiness.CreateOrder exDB (exOrderReq [⟨"var-1", 2⟩])
            orderNumber orderID ids).1.toOption.map (fun o => o.Total)
          = some (some { CurrencyCode := "USD", Units := 21, Nanos := 0 }) := by
  refine ⟨by decide, by decide, ?_⟩
  intro orderNumber orderID ids
  have hb : orderBusiness.buildOrderLines exDB "shop-1" [⟨"var-1", 2⟩]
      = .ok { orderLines :=
                [{ ID := "", OrderID := "", ProductVariantID := "var-1",
                   SKUSnapshot := "SKU-X", NameSnapshot := "Test Variant",
                   UnitPriceCurrency := "USD", UnitPriceUnits := 10,
                   UnitPriceNanos := 500000000, Quantity := 2,
                   TotalPriceCurrency := "USD", TotalPriceUnits := 21,
                   TotalPriceNanos := 0 }],
              subtotalCurrency := "USD", subtotalUnits := 21, subtotalNanos := 0 } := by
    rfl
  have hs : shopRepository.GetByID exDB "shop-1" = some exShop := by decide
  have ho : exDB.orders = [] := rfl
  simp [orderBusiness.CreateOrder, exOrderReq, hb, hs, ho,
    orderRepository.Create, orderBusiness.createLines, orderLineRepository.Create,
    productVariantRepository.DecrementStock, orderBusiness.GetOrder,
    orderRepository.GetWithLines, LoadedOrder.ToAPI, MoneyToProto, Except.toOption]

/-- Claim C3 (fails on the code): in the store reached by ordering 5 units, where the
fulfilment bound holds, one `CreateFulfilment` request that names the order line twice
with quantity 3 passes both remaining-quantity checks (each sees 5 remaining), succeeds,
and leaves the order line fulfilled for 6 of 5: the bound no longer holds. -/
theorem C3_duplicate_lines_break_fulfilment_bound :
    fulfilmentWithinOrdered exOrderedDB
    ∧ (fulfilmentBusiness.CreateFulfilment exOrderedDB
          (exFulfilReq [⟨"line-1", 3⟩, ⟨"line-1", 3⟩]) "f1" exIds).1.toOption.isSome = true
    ∧ (fulfilmentLineRepository.GetFulfilledQuantityByOrderLineID
        (fulfilmentBusiness.CreateFulfilment exOrderedDB
          (exFulfilReq [⟨"line-1", 3⟩, ⟨"line-1", 3⟩]) "f1" exIds).2 "line-1").toOption
        = some 6
    ∧ ¬ fulfilmentWithinOrdered
        (fulfilmentBusiness.CreateFulfilment exOrderedDB
          (exFulfilReq [⟨"line-1", 3⟩, ⟨"line-1", 3⟩]) "f1" exIds).2 := by
  decide

/-- The fulfilled quantity reads as the exact sum when the sum is an `int64` value. -/
theorem GetFulfilledQuantity_of_isInt64 {db : DB} {id : String}
    (h : isInt64 (fulfilmentLineRepository.sumQuantity db id)) :
    fulfilmentLineRepository.GetFulfilledQuantityByOrderLineID db id
      = .ok (fulfilmentLineRepository.sumQuantity db id) := by
  unfold fulfilmentLineRepository.GetFulfilledQuantityByOrderLineID
  unfold isInt64 at h
  simp only [h, and_self, if_true]

/-- The fulfilled quantity cannot be read when the sum is not an `int64` value. -/
theorem GetFulfilledQuantity_of_not_isInt64 {db : DB} {id : String}
    (h : ¬ isInt64 (fulfilmentLineRepository.sumQuantity db id)) :
    fulfilmentLineRepository.GetFulfilledQuantityByOrderLineID db id
      = .error Code.Internal := by
  unfold fulfilmentLineRepository.GetFulfilledQuantityByOrderLineID
  unfold isInt64 at h
  simp only [h, if_false]

/-- A value found in `orderLineMap` is a line of the list and carries the key as id. -/
theorem orderLineMap_some {lines : List OrderLine} {k : String} {ol : OrderLine}
    (h : orderLineMap lines k = some ol) : ol ∈ lines ∧ ol.ID = k := by
  induction lines with
  | nil => simp [orderLineMap] at h
  | cons x rest ih =>
    unfold orderLineMap at h
    cases hr : orderLineMap rest k with
    | some later =>
      rw [hr] at h
      simp only [Option.some.injEq] at h
      subst h
      exact ⟨List.mem_cons_of_mem _ (ih hr).1, (ih hr).2⟩
    | none =>
      rw [hr] at h
      by_cases hx : x.ID = k
      · simp only [hx, if_true, Option.some.injEq] at h
        subst h
        exact ⟨List.mem_cons_self _ _, hx⟩
      · simp [hx] at h

/-- No line of the list carries the key exactly when `orderLineMap` has no entry. -/
theorem orderLineMap_none {lines : List OrderLine} {k : String}
    (h : orderLineMap lines k = none) : ∀ ol ∈ lines, ol.ID ≠ k := by
  induction lines with
  | nil => simp
  | cons x rest ih =>
    unfold orderLineMap at h
    cases hr : orderLineMap rest k with
    | some later => rw [hr] at h; simp at h
    | none =>
      rw [hr] at h
      by_cases hx : x.ID = k
      · simp [hx] at h
      · intro ol hol
        rcases List.mem_cons.1 hol with rfl | hmem
        · exact hx
        · exact ih hr ol hmem

/-- With unique line ids, `orderLineMap` returns the line that carries the key. -/
theorem orderLineMap_of_mem {lines : List OrderLine}
    (hnd : (lines.map (fun l => l.ID)).Nodup) {ol : OrderLine} (hm : ol ∈ lines) :
    orderLineMap lines ol.ID = some ol := by
  cases h : orderLineMap lines ol.ID with
  | none => exact absurd rfl (orderLineMap_none h ol hm)
  | some ol2 =>
    have h2 := orderLineMap_some h
    have : ol2 = ol := List.inj_on_of_nodup_map hnd h2.1 hm h2.2
    rw [this]

/-- The `int64` subtraction of the remaining quantity does not hide an excess: when the
exact difference is not below the `int64` minimum, a quantity above the exact difference
is above the wrapped difference too. -/
theorem gt_wrapInt64_of_gt {q x : Int} (hx : -9223372036854775808 ≤ x) (h : q > x) :
    q > wrapInt64 x := by
  unfold wrapInt64
  omega

/-- The validation loop fails with FailedPrecondition when every requested line names a
line of the order and some requested line exceeds the remaining quantity. -/
theorem validateLines_exceeding (db : DB) (lines : List OrderLine)
    (hnd : (lines.map (fun l => l.ID)).Nodup)
    (hpos : ∀ ol ∈ lines, 0 < ol.Quantity)
    (hsum : ∀ ol ∈ lines, isInt64 (fulfilmentLineRepository.sumQuantity db ol.ID)) :
    ∀ reqLines : List FulfilmentLineAPI,
      (∀ fl ∈ reqLines, ∃ ol ∈ lines, ol.ID = fl.OrderLineId) →
      (∃ fl ∈ reqLines, ∃ ol ∈ lines, ol.ID = fl.OrderLineId ∧
        fl.Quantity > ol.Quantity
          - fulfilmentLineRepository.sumQuantity db fl.OrderLineId) →
      fulfilmentBusiness.validateLines db lines reqLines = some Code.FailedPrecondition := by
  intro reqLines
  induction reqLines with
  | nil => intro _ h; simp at h
  | cons fl rest ih =>
    intro hbel hex
    obtain ⟨ol, holm, hid⟩ := hbel fl (List.mem_cons_self _ _)
    have hmap : orderLineMap lines fl.OrderLineId = some ol := by
      rw [← hid]; exact orderLineMap_of_mem hnd holm
    have hread := GetFulfilledQuantity_of_isInt64 (hsum ol holm)
    rw [hid] at hread
    unfold fulfilmentBusiness.validateLines
    simp only [hmap, hread]
    by_cases hgt : fl.Quantity > wrapInt64 (ol.Quantity
        - fulfilmentLineRepository.sumQuantity db fl.OrderLineId)
    · simp [hgt]
    · simp only [hgt, if_false]
      apply ih (fun f hf => hbel f (List.mem_cons_of_mem _ hf))
      obtain ⟨f, hf, o, hom, hoid, hq⟩ := hex
      rcases List.mem_cons.1 hf with rfl | hfr
      · exfalso
        have hoo : o = ol := List.inj_on_of_nodup_map hnd hom holm (hoid.trans hid.symm)
        subst hoo
        apply hgt
        apply gt_wrapInt64_of_gt _ hq
        have h1 := hpos o hom
        have h2 := hsum o hom
        rw [hoid] at h2
        unfold isInt64 at h2
        omega
      · exact ⟨f, hfr, o, hom, hoid, hq⟩

/-- Claim C4: for an order that is not cancelled and a request whose line ids all belong
to the order, if some requested line asks for more than the referenced order line's
quantity minus its fulfilled sum, `CreateFulfilment` fails with FailedPrecondition and the
store is unchanged (no Fulfilment and no FulfilmentLine row is created).  The store is
well-typed: order line ids are unique, ordered quantities are positive and the fulfilled
sums are `int64` values. -/
theorem C4_exceeding_remaining_fails (db : DB) (req : CreateFulfilmentRequest)
    (fulfilmentID : String) (ids : Nat → String) (order : LoadedOrder)
    (hload : orderRepository.GetWithLines db req.OrderId = some order)
    (hstatus : order.row.Status ≠ OrderStatus.ORDER_STATUS_CANCELLED)
    (hnd : (order.Lines.map (fun l => l.ID)).Nodup)
    (hpos : ∀ ol ∈ order.Lines, 0 < ol.Quantity)
    (hsum : ∀ ol ∈ order.Lines, isInt64 (fulfilmentLineRepository.sumQuantity db ol.ID))
    (hbelong : ∀ fl ∈ req.Lines, ∃ ol ∈ order.Lines, ol.ID = fl.OrderLineId)
    (hexceed : ∃ fl ∈ req.Lines, ∃ ol ∈ order.Lines, ol.ID = fl.OrderLineId ∧
        fl.Quantity > ol.Quantity
          - fulfilmentLineRepository.sumQuantity db fl.OrderLineId) :
    fulfilmentBusiness.CreateFulfilment db req fulfilmentID ids
      = (.error Code.FailedPrecondition, db) := by
  have hne : req.Lines.length ≠ 0 := by
    obtain ⟨fl, hfl, _⟩ := hexceed
    intro h0
    rw [List.length_eq_zero] at h0
    rw [h0] at hfl
    simp at hfl
  have hv := validateLines_exceeding db order.Lines hnd hpos hsum req.Lines hbelong hexceed
  unfold fulfilmentBusiness.CreateFulfilment
  simp only [hload, hstatus, hne, hv, if_false]

/-- Witness for C4 (the suite's case): in the store reached by ordering 5 units, a
fulfilment request for 10 units of the order line fails with FailedPrecondition and
changes nothing. -/
theorem C4_exceeding_remaining_fails_witness :
    fulfilmentBusiness.CreateFulfilment exOrderedDB (exFulfilReq [⟨"line-1", 10⟩]) "f1" exIds
      = (.error Code.FailedPrecondition, exOrderedDB) :=
  C4_exceeding_remaining_fails exOrderedDB (exFulfilReq [⟨"line-1", 10⟩]) "f1" exIds
    { row := { ID := "o1", ShopID := "shop-1", OrderNumber := "ORD-1",
               IdempotencyKey := "ORD-1",
               Status := OrderStatus.ORDER_STATUS_CONFIRMED,
               PaymentStatus := PaymentStatus.PAYMENT_STATUS_PENDING,
               FulfilmentStatus := FulfilmentStatus.FULFILMENT_STATUS_UNSPECIFIED,
               ProfileID := "profile-123", ContactID := "", AddressID := "",
               SubtotalCurrency := "USD", SubtotalUnits := 49, SubtotalNanos := -794967296,
               TotalCurrency := "USD", TotalUnits := 49, TotalNanos := -794967296 },
      Lines := exOrderedDB.orderLines }
    (by decide) (by decide) (by decide) (by decide) (by decide) (by decide) (by decide)

/-- The insertion loop of `CreateFulfilment` touches the fulfilment lines only. -/
theorem fulfilment_createLines_frame (fid : String) (ids : Nat → String) :
    ∀ (lines : List FulfilmentLineAPI) (i : Nat) (db : DB),
      (fulfilmentBusiness.createLines fid ids i lines db).orders = db.orders
      ∧ (fulfilmentBusiness.createLines fid ids i lines db).orderLines = db.orderLines := by
  intro lines
  induction lines with
  | nil => intro i db; simp [fulfilmentBusiness.createLines]
  | cons fl rest ih =>
    intro i db
    unfold fulfilmentBusiness.createLines
    have h := ih (i + 1) (fulfilmentLineRepository.Create db
        { ID := ids i, FulfilmentID := fid, OrderLineID := fl.OrderLineId,
          Quantity := fl.Quantity })
    simpa [fulfilmentLineRepository.Create] using h

/-- The loop of `updateOrderFulfilmentStatus` answers true exactly when the fulfilled sum of
every order line can be read (it is an `int64` value) and is not below the ordered
quantity. -/
theorem allFulfilled_iff (db : DB) (lines : List OrderLine) :
    fulfilmentBusiness.allFulfilled db lines = true ↔
      ∀ ol ∈ lines,
        isInt64 (fulfilmentLineRepository.sumQuantity db ol.ID)
        ∧ ol.Quantity ≤ fulfilmentLineRepository.sumQuantity db ol.ID := by
  induction lines with
  | nil => simp [fulfilmentBusiness.allFulfilled]
  | cons x rest ih =>
    unfold fulfilmentBusiness.allFulfilled
    by_cases hi : isInt64 (fulfilmentLineRepository.sumQuantity db x.ID)
    · rw [GetFulfilledQuantity_of_isInt64 hi]
      simp only []
      by_cases hx : fulfilmentLineRepository.sumQuantity db x.ID < x.Quantity
      · simp only [hx, if_true, List.mem_cons, forall_eq_or_imp]
        constructor
        · intro h; cases h
        · intro h; exact absurd h.1.2 (not_le.mpr hx)
      · simp only [hx, if_false, List.mem_cons, forall_eq_or_imp, ih]
        constructor
        · intro h; exact ⟨⟨hi, not_lt.mp hx⟩, h⟩
        · intro h; exact h.2
    · rw [GetFulfilledQuantity_of_not_isInt64 hi]
      simp only [List.mem_cons, forall_eq_or_imp]
      constructor
      · intro h; cases h
      · intro h; exact absurd h.1.1 hi

/-- Reading an order after `updateOrderFulfilmentStatus`: same lines, and the two status
columns are Fulfilled and Delivered when the loop answered true, unchanged otherwise. -/
theorem updateOrderFulfilmentStatus_read (db : DB) (order : LoadedOrder) (id : String)
    (hload : orderRepository.GetWithLines db id = some order) :
    ∃ order2,
      orderRepository.GetWithLines
          (fulfilmentBusiness.updateOrderFulfilmentStatus db order) id = some order2
      ∧ order2.Lines = order.Lines
      ∧ (fulfilmentBusiness.updateOrderFulfilmentStatus db order).fulfilmentLines
          = db.fulfilmentLines
      ∧ (fulfilmentBusiness.allFulfilled db order.Lines = true →
          order2.row.Status = OrderStatus.ORDER_STATUS_FULFILLED
          ∧ order2.row.FulfilmentStatus = FulfilmentStatus.FULFILMENT_STATUS_DELIVERED)
      ∧ (fulfilmentBusiness.allFulfilled db order.Lines = false →
          order2.row.Status = order.row.Status
          ∧ order2.row.FulfilmentStatus = order.row.FulfilmentStatus) := by
  unfold orderRepository.GetWithLines at hload
  cases hf : db.orders.find? (fun o => o.ID == id) with
  | none => rw [hf] at hload; simp at hload
  | some o =>
    rw [hf] at hload
    simp only [Option.some.injEq] at hload
    have hoid : o.ID = id := by
      have := List.find?_some hf
      simpa using this
    subst hload
    cases hall : fulfilmentBusiness.allFulfilled db
        (db.orderLines.filter (fun l => l.OrderID == o.ID)) with
    | false =>
      refine ⟨⟨o, db.orderLines.filter (fun l => l.OrderID == o.ID)⟩, ?_, rfl, ?_, ?_, ?_⟩
      · simp [fulfilmentBusiness.updateOrderFulfilmentStatus, hall,
          orderRepository.GetWithLines, hf]
      · simp [fulfilmentBusiness.updateOrderFulfilmentStatus, hall]
      · intro h; cases h
      · intro _; exact ⟨rfl, rfl⟩
    | true =>
      refine ⟨⟨{ o with Status := OrderStatus.ORDER_STATUS_FULFILLED,
                        FulfilmentStatus := FulfilmentStatus.FULFILMENT_STATUS_DELIVERED },
               db.orderLines.filter (fun l => l.OrderID == o.ID)⟩, ?_, rfl, ?_, ?_, ?_⟩
      · have hcomp : ((fun o2 : Order => o2.ID == id) ∘ fun o2 : Order =>
            if o2.ID = o.ID then
              { o2 with Status := OrderStatus.ORDER_STATUS_FULFILLED,
                        FulfilmentStatus := FulfilmentStatus.FULFILMENT_STATUS_DELIVERED }
            else o2) = fun o2 : Order => o2.ID == id := by
          funext o2
          by_cases h2 : o2.ID = o.ID <;> simp [h2]
        simp [fulfilmentBusiness.updateOrderFulfilmentStatus, hall,
          orderRepository.GetWithLines, orderRepository.Update, hcomp, hf]
      · simp [fulfilmentBusiness.updateOrderFulfilmentStatus, hall, orderRepository.Update]
      · intro _; exact ⟨rfl, rfl⟩
      · intro h; cases h

/-- Claim C5 (fails on the code): the request that names the order line of quantity 5
twice with quantity 3 succeeds and the order becomes Fulfilled and Delivered, although the
line's fulfilled sum is 6 and not equal to its ordered quantity 5. -/
theorem C5_fulfilled_without_equality :
    exDoubleFulfil.1.toOption.isSome = true
    ∧ orderStatusOf exOrderedDB "o1"
        = some (OrderStatus.ORDER_STATUS_CONFIRMED,
                FulfilmentStatus.FULFILMENT_STATUS_UNSPECIFIED)
    ∧ orderStatusOf exDoubleFulfil.2 "o1"
        = some (OrderStatus.ORDER_STATUS_FULFILLED,
                FulfilmentStatus.FULFILMENT_STATUS_DELIVERED)
    ∧ (exDoubleFulfil.2.orderLines.map (fun l => (l.ID, l.OrderID, l.Quantity)))
        = [("line-1", "o1", 5)]
    ∧ (fulfilmentLineRepository.GetFulfilledQuantityByOrderLineID
          exDoubleFulfil.2 "line-1").toOption = some 6
    ∧ ¬ (∀ ol ∈ exDoubleFulfil.2.orderLines,
          (fulfilmentLineRepository.GetFulfilledQuantityByOrderLineID
            exDoubleFulfil.2 ol.ID).toOption = some ol.Quantity) := by
  decide

/-- The order read after a successful `CreateFulfilment`: it keeps its lines; when the
fulfilled sum of every order line can be read and is not below the ordered quantity the
order's status is Fulfilled and its fulfilment status Delivered, and in every other case
both are the same as before the call. -/
theorem CreateFulfilment_order_status (db : DB) (req : CreateFulfilmentRequest)
    (fulfilmentID : String) (ids : Nat → String) (order : LoadedOrder) (f : FulfilmentAPI)
    (hload : orderRepository.GetWithLines db req.OrderId = some order)
    (hok : (fulfilmentBusiness.CreateFulfilment db req fulfilmentID ids).1 = .ok f) :
    ∃ order2,
      orderRepository.GetWithLines
          (fulfilmentBusiness.CreateFulfilment db req fulfilmentID ids).2 req.OrderId
        = some order2
      ∧ order2.Lines = order.Lines
      ∧ ((∀ ol ∈ order.Lines,
            isInt64 (fulfilmentLineRepository.sumQuantity
              (fulfilmentBusiness.CreateFulfilment db req fulfilmentID ids).2 ol.ID)
            ∧ ol.Quantity ≤ fulfilmentLineRepository.sumQuantity
              (fulfilmentBusiness.CreateFulfilment db req fulfilmentID ids).2 ol.ID) →
          order2.row.Status = OrderStatus.ORDER_STATUS_FULFILLED
          ∧ order2.row.FulfilmentStatus = FulfilmentStatus.FULFILMENT_STATUS_DELIVERED)
      ∧ (¬ (∀ ol ∈ order.Lines,
            isInt64 (fulfilmentLineRepository.sumQuantity
              (fulfilmentBusiness.CreateFulfilment db req fulfilmentID ids).2 ol.ID)
            ∧ ol.Quantity ≤ fulfilmentLineRepository.sumQuantity
              (fulfilmentBusiness.CreateFulfilment db req fulfilmentID ids).2 ol.ID) →
          order2.row.Status = order.row.Status
          ∧ order2.row.FulfilmentStatus = order.row.FulfilmentStatus) := by
  unfold fulfilmentBusiness.CreateFulfilment at hok ⊢
  simp only [hload] at hok ⊢
  by_cases hc : order.row.Status = OrderStatus.ORDER_STATUS_CANCELLED
  · simp [hc] at hok
  · simp only [hc, if_false] at hok ⊢
    by_cases hl : req.Lines.length = 0
    · simp [hl] at hok
    · simp only [hl, if_false] at hok ⊢
      cases hv : fulfilmentBusiness.validateLines db order.Lines req.Lines with
      | some e => simp [hv] at hok
      | none =>
        simp only []
        have hfr := fulfilment_createLines_frame fulfilmentID ids req.Lines 0
          (fulfilmentRepository.Create db
            { ID := fulfilmentID, OrderID := req.OrderId,
              Status := FulfilmentStatus.FULFILMENT_STATUS_PENDING,
              Carrier := "", TrackingNumber := "" })
        have hload2 : orderRepository.GetWithLines
            (fulfilmentBusiness.createLines fulfilmentID ids 0 req.Lines
              (fulfilmentRepository.Create db
                { ID := fulfilmentID, OrderID := req.OrderId,
                  Status := FulfilmentStatus.FULFILMENT_STATUS_PENDING,
                  Carrier := "", TrackingNumber := "" })) req.OrderId = some order := by
          rw [← hload]
          unfold orderRepository.GetWithLines
          rw [hfr.1, hfr.2]
          rfl
        obtain ⟨order2, hget, hlines, hfl, htrue, hfalse⟩ :=
          updateOrderFulfilmentStatus_read _ order req.OrderId hload2
        refine ⟨order2, hget, hlines, ?_, ?_⟩
        · intro hall
          apply htrue
          rw [allFulfilled_iff]
          intro ol hol
          have := hall ol hol
          simpa [fulfilmentLineRepository.sumQuantity, hfl] using this
        · intro hnall
          apply hfalse
          cases hb : fulfilmentBusiness.allFulfilled
              (fulfilmentBusiness.createLines fulfilmentID ids 0 req.Lines
                (fulfilmentRepository.Create db
                  { ID := fulfilmentID, OrderID := req.OrderId,
                    Status := FulfilmentStatus.FULFILMENT_STATUS_PENDING,
                    Carrier := "", TrackingNumber := "" })) order.Lines with
          | false => rfl
          | true =>
            exfalso
            apply hnall
            rw [allFulfilled_iff] at hb
            intro ol hol
            have := hb ol hol
            simpa [fulfilmentLineRepository.sumQuantity, hfl] using this

/-- The suite's case of a partial fulfilment: an order with one line of quantity 5 that is
fulfilled for 3 stays Confirmed. -/
theorem CreateFulfilment_order_status_partial :
    orderStatusOf exOrderedDB "o1"
        = some (OrderStatus.ORDER_STATUS_CONFIRMED,
                FulfilmentStatus.FULFILMENT_STATUS_UNSPECIFIED)
    ∧ orderStatusOf
        (fulfilmentBusiness.CreateFulfilment exOrderedDB
          (exFulfilReq [⟨"line-1", 3⟩]) "f1" exIds).2 "o1"
        = some (OrderStatus.ORDER_STATUS_CONFIRMED,
                FulfilmentStatus.FULFILMENT_STATUS_UNSPECIFIED) := by
  refine ⟨by decide, ?_⟩
  obtain ⟨order2, hget, _, _, hsame⟩ :=
    CreateFulfilment_order_status exOrderedDB (exFulfilReq [⟨"line-1", 3⟩]) "f1" exIds
      { row := { ID := "o1", ShopID := "shop-1", OrderNumber := "ORD-1",
                 IdempotencyKey := "ORD-1",
                 Status := OrderStatus.ORDER_STATUS_CONFIRMED,
                 PaymentStatus := PaymentStatus.PAYMENT_STATUS_PENDING,
                 FulfilmentStatus := FulfilmentStatus.FULFILMENT_STATUS_UNSPECIFIED,
                 ProfileID := "profile-123", ContactID := "", AddressID := "",
                 SubtotalCurrency := "USD", SubtotalUnits := 49,
                 SubtotalNanos := -794967296,
                 TotalCurrency := "USD", TotalUnits := 49, TotalNanos := -794967296 },
        Lines := exOrderedDB.orderLines }
      { Id := "f1", OrderId := "o1", Status := FulfilmentStatus.FULFILMENT_STATUS_PENDING,
        Carrier := "", TrackingNumber := "", Lines := [⟨"line-1", 3⟩] }
      (by decide) rfl
  have hs := hsame (by decide)
  have hget2 : orderRepository.GetWithLines
      (fulfilmentBusiness.CreateFulfilment exOrderedDB
        (exFulfilReq [⟨"line-1", 3⟩]) "f1" exIds).2 "o1" = some order2 := hget
  simp only [orderStatusOf, hget2, Option.map_some', hs.1, hs.2]

/-- The line loop of `CreateOrder` never reports an error and leaves the order rows
untouched. -/
theorem order_createLines_frame (oid : String) (ids : Nat → String) :
    ∀ (lines : List OrderLine) (i : Nat) (db : DB),
      (orderBusiness.createLines oid ids i lines db).1 = none
      ∧ (orderBusiness.createLines oid ids i lines db).2.orders = db.orders
      ∧ (orderBusiness.createLines oid ids i lines db).2.shops = db.shops := by
  intro lines
  induction lines with
  | nil => intro i db; simp [orderBusiness.createLines]
  | cons l rest ih =>
    intro i db
    unfold orderBusiness.createLines
    simp only [productVariantRepository.DecrementStock]
    exact ih (i + 1) _

/-- The order returned by `GetOrder` carries the id that was asked for. -/
theorem GetOrder_id {db : DB} {id : String} {r : OrderAPI}
    (h : orderBusiness.GetOrder db id = .ok r) : r.Id = id := by
  unfold orderBusiness.GetOrder orderRepository.GetWithLines at h
  cases hf : db.orders.find? (fun o => o.ID == id) with
  | none => rw [hf] at h; simp at h
  | some o =>
    rw [hf] at h
    simp only [Except.ok.injEq] at h
    have := List.find?_some hf
    rw [← h]
    simpa [LoadedOrder.ToAPI] using this

/-- The commit sequence of `CreateOrder` (header, lines, reload): when it returns an
order, that order carries the new header's id, and the first order of the resulting store
with the header's idempotency key is the new header, provided no earlier order had it. -/
theorem CreateOrder_commit (db : DB) (order : Order) (oid : String) (lines : List OrderLine)
    (ids : Nat → String) (r1 : OrderAPI) (db1 : DB) (key : String)
    (hkey : order.IdempotencyKey = key)
    (hnone : db.orders.find? (fun x => x.IdempotencyKey == key) = none)
    (h : (match orderBusiness.createLines oid ids 0 lines
              (orderRepository.Create db order) with
          | (some e, db2) => ((.error e : Except Code OrderAPI), db2)
          | (none, db2) => (orderBusiness.GetOrder db2 oid, db2)) = (.ok r1, db1)) :
    r1.Id = oid
    ∧ db1 = (orderBusiness.createLines oid ids 0 lines
              (orderRepository.Create db order)).2
    ∧ db1.orders.find? (fun x => x.IdempotencyKey == key) = some order := by
  have hfr := order_createLines_frame oid ids lines 0 (orderRepository.Create db order)
  cases hcl : orderBusiness.createLines oid ids 0 lines
      (orderRepository.Create db order) with
  | mk c db2 =>
    rw [hcl] at h hfr
    simp only at hfr
    obtain ⟨hc, hords, _⟩ := hfr
    subst hc
    simp only [Prod.mk.injEq] at h
    obtain ⟨hr, hdb⟩ := h
    subst hdb
    refine ⟨GetOrder_id hr, rfl, ?_⟩
    rw [hords]
    simp [orderRepository.Create, hnone, hkey]

/-- Claim C6: (1) in every state that holds an order with the non-empty idempotency key
of the request (the key is unique, as its index demands), `CreateOrder` returns that
order, loaded with its lines, and leaves the whole store unchanged, whatever the shop id
and the lines of the request; (2) after any successful `CreateOrder` with a non-empty
key, a second call with the same request returns the same order id and leaves the store,
and so the stock, as the first call left it. -/
theorem C6_idempotent_replay :
    (∀ (db : DB) (req : CreateOrderRequest) (orderNumber orderID : String)
        (ids : Nat → String) (o : Order),
        req.IdempotencyKey ≠ "" → o ∈ db.orders → o.IdempotencyKey = req.IdempotencyKey →
        (∀ o2 ∈ db.orders, o2.IdempotencyKey = req.IdempotencyKey → o2 = o) →
        orderBusiness.CreateOrder db req orderNumber orderID ids
          = (.ok (LoadedOrder.ToAPI
                { row := o, Lines := db.orderLines.filter (fun l => l.OrderID == o.ID) }),
             db))
    ∧ (∀ (db : DB) (req : CreateOrderRequest) (orderNumber orderID : String)
        (ids : Nat → String) (r1 : OrderAPI) (db1 : DB)
        (orderNumber2 orderID2 : String) (ids2 : Nat → String),
        req.IdempotencyKey ≠ "" →
        orderBusiness.CreateOrder db req orderNumber orderID ids = (.ok r1, db1) →
        ∃ r2, orderBusiness.CreateOrder db1 req orderNumber2 orderID2 ids2 = (.ok r2, db1)
          ∧ r2.Id = r1.Id) := by
  constructor
  · intro db req orderNumber orderID ids o hk hmem hkey huniq
    have hfind : db.orders.find? (fun x => x.IdempotencyKey == req.IdempotencyKey)
        = some o := by
      cases hf : db.orders.find? (fun x => x.IdempotencyKey == req.IdempotencyKey) with
      | none =>
        rw [List.find?_eq_none] at hf
        exact absurd (by simpa using hkey) (hf o hmem)
      | some o2 =>
        have h1 := List.find?_some hf
        have h2 := List.mem_of_find?_eq_some hf
        rw [huniq o2 h2 (by simpa using h1)]
    unfold orderBusiness.CreateOrder
    simp [hk, orderRepository.GetByIdempotencyKey, hfind]
  · intro db req orderNumber orderID ids r1 db1 orderNumber2 orderID2 ids2 hk h1
    unfold orderBusiness.CreateOrder at h1
    simp only [hk, ne_eq, not_false_eq_true, if_true] at h1
    cases hget : orderRepository.GetByIdempotencyKey db req.IdempotencyKey with
    | some existing =>
      rw [hget] at h1
      simp only [Prod.mk.injEq, Except.ok.injEq] at h1
      obtain ⟨hr, hdb⟩ := h1
      subst hdb
      refine ⟨existing.ToAPI, ?_, by rw [hr]⟩
      unfold orderBusiness.CreateOrder
      simp [hk, hget]
    | none =>
      rw [hget] at h1
      have hnone : db.orders.find? (fun x => x.IdempotencyKey == req.IdempotencyKey)
          = none := by
        unfold orderRepository.GetByIdempotencyKey at hget
        cases hf : db.orders.find? (fun x => x.IdempotencyKey == req.IdempotencyKey) with
        | none => rfl
        | some o2 => rw [hf] at hget; simp at hget
      cases hshop : shopRepository.GetByID db req.ShopId with
      | none => rw [hshop] at h1; simp at h1
      | some shop =>
        rw [hshop] at h1
        by_cases hl : req.Lines.length = 0
        · simp [hl] at h1
        · simp only [hl, if_false] at h1
          cases hb : orderBusiness.buildOrderLines db req.ShopId req.Lines with
          | error e => rw [hb] at h1; simp at h1
          | ok built =>
            rw [hb] at h1
            simp only [hk, if_false] at h1
            obtain ⟨hid1, hdb, hfind2⟩ := CreateOrder_commit db _ orderID built.orderLines ids
              r1 db1 req.IdempotencyKey rfl hnone h1
            rw [hid1]
            unfold orderBusiness.CreateOrder
            simp only [hk, ne_eq, not_false_eq_true, if_true,
              orderRepository.GetByIdempotencyKey, hfind2]
            exact ⟨_, rfl, rfl⟩

/-- Witness for C6: on the example store, the first call with key `k1` creates order `o1`
and takes the stock from 100 to 99; the second call, with other generated values, returns
order `o1` again and leaves the store as it was, so the stock is still 99. -/
theorem C6_idempotent_replay_witness :
    stockOf exIdemFirst.2 "var-1" = some 99
    ∧ (∃ r2, orderBusiness.CreateOrder exIdemFirst.2 exIdemReq "ORD-2" "o2" exIds
          = (.ok r2, exIdemFirst.2) ∧ r2.Id = "o1")
    ∧ (orderBusiness.CreateOrder exIdemFirst.2 exIdemReq "ORD-2" "o2" exIds).2
        = exIdemFirst.2 := by
  refine ⟨by decide, ?_, ?_⟩
  · exact C6_idempotent_replay.2 exDB exIdemReq "ORD-1" "o1" exIds
      { Id := "o1", ShopId := "shop-1", OrderNumber := "ORD-1",
        Status := OrderStatus.ORDER_STATUS_CONFIRMED,
        PaymentStatus := PaymentStatus.PAYMENT_STATUS_PENDING,
        FulfilmentStatus := FulfilmentStatus.FULFILMENT_STATUS_UNSPECIFIED,
        ProfileId := "profile-123", ContactId := "", AddressId := "",
        Subtotal := some { CurrencyCode := "USD", Units := 10, Nanos := 500000000 },
        Total := some { CurrencyCode := "USD", Units := 10, Nanos := 500000000 },
        Lines := [{ Id := "line-1", ProductVariantId := "var-1", SkuSnapshot := "SKU-X",
                    NameSnapshot := "Test Variant",
                    UnitPrice := some { CurrencyCode := "USD", Units := 10,
                                        Nanos := 500000000 },
                    Quantity := 1,
                    TotalPrice := some { CurrencyCode := "USD", Units := 10,
                                         Nanos := 500000000 } }] }
      exIdemFirst.2 "ORD-2" "o2" exIds (by decide) rfl
  · have h := C6_idempotent_replay.1 exIdemFirst.2 exIdemReq "ORD-2" "o2" exIds
      { ID := "o1", ShopID := "shop-1", OrderNumber := "ORD-1", IdempotencyKey := "k1",
        Status := OrderStatus.ORDER_STATUS_CONFIRMED,
        PaymentStatus := PaymentStatus.PAYMENT_STATUS_PENDING,
        FulfilmentStatus := FulfilmentStatus.FULFILMENT_STATUS_UNSPECIFIED,
        ProfileID := "profile-123", ContactID := "", AddressID := "",
        SubtotalCurrency := "USD", SubtotalUnits := 10, SubtotalNanos := 500000000,
        TotalCurrency := "USD", TotalUnits := 10, TotalNanos := 500000000 }
      (by decide) (by decide) (by decide) (by decide)
    rw [h]

/-- When the shop exists the shop check of `buildOrderLines` passes for every variant,
whether its product is loaded or not. -/
theorem productShopCheck_of_shop {db : DB} {shopID : String} {shop : Shop}
    (hshop : shopRepository.GetByID db shopID = some shop) (v : ProductVariant) :
    orderBusiness.productShopCheck db shopID v = none := by
  unfold orderBusiness.productShopCheck
  cases v.Product with
  | some p => rfl
  | none => simp only [hshop]

/-- The loop of `buildOrderLines` fails with FailedPrecondition when the shop exists, every
line names a known variant with a positive quantity, and some line asks for more than the
stock of its variant. -/
theorem buildOrderLinesLoop_excess (db : DB) (shopID : String) (shop : Shop)
    (hshop : shopRepository.GetByID db shopID = some shop) :
    ∀ (lines : List CreateOrderLine) (acc : BuiltLines),
      (∀ l ∈ lines, (productVariantRepository.GetByID db l.VariantId).isSome = true) →
      (∀ l ∈ lines, 0 < l.Quantity) →
      (∃ l ∈ lines, ∃ v, productVariantRepository.GetByID db l.VariantId = some v
          ∧ v.StockQuantity < l.Quantity) →
      orderBusiness.buildOrderLinesLoop db shopID lines acc
        = .error Code.FailedPrecondition := by
  intro lines
  induction lines with
  | nil => intro acc _ _ h; simp at h
  | cons l rest ih =>
    intro acc hknown hpos hex
    have hq : ¬ l.Quantity ≤ 0 := not_le.mpr (hpos l (List.mem_cons_self _ _))
    have hk := hknown l (List.mem_cons_self _ _)
    cases hv : productVariantRepository.GetByID db l.VariantId with
    | none => rw [hv] at hk; simp at hk
    | some v =>
      unfold orderBusiness.buildOrderLinesLoop
      simp only [hq, if_false, hv, productShopCheck_of_shop hshop v]
      by_cases hst : v.StockQuantity < l.Quantity
      · simp only [hst, if_true]
      · simp only [hst, if_false]
        apply ih _ (fun x hx => hknown x (List.mem_cons_of_mem _ hx))
          (fun x hx => hpos x (List.mem_cons_of_mem _ hx))
        obtain ⟨x, hx, w, hw, hlt⟩ := hex
        rcases List.mem_cons.1 hx with rfl | hxr
        · rw [hv] at hw
          simp only [Option.some.injEq] at hw
          subst hw
          exact absurd hlt hst
        · exact ⟨x, hxr, w, hw, hlt⟩

/-- Claim C7 (fails on the code as stated): with the shop present, the variant known and
both quantities positive, two request lines of 60 units ask 120 units of a variant whose
stock is 100; each line alone passes the stock check, `CreateOrder` returns an order
instead of FailedPrecondition, and the stock has changed to 40. -/
theorem C7_summed_excess_is_accepted :
    (shopRepository.GetByID exDB "shop-1").isSome = true
    ∧ (productVariantRepository.GetByID exDB "var-1").isSome = true
    ∧ stockOf exDB "var-1" = some 100
    ∧ requestedOf [⟨"var-1", 60⟩, ⟨"var-1", 60⟩] "var-1" = 120
    ∧ exOversell.1.toOption.isSome = true
    ∧ stockOf exOversell.2 "var-1" = some 40 := by
  decide

/-- Claim C7 (amended): for every `CreateOrder` request that is not an idempotent replay,
with an existing shop, known variants and positive quantities, if some single request
line asks for more than the current stock of its variant, `CreateOrder` fails with
FailedPrecondition and the store, so the stock of every variant, is unchanged. -/
theorem C7_line_excess_fails (db : DB) (req : CreateOrderRequest)
    (orderNumber orderID : String) (ids : Nat → String)
    (hnew : req.IdempotencyKey = ""
      ∨ orderRepository.GetByIdempotencyKey db req.IdempotencyKey = none)
    (hshop : (shopRepository.GetByID db req.ShopId).isSome = true)
    (hknown : ∀ l ∈ req.Lines,
      (productVariantRepository.GetByID db l.VariantId).isSome = true)
    (hpos : ∀ l ∈ req.Lines, 0 < l.Quantity)
    (hex : ∃ l ∈ req.Lines, ∃ v, productVariantRepository.GetByID db l.VariantId = some v
        ∧ v.StockQuantity < l.Quantity) :
    orderBusiness.CreateOrder db req orderNumber orderID ids
      = (.error Code.FailedPrecondition, db) := by
  have hrep : (if req.IdempotencyKey ≠ "" then
      orderRepository.GetByIdempotencyKey db req.IdempotencyKey else none) = none := by
    rcases hnew with h | h
    · simp [h]
    · simp [h]
  have hne : req.Lines.length ≠ 0 := by
    obtain ⟨l, hl, _⟩ := hex
    intro h0
    rw [List.length_eq_zero] at h0
    rw [h0] at hl
    simp at hl
  cases hs : shopRepository.GetByID db req.ShopId with
  | none => rw [hs] at hshop; simp at hshop
  | some shop =>
    have hb := buildOrderLinesLoop_excess db req.ShopId shop hs req.Lines
      { orderLines := [], subtotalCurrency := "", subtotalUnits := 0, subtotalNanos := 0 }
      hknown hpos hex
    unfold orderBusiness.CreateOrder
    simp only [hrep, hs, hne, if_false, orderBusiness.buildOrderLines, hb]

/-- Witness for C7 (the suite's case): one line of 999 units against a stock of 100 fails
with FailedPrecondition and changes nothing. -/
theorem C7_line_excess_fails_witness :
    orderBusiness.CreateOrder exDB (exOrderReq [⟨"var-1", 999⟩]) "ORD-1" "o1" exIds
      = (.error Code.FailedPrecondition, exDB) :=
  C7_line_excess_fails exDB (exOrderReq [⟨"var-1", 999⟩]) "ORD-1" "o1" exIds
    (Or.inl rfl) (by decide) (by decide) (by decide)
    ⟨⟨"var-1", 999⟩, by decide, exVariant, by decide, by decide⟩

/-- Claim C8 (fails on the code): `CreateOrder` for two lines of 60 units of a variant
whose stock is 100, without idempotency key, returns an order that carries both lines
(120 units), but the stock afterwards is 40, not 100 minus 120: the second conditional
decrement matched no row and reported no error. -/
theorem C8_returned_order_exceeds_decrement :
    exOversell.1.toOption.map
        (fun o => o.Lines.map (fun l => (l.ProductVariantId, l.Quantity)))
      = some [("var-1", 60), ("var-1", 60)]
    ∧ exOversell.1.toOption.map (fun o => orderedOf o.Lines "var-1") = some 120
    ∧ stockOf exDB "var-1" = some 100
    ∧ stockOf exOversell.2 "var-1" = some 40
    ∧ (40 : Int) ≠ 100 - 120 := by
  decide

/-- Claim C10 (fails on the code): cart `cart-c` is Converted and owns the line `cl-1`;
`RemoveCartLine` called with the Active cart `cart-a` and the line id `cl-1` passes the
status check of `cart-a`, deletes the line by its id alone, and `cart-c` has lost its
line. -/
theorem C10_remove_line_of_converted_cart :
    (cartRepository.GetWithLines exTwoCartsDB "cart-c").map (fun c => c.row.Status)
      = some CartStatus.CART_STATUS_CONVERTED
    ∧ (cartLinesOf exTwoCartsDB "cart-c").map
        (fun l => (l.ID, l.ProductVariantID, l.Quantity)) = [("cl-1", "var-1", 2)]
    ∧ (cartBusiness.RemoveCartLine exTwoCartsDB ⟨"cart-a", "cl-1"⟩).1.toOption.isSome = true
    ∧ cartLinesOf (cartBusiness.RemoveCartLine exTwoCartsDB ⟨"cart-a", "cl-1"⟩).2 "cart-c"
        = [] := by
  decide

/-- The `int64` wrap is the identity on `int64` values. -/
theorem wrapInt64_of_isInt64 {x : Int} (h : isInt64 x) : wrapInt64 x = x := by
  unfold isInt64 at h
  unfold wrapInt64
  omega

/-- In a list without two elements of the same key, the elements that share the key of a
member are that member alone. -/
theorem filter_key_eq_singleton {α : Type} (f : α → String) :
    ∀ (l : List α), (l.map f).Nodup → ∀ a ∈ l, l.filter (fun x => f x == f a) = [a] := by
  intro l
  induction l with
  | nil => intro _ a ha; simp at ha
  | cons x rest ih =>
    intro hnd a ha
    rw [List.map_cons, List.nodup_cons] at hnd
    rcases List.mem_cons.1 ha with rfl | har
    · have hrest : rest.filter (fun x => f x == f a) = [] := by
        rw [List.filter_eq_nil_iff]
        intro y hy hfy
        apply hnd.1
        have : f y = f a := by simpa using hfy
        rw [← this]
        exact List.mem_map_of_mem f hy
      simp [List.filter_cons, hrest]
    · have hxa : ¬ (f x = f a) := by
        intro h
        apply hnd.1
        rw [h]
        exact List.mem_map_of_mem f har
      simp [List.filter_cons, hxa, ih hnd.2 a har]

/-- Claim C9 (fails on the code as stated): after adding 9223372036854775807 units of a
variant to an active cart, adding 1 more unit succeeds and the single line for the variant
holds -9223372036854775808, not the sum 9223372036854775808: the `int64` addition of the
quantities wraps. -/
theorem C9_quantity_sum_wraps :
    exCartAddMax.1.toOption.map (fun c => c.Lines.map (fun l => (l.ProductVariantId, l.Quantity)))
      = some [("var-1", 9223372036854775807)]
    ∧ (cartBusiness.AddCartLine exCartAddMax.2 ⟨"cart-1", "var-1", 1⟩ "cl-2").1.toOption.map
        (fun c => c.Lines.map (fun l => (l.ProductVariantId, l.Quantity)))
      = some [("var-1", -9223372036854775808)]
    ∧ (-9223372036854775808 : Int) ≠ 9223372036854775807 + 1 := by
  decide

/-- Claim C9 (amended): for every Active cart with at most one line per variant, every
known variant V and every quantity q > 0 such that q plus the quantity of the previous
line for V (0 when there was none) is an `int64` value, `AddCartLine` succeeds and returns
the reloaded cart; the cart then has exactly one line for V, whose quantity is that sum,
and every other line of the cart is unchanged.  Cart line ids are unique in the store. -/
theorem C9_add_line_merges (db : DB) (req : AddCartLineRequest) (lineID : String)
    (cart : LoadedCart)
    (hload : cartRepository.GetWithLines db req.CartId = some cart)
    (hactive : cart.row.Status = CartStatus.CART_STATUS_ACTIVE)
    (hone : (cart.Lines.map (fun l => l.ProductVariantID)).Nodup)
    (hpk : (db.cartLines.map (fun l => l.ID)).Nodup)
    (hvar : (productVariantRepository.GetByID db req.ProductVariantId).isSome = true)
    (hq : 0 < req.Quantity)
    (hfit : isInt64 (quantityOf cart.Lines req.ProductVariantId + req.Quantity)) :
    ∃ cart2 line,
      cartRepository.GetWithLines (cartBusiness.AddCartLine db req lineID).2 req.CartId
        = some cart2
      ∧ (cartBusiness.AddCartLine db req lineID).1 = .ok cart2.ToAPI
      ∧ cart2.row = cart.row
      ∧ cart2.Lines.filter (fun l => l.ProductVariantID == req.ProductVariantId) = [line]
      ∧ line.Quantity = quantityOf cart.Lines req.ProductVariantId + req.Quantity
      ∧ cart2.Lines.filter (fun l => !(l.ProductVariantID == req.ProductVariantId))
          = cart.Lines.filter (fun l => !(l.ProductVariantID == req.ProductVariantId)) := by
  unfold cartRepository.GetWithLines at hload
  cases hf : db.carts.find? (fun c => c.ID == req.CartId) with
  | none => rw [hf] at hload; simp at hload
  | some c =>
    rw [hf] at hload
    simp only [Option.some.injEq] at hload
    have hcid : c.ID = req.CartId := by simpa using List.find?_some hf
    subst hload
    simp only at hactive hone hfit ⊢
    rw [hcid] at hone hfit ⊢
    have hnq : ¬ req.Quantity ≤ 0 := not_le.mpr hq
    cases hv : productVariantRepository.GetByID db req.ProductVariantId with
    | none => rw [hv] at hvar; simp at hvar
    | some v =>
      cases hex : cartLineRepository.GetByCartAndVariant db req.CartId req.ProductVariantId with
      | none =>
        have hnone : ∀ x ∈ db.cartLines.filter (fun l => l.CartID == req.CartId),
            ¬ (x.ProductVariantID = req.ProductVariantId) := by
          unfold cartLineRepository.GetByCartAndVariant at hex
          rw [List.find?_eq_none] at hex
          intro x hx hxv
          rw [List.mem_filter] at hx
          apply hex x hx.1
          simp [hxv]
          simpa using hx.2
        have hempty : (db.cartLines.filter (fun l => l.CartID == req.CartId)).filter
            (fun l => l.ProductVariantID == req.ProductVariantId) = [] := by
          rw [List.filter_eq_nil_iff]
          intro x hx hxv
          exact hnone x hx (by simpa using hxv)
        have hsum0 : quantityOf (db.cartLines.filter (fun l => l.CartID == req.CartId))
            req.ProductVariantId = 0 := by
          unfold quantityOf
          rw [hempty]
          rfl
        refine ⟨⟨c, db.cartLines.filter (fun l => l.CartID == req.CartId) ++
            [{ ID := lineID, CartID := req.CartId, ProductVariantID := req.ProductVariantId,
               Quantity := req.Quantity }]⟩,
          { ID := lineID, CartID := req.CartId, ProductVariantID := req.ProductVariantId,
            Quantity := req.Quantity }, ?_, ?_, rfl, ?_, ?_, ?_⟩
        · simp [cartBusiness.AddCartLine, cartRepository.GetWithLines, hf, hactive, hv, hnq,
            hex, cartLineRepository.Create, hcid, List.filter_append]
        · simp [cartBusiness.AddCartLine, cartRepository.GetWithLines, hf, hactive, hv, hnq,
            hex, cartLineRepository.Create, hcid, List.filter_append, cartBusiness.GetCart]
        · simp [List.filter_append, hempty]
        · simp [hsum0]
        · simp [List.filter_append]
      | some e =>
        have hemem : e ∈ db.cartLines := by
          unfold cartLineRepository.GetByCartAndVariant at hex
          exact List.mem_of_find?_eq_some hex
        have hep : e.CartID = req.CartId ∧ e.ProductVariantID = req.ProductVariantId := by
          unfold cartLineRepository.GetByCartAndVariant at hex
          simpa using List.find?_some hex
        have hecl : e ∈ db.cartLines.filter (fun l => l.CartID == req.CartId) := by
          rw [List.mem_filter]
          exact ⟨hemem, by simp [hep.1]⟩
        have hsingle : (db.cartLines.filter (fun l => l.CartID == req.CartId)).filter
            (fun l => l.ProductVariantID == req.ProductVariantId) = [e] := by
          have := filter_key_eq_singleton (fun l : CartLine => l.ProductVariantID) _ hone e hecl
          simpa [hep.2] using this
        have hprev : quantityOf (db.cartLines.filter (fun l => l.CartID == req.CartId))
            req.ProductVariantId = e.Quantity := by
          unfold quantityOf
          rw [hsingle]
          simp
        rw [hprev] at hfit ⊢
        have hwrap := wrapInt64_of_isInt64 hfit
        have hsame : ∀ x ∈ db.cartLines, x.ID = e.ID → x = e := fun x hx hid =>
          List.inj_on_of_nodup_map hpk hx hemem hid
        generalize hupd : (fun l : CartLine =>
            if l.ID = e.ID then { l with Quantity := e.Quantity + req.Quantity } else l) = upd
        have hupd_cart : ∀ x, (upd x).CartID = x.CartID := by
          intro x; rw [← hupd]; by_cases h : x.ID = e.ID <;> simp [h]
        have hupd_var : ∀ x, (upd x).ProductVariantID = x.ProductVariantID := by
          intro x; rw [← hupd]; by_cases h : x.ID = e.ID <;> simp [h]
        have hupd_e : upd e = { e with Quantity := e.Quantity + req.Quantity } := by
          rw [← hupd]; simp
        have hcl : (db.cartLines.map upd).filter (fun l => l.CartID == req.CartId)
            = (db.cartLines.filter (fun l => l.CartID == req.CartId)).map upd := by
          rw [List.filter_map]
          congr 1
          apply List.filter_congr
          intro x _
          simp [hupd_cart]
        have hdb : (cartBusiness.AddCartLine db req lineID).2
            = { db with cartLines := db.cartLines.map upd } := by
          simp [cartBusiness.AddCartLine, cartRepository.GetWithLines, hf, hactive, hv, hnq,
            hex, cartLineRepository.Update, hwrap, ← hupd]
        refine ⟨⟨c, (db.cartLines.filter (fun l => l.CartID == req.CartId)).map upd⟩,
          { e with Quantity := e.Quantity + req.Quantity }, ?_, ?_, rfl, ?_, rfl, ?_⟩
        · rw [hdb]
          simp [cartRepository.GetWithLines, hf, hcid, hcl]
        · simp [cartBusiness.AddCartLine, cartRepository.GetWithLines, hf, hactive, hv, hnq,
            hex, cartLineRepository.Update, hwrap, hupd, cartBusiness.GetCart, hcid, hcl]
        · simp only []
          rw [List.filter_map]
          have : (db.cartLines.filter (fun l => l.CartID == req.CartId)).filter
              ((fun l => l.ProductVariantID == req.ProductVariantId) ∘ upd) = [e] := by
            rw [← hsingle]
            apply List.filter_congr
            intro x _
            simp [hupd_var]
          rw [this]
          simp [hupd_e]
        · simp only []
          rw [List.filter_map]
          have h1 : (db.cartLines.filter (fun l => l.CartID == req.CartId)).filter
              ((fun l => !(l.ProductVariantID == req.ProductVariantId)) ∘ upd)
              = (db.cartLines.filter (fun l => l.CartID == req.CartId)).filter
                  (fun l => !(l.ProductVariantID == req.ProductVariantId)) := by
            apply List.filter_congr
            intro x _
            simp [hupd_var]
          rw [h1]
          have h2 : ∀ x ∈ (db.cartLines.filter (fun l => l.CartID == req.CartId)).filter
              (fun l => !(l.ProductVariantID == req.ProductVariantId)), upd x = x := by
            intro x hx
            rw [List.mem_filter, List.mem_filter] at hx
            have hxid : ¬ x.ID = e.ID := by
              intro hid
              have := hsame x hx.1.1 hid
              rw [this] at hx
              simp [hep.2] at hx
            rw [← hupd]
            simp [hxid]
          rw [List.map_congr_left h2, List.map_id']

/-- Witness for C9 (the suite's case): adding the variant with 2 and then 3 gives one line
of quantity 5. -/
theorem C9_add_line_merges_witness :
    (cartLinesOf (cartBusiness.AddCartLine exCartAdd2.2 ⟨"cart-1", "var-1", 3⟩ "cl-2").2
        "cart-1").map (fun l => (l.ID, l.ProductVariantID, l.Quantity))
      = [("cl-1", "var-1", 5)]
    ∧ ∃ cart2 line,
        cartRepository.GetWithLines
            (cartBusiness.AddCartLine exCartAdd2.2 ⟨"cart-1", "var-1", 3⟩ "cl-2").2 "cart-1"
          = some cart2
        ∧ (cartBusiness.AddCartLine exCartAdd2.2 ⟨"cart-1", "var-1", 3⟩ "cl-2").1
            = .ok cart2.ToAPI
        ∧ cart2.Lines.filter (fun l => l.ProductVariantID == "var-1") = [line]
        ∧ line.Quantity = 2 + 3 := by
  refine ⟨by decide, ?_⟩
  obtain ⟨cart2, line, h1, h2, _, h4, h5, _⟩ :=
    C9_add_line_merges exCartAdd2.2 ⟨"cart-1", "var-1", 3⟩ "cl-2"
      { row := { ID := "cart-1", ShopID := "shop-1",
                 Status := CartStatus.CART_STATUS_ACTIVE, ProfileID := "", ContactID := "" },
        Lines := [{ ID := "cl-1", CartID := "cart-1", ProductVariantID := "var-1",
                    Quantity := 2 }] }
      (by decide) (by decide) (by decide) (by decide) (by decide) (by decide) (by decide)
  exact ⟨cart2, line, h1, h2, h4, h5⟩

/-- The line total is the exact product whenever the nanos product fits in `int32` and the
carried units fit in `int64`: the only loss of `lineTotal` is the conversion of the nanos
product to `int32`. -/
theorem lineTotal_exact (units nanos q : Int)
    (hu : 0 ≤ units) (hn0 : 0 ≤ nanos) (hq : 0 < q)
    (hnq : nanos * q ≤ 2147483647)
    (huq : units * q + 2 ≤ 9223372036854775807) :
    (lineTotal units nanos q).1 * 1000000000 + (lineTotal units nanos q).2
        = (units * 1000000000 + nanos) * q
    ∧ 0 ≤ (lineTotal units nanos q).2 ∧ (lineTotal units nanos q).2 < 1000000000 := by
  have ha : 0 ≤ units * q := Int.mul_nonneg hu (le_of_lt hq)
  have hb : 0 ≤ nanos * q := Int.mul_nonneg hn0 (le_of_lt hq)
  have hexp : (units * 1000000000 + nanos) * q = units * q * 1000000000 + nanos * q := by
    ring
  rw [hexp]
  unfold lineTotal
  generalize units * q = a at *
  generalize nanos * q = b at *
  have hw64 : wrapInt64 b = b := wrapInt64_of_isInt64 (by unfold isInt64; omega)
  have hw32 : wrapInt32 b = b := by unfold wrapInt32; omega
  have hwa : wrapInt64 a = a := wrapInt64_of_isInt64 (by unfold isInt64; omega)
  simp only [hw64, hw32, hwa]
  have hd : Int.tdiv b 1000000000 = b / 1000000000 :=
    Int.tdiv_eq_ediv hb (by norm_num)
  have hm : Int.tmod b 1000000000 = b % 1000000000 :=
    Int.tmod_eq_emod hb (by norm_num)
  rw [hd, hm]
  have hwc : wrapInt64 (a + b / 1000000000) = a + b / 1000000000 :=
    wrapInt64_of_isInt64 (by unfold isInt64; omega)
  rw [hwc]
  omega

/-- Claim C11 (fails on the code as stated): `AddCartLine` on the Converted cart `cart-c`,
with a known variant and quantity 1, fails with FailedPrecondition, not InvalidArgument;
and on the Active cart `cart-a`, with quantity 0 and an unknown variant, it fails with
NotFound, not InvalidArgument, because the variant is looked up before the quantity is
checked. -/
theorem C11_inactive_cart_is_failed_precondition :
    (cartRepository.GetWithLines exTwoCartsDB "cart-c").map (fun c => c.row.Status)
      = some CartStatus.CART_STATUS_CONVERTED
    ∧ codeOf (cartBusiness.AddCartLine exTwoCartsDB ⟨"cart-c", "var-1", 1⟩ "cl-2").1
      = some Code.FailedPrecondition
    ∧ (cartRepository.GetWithLines exTwoCartsDB "cart-a").map (fun c => c.row.Status)
      = some CartStatus.CART_STATUS_ACTIVE
    ∧ productVariantRepository.GetByID exTwoCartsDB "var-9" = none
    ∧ codeOf (cartBusiness.AddCartLine exTwoCartsDB ⟨"cart-a", "var-9", 0⟩ "cl-2").1
      = some Code.NotFound := by
  decide

/-- Claim C11 (amended): for every existing cart and every `AddCartLine` request, if the
cart's status is not Active the call fails with FailedPrecondition; otherwise, if the
variant is unknown, it fails with NotFound; otherwise, if the quantity is not positive, it
fails with InvalidArgument; in each failing case the store is unchanged, so no cart line
is created or changed. -/
theorem C11_add_line_failures (db : DB) (req : AddCartLineRequest) (lineID : String)
    (cart : LoadedCart)
    (hload : cartRepository.GetWithLines db req.CartId = some cart) :
    (cart.row.Status ≠ CartStatus.CART_STATUS_ACTIVE →
        cartBusiness.AddCartLine db req lineID = (.error Code.FailedPrecondition, db))
    ∧ (cart.row.Status = CartStatus.CART_STATUS_ACTIVE →
        productVariantRepository.GetByID db req.ProductVariantId = none →
        cartBusiness.AddCartLine db req lineID = (.error Code.NotFound, db))
    ∧ (cart.row.Status = CartStatus.CART_STATUS_ACTIVE →
        (productVariantRepository.GetByID db req.ProductVariantId).isSome = true →
        req.Quantity ≤ 0 →
        cartBusiness.AddCartLine db req lineID = (.error Code.InvalidArgument, db)) := by
  refine ⟨?_, ?_, ?_⟩
  · intro hs
    unfold cartBusiness.AddCartLine
    simp only [hload, hs, ne_eq, not_false_eq_true, if_true]
  · intro hs hv
    unfold cartBusiness.AddCartLine
    simp only [hload, hs, ne_eq, not_true_eq_false, if_false, hv]
  · intro hs hv hq
    cases hg : productVariantRepository.GetByID db req.ProductVariantId with
    | none => rw [hg] at hv; simp at hv
    | some v =>
      unfold cartBusiness.AddCartLine
      simp only [hload, hs, ne_eq, not_true_eq_false, if_false, hg, hq, if_true]

/-- Witness for C11: on the Active cart `cart-a`, adding the known variant with quantity 0
fails with InvalidArgument and changes nothing. -/
theorem C11_add_line_failures_witness :
    cartBusiness.AddCartLine exTwoCartsDB ⟨"cart-a", "var-1", 0⟩ "cl-2"
      = (.error Code.InvalidArgument, exTwoCartsDB) :=
  (C11_add_line_failures exTwoCartsDB ⟨"cart-a", "var-1", 0⟩ "cl-2"
    { row := { ID := "cart-a", ShopID := "shop-1", Status := CartStatus.CART_STATUS_ACTIVE,
               ProfileID := "", ContactID := "" },
      Lines := [] }
    (by decide)).2.2 (by decide) (by decide) (by decide)

/-- Claim C12: for every existing cart, `CreateOrderFromCart` fails with
FailedPrecondition when the cart's status is not Active and with InvalidArgument when the
cart is Active and has no line; in both cases the store is unchanged, so no order is
created, no stock changes and the cart is as before. -/
theorem C12_cart_conversion_rejections (db : DB) (req : CreateOrderFromCartRequest)
    (orderNumber orderID : String) (ids : Nat → String) (cart : LoadedCart)
    (hload : cartRepository.GetWithLines db req.CartId = some cart) :
    (cart.row.Status ≠ CartStatus.CART_STATUS_ACTIVE →
        orderBusiness.CreateOrderFromCart db req orderNumber orderID ids
          = (.error Code.FailedPrecondition, db))
    ∧ (cart.row.Status = CartStatus.CART_STATUS_ACTIVE → cart.Lines = [] →
        orderBusiness.CreateOrderFromCart db req orderNumber orderID ids
          = (.error Code.InvalidArgument, db)) := by
  refine ⟨?_, ?_⟩
  · intro hs
    unfold orderBusiness.CreateOrderFromCart
    simp only [hload, hs, ne_eq, not_false_eq_true, if_true]
  · intro hs hl
    unfold orderBusiness.CreateOrderFromCart
    simp only [hload, hs, ne_eq, not_true_eq_false, if_false, hl, List.length_nil, if_true]

/-- Witness for C12: the Converted cart `cart-c` is rejected with FailedPrecondition and
the empty Active cart `cart-a` with InvalidArgument, the store being unchanged. -/
theorem C12_cart_conversion_rejections_witness :
    orderBusiness.CreateOrderFromCart exTwoCartsDB ⟨"cart-c", "", "", ""⟩ "ORD-1" "o1" exIds
      = (.error Code.FailedPrecondition, exTwoCartsDB)
    ∧ orderBusiness.CreateOrderFromCart exTwoCartsDB ⟨"cart-a", "", "", ""⟩ "ORD-1" "o1" exIds
      = (.error Code.InvalidArgument, exTwoCartsDB) :=
  ⟨(C12_cart_conversion_rejections exTwoCartsDB ⟨"cart-c", "", "", ""⟩ "ORD-1" "o1" exIds
      { row := { ID := "cart-c", ShopID := "shop-1",
                 Status := CartStatus.CART_STATUS_CONVERTED, ProfileID := "",
                 ContactID := "" },
        Lines := [{ ID := "cl-1", CartID := "cart-c", ProductVariantID := "var-1",
                    Quantity := 2 }] }
      (by decide)).1 (by decide),
   (C12_cart_conversion_rejections exTwoCartsDB ⟨"cart-a", "", "", ""⟩ "ORD-1" "o1" exIds
      { row := { ID := "cart-a", ShopID := "shop-1",
                 Status := CartStatus.CART_STATUS_ACTIVE, ProfileID := "", ContactID := "" },
        Lines := [] }
      (by decide)).2 (by decide) rfl⟩

/-- Claim C14 (fails on the code as stated): after the first call with key `k1`, a request
that carries the same key and names a shop that does not exist does not fail with
NotFound: the idempotency lookup runs before the shop lookup and the stored order `o1`
is returned. -/
theorem C14_replay_skips_shop_lookup :
    shopRepository.GetByID exIdemFirst.2 "no-such-shop" = none
    ∧ (orderBusiness.CreateOrder exIdemFirst.2
          { exIdemReq with ShopId := "no-such-shop" } "ORD-2" "o2" exIds).1.toOption.map
        (fun o => o.Id) = some "o1" := by
  decide

/-- Claim C14 (amended): for every `CreateOrder` request that is not an idempotent replay
(it has no key, or no order carries its key) and whose shop id does not resolve to an
existing shop, whatever its lines, `CreateOrder` fails with NotFound and the store is
unchanged: no order is returned, no row is written and no stock is changed. -/
theorem C14_unknown_shop_fails (db : DB) (req : CreateOrderRequest)
    (orderNumber orderID : String) (ids : Nat → String)
    (hnew : req.IdempotencyKey = ""
      ∨ orderRepository.GetByIdempotencyKey db req.IdempotencyKey = none)
    (hshop : shopRepository.GetByID db req.ShopId = none) :
    orderBusiness.CreateOrder db req orderNumber orderID ids = (.error Code.NotFound, db) := by
  have hrep : (if req.IdempotencyKey ≠ "" then
      orderRepository.GetByIdempotencyKey db req.IdempotencyKey else none) = none := by
    rcases hnew with h | h
    · simp [h]
    · simp [h]
  unfold orderBusiness.CreateOrder
  simp only [hrep, hshop]

/-- Witness for C14: a request without key for a shop that does not exist fails with
NotFound and changes nothing. -/
theorem C14_unknown_shop_fails_witness :
    orderBusiness.CreateOrder exDB
        { exOrderReq [⟨"var-1", 1⟩] with ShopId := "no-such-shop" } "ORD-1" "o1" exIds
      = (.error Code.NotFound, exDB) :=
  C14_unknown_shop_fails exDB { exOrderReq [⟨"var-1", 1⟩] with ShopId := "no-such-shop" }
    "ORD-1" "o1" exIds (Or.inl rfl) (by decide)

/-- Claim C15: for every `CreateOrder` request with an existing shop, no matching
idempotency key and an empty line list, `CreateOrder` fails with InvalidArgument and the
store is unchanged: no Order or OrderLine row is written and no stock is changed. -/
theorem C15_empty_lines_fail (db : DB) (req : CreateOrderRequest)
    (orderNumber orderID : String) (ids : Nat → String)
    (hnew : req.IdempotencyKey = ""
      ∨ orderRepository.GetByIdempotencyKey db req.IdempotencyKey = none)
    (hshop : (shopRepository.GetByID db req.ShopId).isSome = true)
    (hlines : req.Lines = []) :
    orderBusiness.CreateOrder db req orderNumber orderID ids
      = (.error Code.InvalidArgument, db) := by
  have hrep : (if req.IdempotencyKey ≠ "" then
      orderRepository.GetByIdempotencyKey db req.IdempotencyKey else none) = none := by
    rcases hnew with h | h
    · simp [h]
    · simp [h]
  cases hs : shopRepository.GetByID db req.ShopId with
  | none => rw [hs] at hshop; simp at hshop
  | some shop =>
    unfold orderBusiness.CreateOrder
    simp only [hrep, hs, hlines, List.length_nil, if_true]

/-- Witness for C15 (the suite's case): a request for the example shop without lines fails
with InvalidArgument and changes nothing. -/
theorem C15_empty_lines_fail_witness :
    orderBusiness.CreateOrder exDB (exOrderReq []) "ORD-1" "o1" exIds
      = (.error Code.InvalidArgument, exDB) :=
  C15_empty_lines_fail exDB (exOrderReq []) "ORD-1" "o1" exIds (Or.inl rfl) (by decide) rfl

/-- The loop of `buildOrderLines` stops at the first line that fails the per-line
validation, with the code of that line's first failing check. -/
theorem buildOrderLinesLoop_first_failure (db : DB) (shopID : String) (shop : Shop)
    (hshop : shopRepository.GetByID db shopID = some shop) :
    ∀ (pre : List CreateOrderLine) (acc : BuiltLines) (l : CreateOrderLine)
      (post : List CreateOrderLine) (e : Code),
      (∀ x ∈ pre, lineCheck db x = none) → lineCheck db l = some e →
      orderBusiness.buildOrderLinesLoop db shopID (pre ++ l :: post) acc = .error e := by
  intro pre
  induction pre with
  | nil =>
    intro acc l post e _ hl
    unfold lineCheck at hl
    simp only [List.nil_append]
    unfold orderBusiness.buildOrderLinesLoop
    by_cases hq : l.Quantity ≤ 0
    · simp only [hq, if_true, Option.some.injEq] at hl ⊢
      rw [hl]
    · simp only [hq, if_false] at hl ⊢
      cases hv : productVariantRepository.GetByID db l.VariantId with
      | none =>
        rw [hv] at hl
        simp only [Option.some.injEq] at hl
        simp only [hl]
      | some v =>
        rw [hv] at hl
        simp only [productShopCheck_of_shop hshop v]
        by_cases hst : l.Quantity > v.StockQuantity
        · simp only [hst, if_true, Option.some.injEq] at hl
          have hst2 : v.StockQuantity < l.Quantity := hst
          simp only [hst2, if_true, hl]
        · simp [hst] at hl
  | cons x pre ih =>
    intro acc l post e hpre hl
    have hx := hpre x (List.mem_cons_self _ _)
    unfold lineCheck at hx
    by_cases hq : x.Quantity ≤ 0
    · simp [hq] at hx
    · simp only [hq, if_false] at hx
      cases hv : productVariantRepository.GetByID db x.VariantId with
      | none => rw [hv] at hx; simp at hx
      | some v =>
        rw [hv] at hx
        by_cases hst : x.Quantity > v.StockQuantity
        · simp [hst] at hx
        · have hst2 : ¬ v.StockQuantity < x.Quantity := hst
          simp only [List.cons_append]
          unfold orderBusiness.buildOrderLinesLoop
          simp only [hq, if_false, hv, productShopCheck_of_shop hshop v, hst2]
          exact ih _ l post e (fun y hy => hpre y (List.mem_cons_of_mem _ hy)) hl

/-- Claim C16: for every `CreateOrder` request with an existing shop and no matching
idempotency key, if the lines before some line all pass validation and that line fails
its first failing check with code `e` (quantity not positive gives InvalidArgument, else
an unknown variant gives NotFound, else a quantity above the visible stock gives
FailedPrecondition), then `CreateOrder` fails with `e` and the store is unchanged: no
Order or OrderLine row is written and no stock is changed. -/
theorem C16_first_failing_check_decides (db : DB) (req : CreateOrderRequest)
    (orderNumber orderID : String) (ids : Nat → String)
    (pre : List CreateOrderLine) (l : CreateOrderLine) (post : List CreateOrderLine)
    (e : Code)
    (hnew : req.IdempotencyKey = ""
      ∨ orderRepository.GetByIdempotencyKey db req.IdempotencyKey = none)
    (hshop : (shopRepository.GetByID db req.ShopId).isSome = true)
    (hlines : req.Lines = pre ++ l :: post)
    (hpre : ∀ x ∈ pre, lineCheck db x = none)
    (hl : lineCheck db l = some e) :
    orderBusiness.CreateOrder db req orderNumber orderID ids = (.error e, db)
    ∧ (l.Quantity ≤ 0 → e = Code.InvalidArgument)
    ∧ (0 < l.Quantity → productVariantRepository.GetByID db l.VariantId = none →
        e = Code.NotFound)
    ∧ (0 < l.Quantity →
        ∀ v, productVariantRepository.GetByID db l.VariantId = some v →
          e = Code.FailedPrecondition ∧ l.Quantity > v.StockQuantity) := by
  have hrep : (if req.IdempotencyKey ≠ "" then
      orderRepository.GetByIdempotencyKey db req.IdempotencyKey else none) = none := by
    rcases hnew with h | h
    · simp [h]
    · simp [h]
  have hne : (pre ++ l :: post).length ≠ 0 := by simp
  refine ⟨?_, ?_, ?_, ?_⟩
  · cases hs : shopRepository.GetByID db req.ShopId with
    | none => rw [hs] at hshop; simp at hshop
    | some shop =>
      have hb := buildOrderLinesLoop_first_failure db req.ShopId shop hs pre
        { orderLines := [], subtotalCurrency := "", subtotalUnits := 0, subtotalNanos := 0 }
        l post e hpre hl
      unfold orderBusiness.CreateOrder
      simp only [hrep, hs, hne, if_false, orderBusiness.buildOrderLines, hlines, hb]
  · intro hq
    unfold lineCheck at hl
    simp only [hq, if_true, Option.some.injEq] at hl
    exact hl.symm
  · intro hq hv
    unfold lineCheck at hl
    simp only [not_le.mpr hq, if_false, hv, Option.some.injEq] at hl
    exact hl.symm
  · intro hq v hv
    unfold lineCheck at hl
    simp only [not_le.mpr hq, if_false, hv] at hl
    by_cases hst : l.Quantity > v.StockQuantity
    · simp only [hst, if_true, Option.some.injEq] at hl
      exact ⟨hl.symm, hst⟩
    · simp [hst] at hl

/-- Witness for C16: with lines of 2 units (passes), 0 units (fails on quantity) and 999
units (would fail on stock), the second line decides: InvalidArgument, store unchanged. -/
theorem C16_first_failing_check_decides_witness :
    orderBusiness.CreateOrder exDB
        (exOrderReq [⟨"var-1", 2⟩, ⟨"var-9", 0⟩, ⟨"var-1", 999⟩]) "ORD-1" "o1" exIds
      = (.error Code.InvalidArgument, exDB) :=
  (C16_first_failing_check_decides exDB
    (exOrderReq [⟨"var-1", 2⟩, ⟨"var-9", 0⟩, ⟨"var-1", 999⟩]) "ORD-1" "o1" exIds
    [⟨"var-1", 2⟩] ⟨"var-9", 0⟩ [⟨"var-1", 999⟩] Code.InvalidArgument
    (Or.inl rfl) (by decide) rfl (by decide) (by decide)).1

/-- Claim C17 (fails on the code): the order that `CreateOrder` builds from the variant
priced 10.50 (units 10, nanos 500000000) with quantity 5 has the line total and the
subtotal units 49, nanos -794967296: the magnitude of nanos is below 10^9, but nanos is
negative while units is positive, so neither is a valid Money value. -/
theorem C17_line_total_sign_mismatch :
    (orderBusiness.CreateOrder exDB (exOrderReq [⟨"var-1", 5⟩]) "ORD-1" "o1"
        exIds).1.toOption.map (fun o => (o.Subtotal, o.Lines.map (fun l => l.TotalPrice)))
      = some (some { CurrencyCode := "USD", Units := 49, Nanos := -794967296 },
              [some { CurrencyCode := "USD", Units := 49, Nanos := -794967296 }])
    ∧ (0 : Int) ≤ 10 ∧ (0 : Int) ≤ 500000000 ∧ (500000000 : Int) < 1000000000
    ∧ (0 : Int) < 5
    ∧ (-794967296 : Int).natAbs < 1000000000
    ∧ (0 : Int) < 49 ∧ (-794967296 : Int) < 0 := by
  decide

/-- Unfolding of `firstCurrency` on a non-empty list of codes. -/
theorem firstCurrency_cons (c : String) (cs : List String) :
    firstCurrency (c :: cs) = if c = "" then firstCurrency cs else c := by
  unfold firstCurrency
  by_cases h : c = ""
  · simp [h]
  · simp [h, List.find?_cons]

/-- What a successful run of the loop of `buildOrderLines` returns: the order lines carry,
in request order, the variant id and quantity of the request lines and the currency code
of their variants, and the subtotal currency is the first non-empty code met. -/
theorem buildOrderLinesLoop_ok (db : DB) (shopID : String) :
    ∀ (lines : List CreateOrderLine) (acc built : BuiltLines),
      orderBusiness.buildOrderLinesLoop db shopID lines acc = .ok built →
      built.orderLines.map (fun l => (l.ProductVariantID, l.Quantity))
        = acc.orderLines.map (fun l => (l.ProductVariantID, l.Quantity))
          ++ lines.map (fun l => (l.VariantId, l.Quantity))
      ∧ built.orderLines.map (fun l => l.TotalPriceCurrency)
        = acc.orderLines.map (fun l => l.TotalPriceCurrency)
          ++ lines.map (variantCurrency db)
      ∧ built.subtotalCurrency
        = (if acc.subtotalCurrency = "" then firstCurrency (lines.map (variantCurrency db))
           else acc.subtotalCurrency) := by
  intro lines
  induction lines with
  | nil =>
    intro acc built h
    unfold orderBusiness.buildOrderLinesLoop at h
    simp only [Except.ok.injEq] at h
    subst h
    by_cases ha : acc.subtotalCurrency = ""
    · simp [firstCurrency, ha]
    · simp [firstCurrency, ha]
  | cons l rest ih =>
    intro acc built h
    unfold orderBusiness.buildOrderLinesLoop at h
    by_cases hq : l.Quantity ≤ 0
    · simp [hq] at h
    · simp only [hq, if_false] at h
      cases hv : productVariantRepository.GetByID db l.VariantId with
      | none => rw [hv] at h; simp at h
      | some v =>
        rw [hv] at h
        simp only [] at h
        cases hs : orderBusiness.productShopCheck db shopID v with
        | some e => rw [hs] at h; simp at h
        | none =>
          rw [hs] at h
          by_cases hst : v.StockQuantity < l.Quantity
          · simp [hst] at h
          · simp only [hst, if_false] at h
            have hvid : v.ID = l.VariantId := by
              unfold productVariantRepository.GetByID at hv
              simpa using List.find?_some hv
            have hcur : variantCurrency db l = v.CurrencyCode := by
              simp [variantCurrency, hv]
            obtain ⟨h1, h2, h3⟩ := ih _ built h
            refine ⟨?_, ?_, ?_⟩
            · rw [h1]
              simp [hvid]
            · rw [h2]
              simp [hcur]
            · rw [h3]
              simp only [List.map_cons, firstCurrency_cons, hcur]
              by_cases ha : acc.subtotalCurrency = ""
              · by_cases hc : v.CurrencyCode = ""
                · simp [ha, hc]
                · simp [ha, hc]
              · simp [ha]

/-- After the header insert, the commit sequence of `CreateOrder` always returns an order:
the header just written is found by its id. -/
theorem CreateOrder_commit_ok (db : DB) (order : Order) (oid : String)
    (lines : List OrderLine) (ids : Nat → String) (hid : order.ID = oid) :
    ∃ o, (match orderBusiness.createLines oid ids 0 lines
              (orderRepository.Create db order) with
          | (some e, db2) => ((.error e : Except Code OrderAPI), db2)
          | (none, db2) => (orderBusiness.GetOrder db2 oid, db2)).1 = .ok o := by
  have hfr := order_createLines_frame oid ids lines 0 (orderRepository.Create db order)
  cases hcl : orderBusiness.createLines oid ids 0 lines
      (orderRepository.Create db order) with
  | mk c db2 =>
    rw [hcl] at hfr
    simp only at hfr
    obtain ⟨hc, hords, _⟩ := hfr
    subst hc
    simp only []
    unfold orderBusiness.GetOrder orderRepository.GetWithLines
    cases hf : db2.orders.find? (fun o => o.ID == oid) with
    | some o => exact ⟨_, rfl⟩
    | none =>
      exfalso
      rw [List.find?_eq_none] at hf
      have hmem : order ∈ db2.orders := by
        rw [hords]
        simp [orderRepository.Create]
      exact hf order hmem (by simp [hid])

/-- The line loop of `CreateOrder` stores the header of the order untouched. -/
theorem CreateOrder_header_stored (db : DB) (order : Order) (oid : String)
    (lines : List OrderLine) (ids : Nat → String) :
    order ∈ (match orderBusiness.createLines oid ids 0 lines
              (orderRepository.Create db order) with
          | (some e, db2) => ((.error e : Except Code OrderAPI), db2)
          | (none, db2) => (orderBusiness.GetOrder db2 oid, db2)).2.orders := by
  have hfr := order_createLines_frame oid ids lines 0 (orderRepository.Create db order)
  cases hcl : orderBusiness.createLines oid ids 0 lines
      (orderRepository.Create db order) with
  | mk c db2 =>
    rw [hcl] at hfr
    simp only at hfr
    obtain ⟨hc, hords, _⟩ := hfr
    subst hc
    simp only []
    rw [hords]
    simp [orderRepository.Create]

/-- The line loop of `CreateOrder` appends, in order, one row per built line to the lines
of the order, and touches neither carts nor cart lines. -/
theorem order_createLines_effect (oid : String) (ids : Nat → String) :
    ∀ (lines : List OrderLine) (i : Nat) (db : DB),
      (((orderBusiness.createLines oid ids i lines db).2.orderLines.filter
          (fun l => l.OrderID == oid)).map (fun l => (l.ProductVariantID, l.Quantity))
        = (db.orderLines.filter (fun l => l.OrderID == oid)).map
            (fun l => (l.ProductVariantID, l.Quantity))
          ++ lines.map (fun l => (l.ProductVariantID, l.Quantity)))
      ∧ (orderBusiness.createLines oid ids i lines db).2.carts = db.carts
      ∧ (orderBusiness.createLines oid ids i lines db).2.cartLines = db.cartLines := by
  intro lines
  induction lines with
  | nil => intro i db; simp [orderBusiness.createLines]
  | cons l rest ih =>
    intro i db
    unfold orderBusiness.createLines
    simp only [productVariantRepository.DecrementStock]
    obtain ⟨h1, h2, h3⟩ := ih (i + 1)
      { orderLineRepository.Create db { l with OrderID := oid, ID := ids i } with
        variants := (orderLineRepository.Create db
            { l with OrderID := oid, ID := ids i }).variants.map (fun v =>
          if v.ID = l.ProductVariantID ∧ v.StockQuantity ≥ l.Quantity
          then { v with StockQuantity := v.StockQuantity - l.Quantity } else v) }
    refine ⟨?_, ?_, ?_⟩
    · rw [h1]
      simp [orderLineRepository.Create, List.filter_append]
    · rw [h2]
      rfl
    · rw [h3]
      rfl

/-- Reading carts depends on the cart and cart line tables only. -/
theorem cartRepository_GetWithLines_congr {db1 db2 : DB} (hc : db1.carts = db2.carts)
    (hl : db1.cartLines = db2.cartLines) (id : String) :
    cartRepository.GetWithLines db1 id = cartRepository.GetWithLines db2 id := by
  unfold cartRepository.GetWithLines
  rw [hc, hl]

/-- The commit sequence of `CreateOrder` with a fresh order id: the order returned carries,
in order, the variant and quantity of the built lines; carts and cart lines are as
before. -/
theorem CreateOrder_commit_lines (db : DB) (order : Order) (oid : String)
    (lines : List OrderLine) (ids : Nat → String) (r1 : OrderAPI) (db1 : DB)
    (hid : order.ID = oid)
    (hf1 : ∀ o ∈ db.orders, o.ID ≠ oid)
    (hf2 : ∀ l ∈ db.orderLines, l.OrderID ≠ oid)
    (h : (match orderBusiness.createLines oid ids 0 lines
              (orderRepository.Create db order) with
          | (some e, db2) => ((.error e : Except Code OrderAPI), db2)
          | (none, db2) => (orderBusiness.GetOrder db2 oid, db2)) = (.ok r1, db1)) :
    r1.Lines.map (fun l => (l.ProductVariantId, l.Quantity))
      = lines.map (fun l => (l.ProductVariantID, l.Quantity)) := by
  have hfr := order_createLines_frame oid ids lines 0 (orderRepository.Create db order)
  have hef := order_createLines_effect oid ids lines 0 (orderRepository.Create db order)
  cases hcl : orderBusiness.createLines oid ids 0 lines
      (orderRepository.Create db order) with
  | mk c db2 =>
    rw [hcl] at h hfr hef
    simp only at hfr hef
    obtain ⟨hc, hords, _⟩ := hfr
    subst hc
    simp only [Prod.mk.injEq] at h
    obtain ⟨hr, hdb⟩ := h
    have hold : db.orderLines.filter (fun l => l.OrderID == oid) = [] := by
      rw [List.filter_eq_nil_iff]
      intro l hl
      simpa using hf2 l hl
    have hfind : db2.orders.find? (fun o => o.ID == oid) = some order := by
      rw [hords]
      have hnone : db.orders.find? (fun o => o.ID == oid) = none := by
        rw [List.find?_eq_none]
        intro o ho
        simpa using hf1 o ho
      simp [orderRepository.Create, hnone, hid]
    unfold orderBusiness.GetOrder orderRepository.GetWithLines at hr
    rw [hfind] at hr
    simp only [Except.ok.injEq] at hr
    rw [← hr]
    have h1 := hef.1
    simp only [orderRepository.Create, hold, List.map_nil, List.nil_append] at h1
    simp only [LoadedOrder.ToAPI, List.map_map, hid]
    rw [← h1]
    rfl

/-- Whatever `CreateOrder` does, carts and cart lines are as before. -/
theorem CreateOrder_frame_carts (db : DB) (req : CreateOrderRequest)
    (orderNumber orderID : String) (ids : Nat → String) :
    (orderBusiness.CreateOrder db req orderNumber orderID ids).2.carts = db.carts
    ∧ (orderBusiness.CreateOrder db req orderNumber orderID ids).2.cartLines
        = db.cartLines := by
  unfold orderBusiness.CreateOrder
  cases hrep : (if req.IdempotencyKey ≠ "" then
      orderRepository.GetByIdempotencyKey db req.IdempotencyKey else none) with
  | some existing => exact ⟨rfl, rfl⟩
  | none =>
    simp only []
    cases hs : shopRepository.GetByID db req.ShopId with
    | none => exact ⟨rfl, rfl⟩
    | some shop =>
      simp only []
      by_cases hl : req.Lines.length = 0
      · simp only [hl, if_true]
        exact ⟨trivial, trivial⟩
      · simp only [hl, if_false]
        cases hb : orderBusiness.buildOrderLines db req.ShopId req.Lines with
        | error e => exact ⟨rfl, rfl⟩
        | ok built =>
          simp only []
          generalize hord : orderRepository.Create db _ = dbh
          have hdc : dbh.carts = db.carts := by rw [← hord]; rfl
          have hdl : dbh.cartLines = db.cartLines := by rw [← hord]; rfl
          have hef := order_createLines_effect orderID ids built.orderLines 0 dbh
          cases hcl : orderBusiness.createLines orderID ids 0 built.orderLines dbh with
          | mk c db2 =>
            rw [hcl] at hef
            simp only at hef
            cases c with
            | none => exact ⟨hef.2.1.trans hdc, hef.2.2.trans hdl⟩
            | some e => exact ⟨hef.2.1.trans hdc, hef.2.2.trans hdl⟩

/-- A successful `CreateOrder` without idempotency key and with a fresh order id returns an
order whose lines carry, in request order, the variant and quantity of the request
lines. -/
theorem CreateOrder_lines (db : DB) (req : CreateOrderRequest)
    (orderNumber orderID : String) (ids : Nat → String) (o : OrderAPI) (db1 : DB)
    (hkey : req.IdempotencyKey = "")
    (hf1 : ∀ x ∈ db.orders, x.ID ≠ orderID)
    (hf2 : ∀ l ∈ db.orderLines, l.OrderID ≠ orderID)
    (hok : orderBusiness.CreateOrder db req orderNumber orderID ids = (.ok o, db1)) :
    o.Lines.map (fun l => (l.ProductVariantId, l.Quantity))
      = req.Lines.map (fun l => (l.VariantId, l.Quantity)) := by
  unfold orderBusiness.CreateOrder at hok
  simp only [hkey, ne_eq, not_true_eq_false, if_false, if_true] at hok
  cases hs : shopRepository.GetByID db req.ShopId with
  | none => rw [hs] at hok; simp at hok
  | some shop =>
    rw [hs] at hok
    by_cases hl : req.Lines.length = 0
    · simp [hl] at hok
    · simp only [hl, if_false] at hok
      cases hb : orderBusiness.buildOrderLines db req.ShopId req.Lines with
      | error e => rw [hb] at hok; simp at hok
      | ok built =>
        rw [hb] at hok
        simp only [] at hok
        have h1 := CreateOrder_commit_lines db _ orderID built.orderLines ids o db1 rfl
          hf1 hf2 hok
        obtain ⟨h2, _, _⟩ := buildOrderLinesLoop_ok db req.ShopId req.Lines _ built hb
        rw [h1, h2]
        simp

/-- Reading a cart after its status column was set to Converted: the row with the new
status and the same lines. -/
theorem cart_converted_read (db d : DB) (cart : LoadedCart) (id : String)
    (hload : cartRepository.GetWithLines db id = some cart)
    (hc : d.carts = db.carts) (hl : d.cartLines = db.cartLines) :
    cartRepository.GetWithLines
        (cartRepository.Update d
          { cart.row with Status := CartStatus.CART_STATUS_CONVERTED } ["status"]) id
      = some { row := { cart.row with Status := CartStatus.CART_STATUS_CONVERTED },
               Lines := cart.Lines } := by
  unfold cartRepository.GetWithLines at hload
  cases hf : db.carts.find? (fun c => c.ID == id) with
  | none => rw [hf] at hload; simp at hload
  | some c =>
    rw [hf] at hload
    simp only [Option.some.injEq] at hload
    subst hload
    have hcomp : ((fun c2 : Cart => c2.ID == id) ∘ fun c2 : Cart =>
        if c2.ID = c.ID then { c2 with Status := CartStatus.CART_STATUS_CONVERTED }
        else c2) = fun c2 : Cart => c2.ID == id := by
      funext c2
      by_cases h2 : c2.ID = c.ID <;> simp [h2]
    simp [cartRepository.GetWithLines, cartRepository.Update, hc, hl, hcomp, hf]

/-- Claim C13: for every Active cart with at least one line (the generated order id being
fresh), if `CreateOrderFromCart` returns an order then the cart, read afterwards, has
status Converted and the same lines, and the order's lines carry, in cart-line order, the
variant and quantity of each cart line; if the inner `CreateOrder` fails then
`CreateOrderFromCart` fails with the same code and the cart, read afterwards, is as
before: status Active, lines unchanged. -/
theorem C13_cart_conversion (db : DB) (req : CreateOrderFromCartRequest)
    (orderNumber orderID : String) (ids : Nat → String) (cart : LoadedCart)
    (hload : cartRepository.GetWithLines db req.CartId = some cart)
    (hactive : cart.row.Status = CartStatus.CART_STATUS_ACTIVE)
    (hne : cart.Lines ≠ [])
    (hf1 : ∀ o ∈ db.orders, o.ID ≠ orderID)
    (hf2 : ∀ l ∈ db.orderLines, l.OrderID ≠ orderID) :
    (∀ order,
        (orderBusiness.CreateOrderFromCart db req orderNumber orderID ids).1 = .ok order →
        cartRepository.GetWithLines
            (orderBusiness.CreateOrderFromCart db req orderNumber orderID ids).2 req.CartId
          = some { row := { cart.row with Status := CartStatus.CART_STATUS_CONVERTED },
                   Lines := cart.Lines }
        ∧ order.Lines.map (fun l => (l.ProductVariantId, l.Quantity))
          = cart.Lines.map (fun l => (l.ProductVariantID, l.Quantity)))
    ∧ (∀ e,
        (orderBusiness.CreateOrder db (orderBusiness.cartOrderRequest cart req)
            orderNumber orderID ids).1 = .error e →
        (orderBusiness.CreateOrderFromCart db req orderNumber orderID ids).1 = .error e
        ∧ cartRepository.GetWithLines
            (orderBusiness.CreateOrderFromCart db req orderNumber orderID ids).2 req.CartId
          = some cart) := by
  have hlen : cart.Lines.length ≠ 0 := by
    intro h0
    exact hne (List.length_eq_zero.mp h0)
  have hfr := CreateOrder_frame_carts db (orderBusiness.cartOrderRequest cart req)
    orderNumber orderID ids
  cases hco : orderBusiness.CreateOrder db (orderBusiness.cartOrderRequest cart req)
      orderNumber orderID ids with
  | mk r d =>
    rw [hco] at hfr
    simp only at hfr
    cases r with
    | error e0 =>
      have hres : orderBusiness.CreateOrderFromCart db req orderNumber orderID ids
          = (.error e0, d) := by
        unfold orderBusiness.CreateOrderFromCart
        simp only [hload, hactive, ne_eq, not_true_eq_false, if_false, hlen, hco]
      rw [hres]
      refine ⟨?_, ?_⟩
      · intro order hok
        cases hok
      · intro e he
        simp only at he
        refine ⟨he, ?_⟩
        rw [cartRepository_GetWithLines_congr hfr.1 hfr.2]
        exact hload
    | ok order0 =>
      have hres : orderBusiness.CreateOrderFromCart db req orderNumber orderID ids
          = (.ok order0, cartRepository.Update d
              { cart.row with Status := CartStatus.CART_STATUS_CONVERTED } ["status"]) := by
        unfold orderBusiness.CreateOrderFromCart
        simp only [hload, hactive, ne_eq, not_true_eq_false, if_false, hlen, hco]
      rw [hres]
      refine ⟨?_, ?_⟩
      · intro order hok
        simp only [Except.ok.injEq] at hok
        subst hok
        refine ⟨cart_converted_read db d cart req.CartId hload hfr.1 hfr.2, ?_⟩
        have hlines := CreateOrder_lines db (orderBusiness.cartOrderRequest cart req)
          orderNumber orderID ids order0 d rfl hf1 hf2 hco
        rw [hlines]
        simp [orderBusiness.cartOrderRequest]
      · intro e he
        cases he

/-- Witness for C13 (the suite's case): a cart holding 3 units of the example variant is
converted; the order has one line of 3 units of that variant and the cart is Converted
with its line kept. -/
theorem C13_cart_conversion_witness :
    (orderBusiness.CreateOrderFromCart exCart3DB ⟨"cart-1", "profile-123", "", ""⟩
        "ORD-1" "o1" exIds).1.toOption.map
        (fun o => o.Lines.map (fun l => (l.ProductVariantId, l.Quantity)))
      = some [("var-1", 3)]
    ∧ cartRepository.GetWithLines
        (orderBusiness.CreateOrderFromCart exCart3DB ⟨"cart-1", "profile-123", "", ""⟩
          "ORD-1" "o1" exIds).2 "cart-1"
      = some { row := { ID := "cart-1", ShopID := "shop-1",
                        Status := CartStatus.CART_STATUS_CONVERTED,
                        ProfileID := "", ContactID := "" },
               Lines := [{ ID := "cl-1", CartID := "cart-1", ProductVariantID := "var-1",
                           Quantity := 3 }] } := by
  refine ⟨by decide, ?_⟩
  have h := (C13_cart_conversion exCart3DB ⟨"cart-1", "profile-123", "", ""⟩
      "ORD-1" "o1" exIds
      { row := { ID := "cart-1", ShopID := "shop-1",
                 Status := CartStatus.CART_STATUS_ACTIVE, ProfileID := "", ContactID := "" },
        Lines := [{ ID := "cl-1", CartID := "cart-1", ProductVariantID := "var-1",
                    Quantity := 3 }] }
      (by decide) (by decide) (by decide) (by decide) (by decide)).1
      { Id := "o1", ShopId := "shop-1", OrderNumber := "ORD-1",
        Status := OrderStatus.ORDER_STATUS_CONFIRMED,
        PaymentStatus := PaymentStatus.PAYMENT_STATUS_PENDING,
        FulfilmentStatus := FulfilmentStatus.FULFILMENT_STATUS_UNSPECIFIED,
        ProfileId := "profile-123", ContactId := "", AddressId := "",
        Subtotal := some { CurrencyCode := "USD", Units := 31, Nanos := 500000000 },
        Total := some { CurrencyCode := "USD", Units := 31, Nanos := 500000000 },
        Lines := [{ Id := "line-1", ProductVariantId := "var-1", SkuSnapshot := "SKU-X",
                    NameSnapshot := "Test Variant",
                    UnitPrice := some { CurrencyCode := "USD", Units := 10,
                                        Nanos := 500000000 },
                    Quantity := 3,
                    TotalPrice := some { CurrencyCode := "USD", Units := 31,
                                         Nanos := 500000000 } }] }
      rfl
  exact h.1

/-- One iteration of the field loop of `UpdateFulfilment`: identity columns are kept, a
field is overwritten exactly when the iteration names it and the request's value is not
the zero value, columns are only added to `updateColumns`, and a field whose column is not
in `updateColumns` afterwards has the value it had before. -/
theorem applyField_spec (req : UpdateFulfilmentRequest) (acc : Fulfilment × List String)
    (field : String) :
    (fulfilmentBusiness.applyField req acc field).1.ID = acc.1.ID
    ∧ (fulfilmentBusiness.applyField req acc field).1.OrderID = acc.1.OrderID
    ∧ (fulfilmentBusiness.applyField req acc field).1.Status
        = (if field = "status"
              ∧ req.Status ≠ FulfilmentStatus.FULFILMENT_STATUS_UNSPECIFIED
           then req.Status else acc.1.Status)
    ∧ (fulfilmentBusiness.applyField req acc field).1.Carrier
        = (if field = "carrier" ∧ req.Carrier ≠ "" then req.Carrier else acc.1.Carrier)
    ∧ (fulfilmentBusiness.applyField req acc field).1.TrackingNumber
        = (if field = "tracking_number" ∧ req.TrackingNumber ≠ ""
           then req.TrackingNumber else acc.1.TrackingNumber)
    ∧ (∀ c ∈ acc.2, c ∈ (fulfilmentBusiness.applyField req acc field).2)
    ∧ ("status" ∈ (fulfilmentBusiness.applyField req acc field).2
        ∨ (fulfilmentBusiness.applyField req acc field).1.Status = acc.1.Status)
    ∧ ("carrier" ∈ (fulfilmentBusiness.applyField req acc field).2
        ∨ (fulfilmentBusiness.applyField req acc field).1.Carrier = acc.1.Carrier)
    ∧ ("tracking_number" ∈ (fulfilmentBusiness.applyField req acc field).2
        ∨ (fulfilmentBusiness.applyField req acc field).1.TrackingNumber
            = acc.1.TrackingNumber) := by
  unfold fulfilmentBusiness.applyField
  by_cases h1 : field = "status"
  · subst h1
    by_cases hz : req.Status = FulfilmentStatus.FULFILMENT_STATUS_UNSPECIFIED
    · simp [hz]
    · simp [hz]
      exact fun c hc => Or.inl hc
  · by_cases h2 : field = "carrier"
    · subst h2
      by_cases hz : req.Carrier = ""
      · simp [hz]
      · simp [hz]
        exact fun c hc => Or.inl hc
    · by_cases h3 : field = "tracking_number"
      · subst h3
        by_cases hz : req.TrackingNumber = ""
        · simp [hz]
        · simp [hz]
          exact fun c hc => Or.inl hc
      · by_cases h4 : field = "shipped_at"
        · subst h4
          by_cases hz : req.ShippedAt.isSome = true
          · simp [hz]
            exact fun c hc => Or.inl hc
          · simp [hz]
        · simp [h1, h2, h3, h4]

/-- The whole field loop of `UpdateFulfilment`, from any starting pair. -/
theorem foldl_applyField_spec (req : UpdateFulfilmentRequest) :
    ∀ (fields : List String) (acc : Fulfilment × List String),
      (fields.foldl (fulfilmentBusiness.applyField req) acc).1.ID = acc.1.ID
      ∧ (fields.foldl (fulfilmentBusiness.applyField req) acc).1.OrderID = acc.1.OrderID
      ∧ (fields.foldl (fulfilmentBusiness.applyField req) acc).1.Status
          = (if "status" ∈ fields
                ∧ req.Status ≠ FulfilmentStatus.FULFILMENT_STATUS_UNSPECIFIED
             then req.Status else acc.1.Status)
      ∧ (fields.foldl (fulfilmentBusiness.applyField req) acc).1.Carrier
          = (if "carrier" ∈ fields ∧ req.Carrier ≠ "" then req.Carrier
             else acc.1.Carrier)
      ∧ (fields.foldl (fulfilmentBusiness.applyField req) acc).1.TrackingNumber
          = (if "tracking_number" ∈ fields ∧ req.TrackingNumber ≠ ""
             then req.TrackingNumber else acc.1.TrackingNumber)
      ∧ (∀ c ∈ acc.2, c ∈ (fields.foldl (fulfilmentBusiness.applyField req) acc).2)
      ∧ ("status" ∈ (fields.foldl (fulfilmentBusiness.applyField req) acc).2
          ∨ (fields.foldl (fulfilmentBusiness.applyField req) acc).1.Status = acc.1.Status)
      ∧ ("carrier" ∈ (fields.foldl (fulfilmentBusiness.applyField req) acc).2
          ∨ (fields.foldl (fulfilmentBusiness.applyField req) acc).1.Carrier
              = acc.1.Carrier)
      ∧ ("tracking_number" ∈ (fields.foldl (fulfilmentBusiness.applyField req) acc).2
          ∨ (fields.foldl (fulfilmentBusiness.applyField req) acc).1.TrackingNumber
              = acc.1.TrackingNumber) := by
  intro fields
  induction fields with
  | nil => intro acc; simp
  | cons f rest ih =>
    intro acc
    obtain ⟨a1, a2, a3, a4, a5, a6, a7, a8, a9⟩ := applyField_spec req acc f
    obtain ⟨b1, b2, b3, b4, b5, b6, b7, b8, b9⟩ :=
      ih (fulfilmentBusiness.applyField req acc f)
    simp only [List.foldl_cons]
    refine ⟨b1.trans a1, b2.trans a2, ?_, ?_, ?_, ?_, ?_, ?_, ?_⟩
    · rw [b3, a3]
      by_cases hr : "status" ∈ rest
        <;> by_cases hf : f = "status"
        <;> by_cases hz : req.Status = FulfilmentStatus.FULFILMENT_STATUS_UNSPECIFIED
        <;> simp [hr, hf, hz, List.mem_cons, eq_comm]
    · rw [b4, a4]
      by_cases hr : "carrier" ∈ rest
        <;> by_cases hf : f = "carrier"
        <;> by_cases hz : req.Carrier = ""
        <;> simp [hr, hf, hz, List.mem_cons, eq_comm]
    · rw [b5, a5]
      by_cases hr : "tracking_number" ∈ rest
        <;> by_cases hf : f = "tracking_number"
        <;> by_cases hz : req.TrackingNumber = ""
        <;> simp [hr, hf, hz, List.mem_cons, eq_comm]
    · intro c hc
      exact b6 c (a6 c hc)
    · rcases b7 with h | h
      · exact Or.inl h
      · rcases a7 with h2 | h2
        · exact Or.inl (b6 _ h2)
        · exact Or.inr (h.trans h2)
    · rcases b8 with h | h
      · exact Or.inl h
      · rcases a8 with h2 | h2
        · exact Or.inl (b6 _ h2)
        · exact Or.inr (h.trans h2)
    · rcases b9 with h | h
      · exact Or.inl h
      · rcases a9 with h2 | h2
        · exact Or.inl (b6 _ h2)
        · exact Or.inr (h.trans h2)

/-- Reading fulfilments depends on the fulfilment and fulfilment line tables only. -/
theorem fulfilmentRepository_GetWithLines_congr {db1 db2 : DB}
    (hf : db1.fulfilments = db2.fulfilments)
    (hl : db1.fulfilmentLines = db2.fulfilmentLines) (id : String) :
    fulfilmentRepository.GetWithLines db1 id = fulfilmentRepository.GetWithLines db2 id := by
  unfold fulfilmentRepository.GetWithLines
  rw [hf, hl]

/-- The order-level recomputation touches neither fulfilments nor fulfilment lines. -/
theorem refreshOrderStatus_frame (db : DB) (orderID : String) :
    (fulfilmentBusiness.refreshOrderStatus db orderID).fulfilments = db.fulfilments
    ∧ (fulfilmentBusiness.refreshOrderStatus db orderID).fulfilmentLines
        = db.fulfilmentLines := by
  unfold fulfilmentBusiness.refreshOrderStatus
  cases orderRepository.GetWithLines db orderID with
  | none => exact ⟨rfl, rfl⟩
  | some order =>
    simp only []
    unfold fulfilmentBusiness.updateOrderFulfilmentStatus
    by_cases h : fulfilmentBusiness.allFulfilled db order.Lines = true
    · simp [h, orderRepository.Update]
    · simp [h]

/-- Reading a fulfilment after the write of `UpdateFulfilment`: the row holds the loop's
values of status, carrier and tracking number, and the lines are as before. -/
theorem persistFulfilment_read (db : DB) (id : String) (f : LoadedFulfilment)
    (r : Fulfilment × List String)
    (hload : fulfilmentRepository.GetWithLines db id = some f)
    (hid : r.1.ID = f.row.ID)
    (hs : "status" ∈ r.2 ∨ r.1.Status = f.row.Status)
    (hc : "carrier" ∈ r.2 ∨ r.1.Carrier = f.row.Carrier)
    (ht : "tracking_number" ∈ r.2 ∨ r.1.TrackingNumber = f.row.TrackingNumber) :
    fulfilmentRepository.GetWithLines (fulfilmentBusiness.persistFulfilment db r) id
      = some { row := { f.row with Status := r.1.Status, Carrier := r.1.Carrier,
                                   TrackingNumber := r.1.TrackingNumber },
               Lines := f.Lines } := by
  unfold fulfilmentRepository.GetWithLines at hload
  cases hf : db.fulfilments.find? (fun x => x.ID == id) with
  | none => rw [hf] at hload; simp at hload
  | some x =>
    rw [hf] at hload
    simp only [Option.some.injEq] at hload
    subst hload
    simp only at hid hs hc ht ⊢
    unfold fulfilmentBusiness.persistFulfilment
    by_cases hlen : r.2.length > 0
    · simp only [hlen, if_true]
      have hcomp : ((fun y : Fulfilment => y.ID == id) ∘ fun y : Fulfilment =>
          if y.ID = x.ID then
            { y with
              Status := if "status" ∈ r.2 then r.1.Status else y.Status,
              Carrier := if "carrier" ∈ r.2 then r.1.Carrier else y.Carrier,
              TrackingNumber :=
                if "tracking_number" ∈ r.2 then r.1.TrackingNumber else y.TrackingNumber }
          else y) = fun y : Fulfilment => y.ID == id := by
        funext y
        by_cases h2 : y.ID = x.ID <;> simp [h2]
      have e1 : (if "status" ∈ r.2 then r.1.Status else x.Status) = r.1.Status := by
        rcases hs with h | h
        · simp [h]
        · simp [h]
      have e2 : (if "carrier" ∈ r.2 then r.1.Carrier else x.Carrier) = r.1.Carrier := by
        rcases hc with h | h
        · simp [h]
        · simp [h]
      have e3 : (if "tracking_number" ∈ r.2 then r.1.TrackingNumber else x.TrackingNumber)
          = r.1.TrackingNumber := by
        rcases ht with h | h
        · simp [h]
        · simp [h]
      simp [fulfilmentRepository.GetWithLines, fulfilmentRepository.Update, hcomp, hf,
        hid, e1, e2, e3]
    · have hnil : r.2 = [] := by
        cases hr : r.2 with
        | nil => rfl
        | cons a b => rw [hr] at hlen; simp at hlen
      rw [hnil] at hs hc ht
      simp only [List.not_mem_nil, false_or] at hs hc ht
      simp only [hlen, if_false]
      simp [fulfilmentRepository.GetWithLines, hf, hs, hc, ht]

/-- What `UpdateFulfilment` does to an existing fulfilment: it succeeds and returns the
reloaded fulfilment, whose lines, id and order are as before and whose status, carrier and
tracking number are the request's values where the walked field list holds the field and
the request's value is not the zero value, and the values before the call elsewhere. -/
theorem UpdateFulfilment_read (db : DB) (req : UpdateFulfilmentRequest)
    (f : LoadedFulfilment)
    (hload : fulfilmentRepository.GetWithLines db req.Id = some f) :
    ∃ f2,
      fulfilmentRepository.GetWithLines (fulfilmentBusiness.UpdateFulfilment db req).2 req.Id
        = some f2
      ∧ (fulfilmentBusiness.UpdateFulfilment db req).1 = .ok f2.ToAPI
      ∧ f2.Lines = f.Lines
      ∧ f2.row.ID = f.row.ID
      ∧ f2.row.OrderID = f.row.OrderID
      ∧ f2.row.Status
          = (if "status" ∈ fulfilmentBusiness.updateFields req
                ∧ req.Status ≠ FulfilmentStatus.FULFILMENT_STATUS_UNSPECIFIED
             then req.Status else f.row.Status)
      ∧ f2.row.Carrier
          = (if "carrier" ∈ fulfilmentBusiness.updateFields req ∧ req.Carrier ≠ ""
             then req.Carrier else f.row.Carrier)
      ∧ f2.row.TrackingNumber
          = (if "tracking_number" ∈ fulfilmentBusiness.updateFields req
                ∧ req.TrackingNumber ≠ ""
             then req.TrackingNumber else f.row.TrackingNumber) := by
  obtain ⟨b1, _, b3, b4, b5, _, b7, b8, b9⟩ :=
    foldl_applyField_spec req (fulfilmentBusiness.updateFields req) (f.row, [])
  simp only at b1 b3 b4 b5 b7 b8 b9
  have hp := persistFulfilment_read db req.Id f
    ((fulfilmentBusiness.updateFields req).foldl (fulfilmentBusiness.applyField req)
      (f.row, [])) hload b1 b7 b8 b9
  have hfr := refreshOrderStatus_frame
    (fulfilmentBusiness.persistFulfilment db
      ((fulfilmentBusiness.updateFields req).foldl (fulfilmentBusiness.applyField req)
        (f.row, [])))
    ((fulfilmentBusiness.updateFields req).foldl (fulfilmentBusiness.applyField req)
      (f.row, [])).1.OrderID
  have hres : fulfilmentBusiness.UpdateFulfilment db req
      = (fulfilmentBusiness.GetFulfilment
          (fulfilmentBusiness.refreshOrderStatus
            (fulfilmentBusiness.persistFulfilment db
              ((fulfilmentBusiness.updateFields req).foldl
                (fulfilmentBusiness.applyField req) (f.row, [])))
            ((fulfilmentBusiness.updateFields req).foldl
              (fulfilmentBusiness.applyField req) (f.row, [])).1.OrderID) req.Id,
         fulfilmentBusiness.refreshOrderStatus
            (fulfilmentBusiness.persistFulfilment db
              ((fulfilmentBusiness.updateFields req).foldl
                (fulfilmentBusiness.applyField req) (f.row, [])))
            ((fulfilmentBusiness.updateFields req).foldl
              (fulfilmentBusiness.applyField req) (f.row, [])).1.OrderID) := by
    unfold fulfilmentBusiness.UpdateFulfilment
    simp only [hload]
  have hget := (fulfilmentRepository_GetWithLines_congr hfr.1 hfr.2 req.Id).trans hp
  rw [hres]
  refine ⟨_, hget, ?_, rfl, rfl, rfl, ?_, ?_, ?_⟩
  · simp only [fulfilmentBusiness.GetFulfilment, hget]
  · simpa using b3
  · simpa using b4
  · simpa using b5

/-- For status, carrier and tracking number, the walked field list holds the field exactly
when the mask names it (an empty or absent mask names all three). -/
theorem mem_updateFields_iff (req : UpdateFulfilmentRequest) (field : String)
    (h : field = "status" ∨ field = "carrier" ∨ field = "tracking_number") :
    field ∈ fulfilmentBusiness.updateFields req ↔ maskNames req field := by
  unfold fulfilmentBusiness.updateFields maskNames
  cases hm : req.UpdateMask with
  | nil => rcases h with h | h | h <;> simp [h]
  | cons a b => simp

/-- Claim C19 (fails on the code as stated): the fulfilment `f1` was moved to Delivered;
an `UpdateFulfilment` request with status Pending succeeds and the fulfilment is Pending
afterwards, which is earlier than Delivered in the order Pending, Shipped, Delivered. -/
theorem C19_delivered_moves_back_to_pending :
    (fulfilmentFieldsOf exDeliveredDB "f1").map (fun x => x.1)
      = some FulfilmentStatus.FULFILMENT_STATUS_DELIVERED
    ∧ (fulfilmentBusiness.UpdateFulfilment exDeliveredDB
          { Id := "f1", Status := FulfilmentStatus.FULFILMENT_STATUS_PENDING, Carrier := "",
            TrackingNumber := "", ShippedAt := none, UpdateMask := [] }).1.toOption.map
        (fun x => x.Status) = some FulfilmentStatus.FULFILMENT_STATUS_PENDING
    ∧ (fulfilmentFieldsOf
          (fulfilmentBusiness.UpdateFulfilment exDeliveredDB
            { Id := "f1", Status := FulfilmentStatus.FULFILMENT_STATUS_PENDING,
              Carrier := "", TrackingNumber := "", ShippedAt := none,
              UpdateMask := [] }).2 "f1").map (fun x => x.1)
      = some FulfilmentStatus.FULFILMENT_STATUS_PENDING
    ∧ statusRank FulfilmentStatus.FULFILMENT_STATUS_PENDING = some 0
    ∧ statusRank FulfilmentStatus.FULFILMENT_STATUS_DELIVERED = some 2 := by
  decide

/-- Claim C19 (amended): for every fulfilment and every `UpdateFulfilment` request, the
fulfilment's status after the call is the request's status when the mask names status (or
is empty or absent) and the request's status is not unspecified, whatever the status was
before, and is the status before the call in every other case; no order of the statuses
is enforced. -/
theorem C19_status_follows_request (db : DB) (req : UpdateFulfilmentRequest)
    (f : LoadedFulfilment)
    (hload : fulfilmentRepository.GetWithLines db req.Id = some f) :
    ∃ f2,
      fulfilmentRepository.GetWithLines (fulfilmentBusiness.UpdateFulfilment db req).2 req.Id
        = some f2
      ∧ f2.row.Status
          = (if maskNames req "status"
                ∧ req.Status ≠ FulfilmentStatus.FULFILMENT_STATUS_UNSPECIFIED
             then req.Status else f.row.Status) := by
  obtain ⟨f2, hget, _, _, _, _, hs, _, _⟩ := UpdateFulfilment_read db req f hload
  refine ⟨f2, hget, ?_⟩
  rw [hs]
  simp only [mem_updateFields_iff req "status" (Or.inl rfl)]

/-- Witness for C19: on the Delivered fulfilment `f1`, a request with status Pending and no
mask leaves the fulfilment Pending. -/
theorem C19_status_follows_request_witness :
    (fulfilmentFieldsOf
        (fulfilmentBusiness.UpdateFulfilment exDeliveredDB
          { Id := "f1", Status := FulfilmentStatus.FULFILMENT_STATUS_PENDING,
            Carrier := "", TrackingNumber := "", ShippedAt := none,
            UpdateMask := [] }).2 "f1").map (fun x => x.1)
      = some FulfilmentStatus.FULFILMENT_STATUS_PENDING := by
  obtain ⟨f2, hget, hs⟩ := C19_status_follows_request exDeliveredDB
    { Id := "f1", Status := FulfilmentStatus.FULFILMENT_STATUS_PENDING,
      Carrier := "", TrackingNumber := "", ShippedAt := none, UpdateMask := [] }
    { row := { ID := "f1", OrderID := "o1",
               Status := FulfilmentStatus.FULFILMENT_STATUS_DELIVERED,
               Carrier := "", TrackingNumber := "" },
      Lines := [{ ID := "line-1", FulfilmentID := "f1", OrderLineID := "line-1",
                  Quantity := 5 }] }
    (by decide)
  have hs2 : f2.row.Status = FulfilmentStatus.FULFILMENT_STATUS_PENDING := by
    rw [hs]
    decide
  have hget2 : fulfilmentRepository.GetWithLines
      (fulfilmentBusiness.UpdateFulfilment exDeliveredDB
        { Id := "f1", Status := FulfilmentStatus.FULFILMENT_STATUS_PENDING,
          Carrier := "", TrackingNumber := "", ShippedAt := none,
          UpdateMask := [] }).2 "f1" = some f2 := hget
  simp only [fulfilmentFieldsOf, hget2, Option.map_some', hs2]

/-- Claim C20: for every fulfilment and every `UpdateFulfilment` request, the call succeeds
and returns the reloaded fulfilment; each of status, carrier and tracking number that the
mask does not name is unchanged, and each one the mask names takes the request's value
when that value is not the zero value (unspecified status, empty string); an empty or
absent mask names all three. -/
theorem C20_update_applies_named_fields (db : DB) (req : UpdateFulfilmentRequest)
    (f : LoadedFulfilment)
    (hload : fulfilmentRepository.GetWithLines db req.Id = some f) :
    ∃ f2,
      fulfilmentRepository.GetWithLines (fulfilmentBusiness.UpdateFulfilment db req).2 req.Id
        = some f2
      ∧ (fulfilmentBusiness.UpdateFulfilment db req).1 = .ok f2.ToAPI
      ∧ (¬ maskNames req "status" → f2.row.Status = f.row.Status)
      ∧ (maskNames req "status" →
          req.Status ≠ FulfilmentStatus.FULFILMENT_STATUS_UNSPECIFIED →
          f2.row.Status = req.Status)
      ∧ (¬ maskNames req "carrier" → f2.row.Carrier = f.row.Carrier)
      ∧ (maskNames req "carrier" → req.Carrier ≠ "" → f2.row.Carrier = req.Carrier)
      ∧ (¬ maskNames req "tracking_number" → f2.row.TrackingNumber = f.row.TrackingNumber)
      ∧ (maskNames req "tracking_number" → req.TrackingNumber ≠ "" →
          f2.row.TrackingNumber = req.TrackingNumber) := by
  obtain ⟨f2, hget, hret, _, _, _, hs, hc, ht⟩ := UpdateFulfilment_read db req f hload
  simp only [mem_updateFields_iff req "status" (Or.inl rfl)] at hs
  simp only [mem_updateFields_iff req "carrier" (Or.inr (Or.inl rfl))] at hc
  simp only [mem_updateFields_iff req "tracking_number" (Or.inr (Or.inr rfl))] at ht
  refine ⟨f2, hget, hret, ?_, ?_, ?_, ?_, ?_, ?_⟩
  · intro hn; rw [hs]; simp [hn]
  · intro hn hz; rw [hs]; simp [hn, hz]
  · intro hn; rw [hc]; simp [hn]
  · intro hn hz; rw [hc]; simp [hn, hz]
  · intro hn; rw [ht]; simp [hn]
  · intro hn hz; rw [ht]; simp [hn, hz]

/-- Witness for C20 (the suite's case): on the Pending fulfilment `f1`, a request without
mask with status Shipped, carrier FedEx and tracking number TRACK-12345 sets all three. -/
theorem C20_update_applies_named_fields_witness :
    fulfilmentFieldsOf exPendingDB "f1"
      = some (FulfilmentStatus.FULFILMENT_STATUS_PENDING, "", "")
    ∧ fulfilmentFieldsOf
        (fulfilmentBusiness.UpdateFulfilment exPendingDB
          { Id := "f1", Status := FulfilmentStatus.FULFILMENT_STATUS_SHIPPED,
            Carrier := "FedEx", TrackingNumber := "TRACK-12345", ShippedAt := none,
            UpdateMask := [] }).2 "f1"
      = some (FulfilmentStatus.FULFILMENT_STATUS_SHIPPED, "FedEx", "TRACK-12345") := by
  refine ⟨by decide, ?_⟩
  obtain ⟨f2, hget, _, _, hs, _, hc, _, ht⟩ := C20_update_applies_named_fields exPendingDB
    { Id := "f1", Status := FulfilmentStatus.FULFILMENT_STATUS_SHIPPED,
      Carrier := "FedEx", TrackingNumber := "TRACK-12345", ShippedAt := none,
      UpdateMask := [] }
    { row := { ID := "f1", OrderID := "o1",
               Status := FulfilmentStatus.FULFILMENT_STATUS_PENDING,
               Carrier := "", TrackingNumber := "" },
      Lines := [{ ID := "line-1", FulfilmentID := "f1", OrderLineID := "line-1",
                  Quantity := 5 }] }
    (by decide)
  have hs2 := hs (by decide) (by decide)
  have hc2 := hc (by decide) (by decide)
  have ht2 := ht (by decide) (by decide)
  have hget2 : fulfilmentRepository.GetWithLines
      (fulfilmentBusiness.UpdateFulfilment exPendingDB
        { Id := "f1", Status := FulfilmentStatus.FULFILMENT_STATUS_SHIPPED,
          Carrier := "FedEx", TrackingNumber := "TRACK-12345", ShippedAt := none,
          UpdateMask := [] }).2 "f1" = some f2 := hget
  simp only [fulfilmentFieldsOf, hget2, Option.map_some', hs2, hc2, ht2]

/-- The order-level recomputation keeps every order line and, of every order, all columns
other than status and fulfilment status. -/
theorem updateOrderFulfilmentStatus_keeps (db : DB) (order : LoadedOrder) :
    (fulfilmentBusiness.updateOrderFulfilmentStatus db order).orderLines = db.orderLines
    ∧ (fulfilmentBusiness.updateOrderFulfilmentStatus db order).orders.map orderFixedFields
        = db.orders.map orderFixedFields := by
  unfold fulfilmentBusiness.updateOrderFulfilmentStatus
  by_cases h : fulfilmentBusiness.allFulfilled db order.Lines = true
  · simp only [h, if_true, orderRepository.Update, List.map_map]
    refine ⟨trivial, ?_⟩
    apply List.map_congr_left
    intro o _
    by_cases ho : o.ID = order.row.ID <;> simp [ho, orderFixedFields]
  · simp [h]

/-- The reload-and-recompute step keeps order lines and the fixed columns of orders. -/
theorem refreshOrderStatus_keeps (db : DB) (orderID : String) :
    (fulfilmentBusiness.refreshOrderStatus db orderID).orderLines = db.orderLines
    ∧ (fulfilmentBusiness.refreshOrderStatus db orderID).orders.map orderFixedFields
        = db.orders.map orderFixedFields := by
  unfold fulfilmentBusiness.refreshOrderStatus
  cases orderRepository.GetWithLines db orderID with
  | none => exact ⟨rfl, rfl⟩
  | some order => exact updateOrderFulfilmentStatus_keeps db order

/-- The write of `UpdateFulfilment` touches the fulfilment table only. -/
theorem persistFulfilment_frame (db : DB) (r : Fulfilment × List String) :
    (fulfilmentBusiness.persistFulfilment db r).orders = db.orders
    ∧ (fulfilmentBusiness.persistFulfilment db r).orderLines = db.orderLines
    ∧ (fulfilmentBusiness.persistFulfilment db r).fulfilmentLines = db.fulfilmentLines := by
  unfold fulfilmentBusiness.persistFulfilment
  by_cases h : r.2.length > 0
  · simp [h, fulfilmentRepository.Update]
  · simp [h]

/-- Claim C21: for every `CreateFulfilment` and every `UpdateFulfilment` call, the order
line table is unchanged (every existing order line keeps variant, snapshots, unit price,
quantity and line total) and every existing order keeps all of its columns other than
status and fulfilment status (id, shop, order number, idempotency key, payment status,
profile, contact, address, subtotal, total); no order is added or removed. -/
theorem C21_orders_keep_contents :
    (∀ (db : DB) (req : CreateFulfilmentRequest) (fulfilmentID : String)
        (ids : Nat → String),
        (fulfilmentBusiness.CreateFulfilment db req fulfilmentID ids).2.orderLines
          = db.orderLines
        ∧ (fulfilmentBusiness.CreateFulfilment db req fulfilmentID ids).2.orders.map
            orderFixedFields = db.orders.map orderFixedFields)
    ∧ (∀ (db : DB) (req : UpdateFulfilmentRequest),
        (fulfilmentBusiness.UpdateFulfilment db req).2.orderLines = db.orderLines
        ∧ (fulfilmentBusiness.UpdateFulfilment db req).2.orders.map orderFixedFields
            = db.orders.map orderFixedFields) := by
  constructor
  · intro db req fulfilmentID ids
    unfold fulfilmentBusiness.CreateFulfilment
    cases hload : orderRepository.GetWithLines db req.OrderId with
    | none => exact ⟨rfl, rfl⟩
    | some order =>
      simp only []
      by_cases hc : order.row.Status = OrderStatus.ORDER_STATUS_CANCELLED
      · simp only [hc, if_true]
        exact ⟨trivial, trivial⟩
      · simp only [hc, if_false]
        by_cases hl : req.Lines.length = 0
        · simp only [hl, if_true]
          exact ⟨trivial, trivial⟩
        · simp only [hl, if_false]
          cases hv : fulfilmentBusiness.validateLines db order.Lines req.Lines with
          | some e => exact ⟨rfl, rfl⟩
          | none =>
            simp only []
            have hfr := fulfilment_createLines_frame fulfilmentID ids req.Lines 0
              (fulfilmentRepository.Create db
                { ID := fulfilmentID, OrderID := req.OrderId,
                  Status := FulfilmentStatus.FULFILMENT_STATUS_PENDING,
                  Carrier := "", TrackingNumber := "" })
            have hk := updateOrderFulfilmentStatus_keeps
              (fulfilmentBusiness.createLines fulfilmentID ids 0 req.Lines
                (fulfilmentRepository.Create db
                  { ID := fulfilmentID, OrderID := req.OrderId,
                    Status := FulfilmentStatus.FULFILMENT_STATUS_PENDING,
                    Carrier := "", TrackingNumber := "" })) order
            rw [hfr.1, hfr.2] at hk
            exact hk
  · intro db req
    unfold fulfilmentBusiness.UpdateFulfilment
    cases hload : fulfilmentRepository.GetWithLines db req.Id with
    | none => exact ⟨rfl, rfl⟩
    | some f =>
      simp only []
      have hp := persistFulfilment_frame db
        ((fulfilmentBusiness.updateFields req).foldl (fulfilmentBusiness.applyField req)
          (f.row, []))
      have hk := refreshOrderStatus_keeps
        (fulfilmentBusiness.persistFulfilment db
          ((fulfilmentBusiness.updateFields req).foldl (fulfilmentBusiness.applyField req)
            (f.row, [])))
        ((fulfilmentBusiness.updateFields req).foldl (fulfilmentBusiness.applyField req)
          (f.row, [])).1.OrderID
      rw [hp.1, hp.2.1] at hk
      exact hk

/-- Claim C23 (fails on the code): in the store reached by ordering 5 units, a
`CreateFulfilment` request with a line of quantity -2 and a line of quantity 0 is not
rejected: it succeeds and persists FulfilmentLine rows with the quantities -2 and 0. -/
theorem C23_non_positive_lines_are_persisted :
    exOrderedDB.fulfilmentLines = []
    ∧ (fulfilmentBusiness.CreateFulfilment exOrderedDB
          (exFulfilReq [⟨"line-1", -2⟩, ⟨"line-1", 0⟩]) "f1" exIds).1.toOption.isSome = true
    ∧ (fulfilmentBusiness.CreateFulfilment exOrderedDB
          (exFulfilReq [⟨"line-1", -2⟩, ⟨"line-1", 0⟩]) "f1" exIds).2.fulfilmentLines.map
        (fun l => (l.OrderLineID, l.Quantity)) = [("line-1", -2), ("line-1", 0)] := by
  decide

/-- Claim C24: for every `CreateShop` request, (1) when the name is empty after trimming
surrounding white space the call fails with InvalidArgument; (2) otherwise, when a shop
exists whose slug equals the effective slug of the request, it fails with AlreadyExists;
in both cases the store is unchanged, so no shop is created; (3) in every other case it
succeeds and adds exactly one shop, with the trimmed name and the effective slug.  The
three cases are exclusive and exhaustive, so each failure occurs exactly in its case. -/
theorem C24_create_shop_outcomes (toLower : String → String) (db : DB)
    (req : CreateShopRequest) (shopID : String) :
    (TrimSpace req.Name = "" →
        shopBusiness.CreateShop toLower db req shopID = (.error Code.InvalidArgument, db))
    ∧ (TrimSpace req.Name ≠ "" →
        (∃ x ∈ db.shops, x.Slug = effectiveSlug toLower req) →
        shopBusiness.CreateShop toLower db req shopID = (.error Code.AlreadyExists, db))
    ∧ (TrimSpace req.Name ≠ "" →
        (¬ ∃ x ∈ db.shops, x.Slug = effectiveSlug toLower req) →
        shopBusiness.CreateShop toLower db req shopID
          = (.ok { Id := shopID, Name := TrimSpace req.Name,
                   Slug := effectiveSlug toLower req, Description := req.Description,
                   Status := ShopStatus.SHOP_STATUS_ACTIVE },
             { db with shops := db.shops ++
                [{ ID := shopID, Name := TrimSpace req.Name,
                   Slug := effectiveSlug toLower req }] })) := by
  refine ⟨?_, ?_, ?_⟩
  · intro hn
    unfold shopBusiness.CreateShop
    simp only [hn, if_true]
  · intro hn hex
    obtain ⟨x, hx, hslug⟩ := hex
    cases hf : shopRepository.GetBySlug db (effectiveSlug toLower req) with
    | none =>
      unfold shopRepository.GetBySlug at hf
      rw [List.find?_eq_none] at hf
      exact absurd (by simpa using hslug) (hf x hx)
    | some y =>
      unfold effectiveSlug at hf
      unfold shopBusiness.CreateShop
      simp only [hn, if_false, hf]
  · intro hn hno
    have hf : shopRepository.GetBySlug db (effectiveSlug toLower req) = none := by
      unfold shopRepository.GetBySlug
      rw [List.find?_eq_none]
      intro x hx hxs
      exact hno ⟨x, hx, by simpa using hxs⟩
    unfold effectiveSlug at hf ⊢
    unfold shopBusiness.CreateShop
    simp only [hn, if_false, hf, shopRepository.Create]

/-- The commit sequence of `CreateOrder` adds the header, and only the header, to the
order table. -/
theorem CreateOrder_commit_orders (db : DB) (order : Order) (oid : String)
    (lines : List OrderLine) (ids : Nat → String) :
    (match orderBusiness.createLines oid ids 0 lines
              (orderRepository.Create db order) with
          | (some e, db2) => ((.error e : Except Code OrderAPI), db2)
          | (none, db2) => (orderBusiness.GetOrder db2 oid, db2)).2.orders
      = db.orders ++ [order] := by
  have hfr := order_createLines_frame oid ids lines 0 (orderRepository.Create db order)
  cases hcl : orderBusiness.createLines oid ids 0 lines
      (orderRepository.Create db order) with
  | mk c db2 =>
    rw [hcl] at hfr
    simp only at hfr
    obtain ⟨hc, hords, _⟩ := hfr
    subst hc
    simp only []
    rw [hords]
    rfl

/-- Claim C25: whatever the request, `CreateOrder` leaves the order table as it was or
adds exactly one header; every header it adds has the generated id and order number,
status Confirmed, payment status Pending, fulfilment status unspecified, and a total equal
to its subtotal in currency, units and nanos; when the request carries no idempotency key
the stored key is the generated order number, and otherwise it is the request's key. -/
theorem C25_persisted_header (db : DB) (req : CreateOrderRequest)
    (orderNumber orderID : String) (ids : Nat → String) :
    (orderBusiness.CreateOrder db req orderNumber orderID ids).2.orders = db.orders
    ∨ ∃ h, (orderBusiness.CreateOrder db req orderNumber orderID ids).2.orders
          = db.orders ++ [h]
        ∧ h.ID = orderID ∧ h.OrderNumber = orderNumber
        ∧ h.Status = OrderStatus.ORDER_STATUS_CONFIRMED
        ∧ h.PaymentStatus = PaymentStatus.PAYMENT_STATUS_PENDING
        ∧ h.FulfilmentStatus = FulfilmentStatus.FULFILMENT_STATUS_UNSPECIFIED
        ∧ h.TotalCurrency = h.SubtotalCurrency
        ∧ h.TotalUnits = h.SubtotalUnits
        ∧ h.TotalNanos = h.SubtotalNanos
        ∧ (req.IdempotencyKey = "" → h.IdempotencyKey = orderNumber)
        ∧ (req.IdempotencyKey ≠ "" → h.IdempotencyKey = req.IdempotencyKey) := by
  unfold orderBusiness.CreateOrder
  cases hrep : (if req.IdempotencyKey ≠ "" then
      orderRepository.GetByIdempotencyKey db req.IdempotencyKey else none) with
  | some existing => exact Or.inl rfl
  | none =>
    simp only []
    cases hs : shopRepository.GetByID db req.ShopId with
    | none => exact Or.inl rfl
    | some shop =>
      simp only []
      by_cases hl : req.Lines.length = 0
      · simp only [hl, if_true]
        exact Or.inl trivial
      · simp only [hl, if_false]
        cases hb : orderBusiness.buildOrderLines db req.ShopId req.Lines with
        | error e => exact Or.inl rfl
        | ok built =>
          simp only []
          refine Or.inr ⟨_, CreateOrder_commit_orders db _ orderID built.orderLines ids,
            rfl, rfl, rfl, rfl, rfl, rfl, rfl, rfl, ?_, ?_⟩
          · intro hk
            simp [hk]
          · intro hk
            simp [hk]

/-- The loop of `updateOrderFulfilmentStatus` reads the fulfilment line table only. -/
theorem allFulfilled_congr {db1 db2 : DB} (h : db1.fulfilmentLines = db2.fulfilmentLines)
    (lines : List OrderLine) :
    fulfilmentBusiness.allFulfilled db1 lines = fulfilmentBusiness.allFulfilled db2 lines := by
  induction lines with
  | nil => rfl
  | cons x rest ih =>
    unfold fulfilmentBusiness.allFulfilled
    simp only [fulfilmentLineRepository.GetFulfilledQuantityByOrderLineID,
      fulfilmentLineRepository.sumQuantity, h, ih]

/-- Running the order-level recomputation again, on any copy of the order with the same
id and the same lines, changes nothing. -/
theorem updateOrderFulfilmentStatus_again (db : DB) (order order2 : LoadedOrder)
    (hid : order2.row.ID = order.row.ID) (hlines : order2.Lines = order.Lines) :
    fulfilmentBusiness.updateOrderFulfilmentStatus
        (fulfilmentBusiness.updateOrderFulfilmentStatus db order) order2
      = fulfilmentBusiness.updateOrderFulfilmentStatus db order := by
  by_cases h : fulfilmentBusiness.allFulfilled db order.Lines = true
  · have h1 : fulfilmentBusiness.updateOrderFulfilmentStatus db order
        = orderRepository.Update db
            { order.row with
              Status := OrderStatus.ORDER_STATUS_FULFILLED,
              FulfilmentStatus := FulfilmentStatus.FULFILMENT_STATUS_DELIVERED }
            ["status", "fulfilment_status"] := by
      unfold fulfilmentBusiness.updateOrderFulfilmentStatus
      simp only [h, if_true]
    rw [h1]
    have h2 : fulfilmentBusiness.allFulfilled
        (orderRepository.Update db
          { order.row with
            Status := OrderStatus.ORDER_STATUS_FULFILLED,
            FulfilmentStatus := FulfilmentStatus.FULFILMENT_STATUS_DELIVERED }
          ["status", "fulfilment_status"]) order2.Lines = true := by
      rw [hlines, ← h]
      apply allFulfilled_congr
      rfl
    unfold fulfilmentBusiness.updateOrderFulfilmentStatus
    simp only [h2, if_true]
    simp only [orderRepository.Update, List.map_map, hid]
    congr 1
    apply List.map_congr_left
    intro o _
    by_cases ho : o.ID = order.row.ID <;> simp [ho]
  · have h1 : fulfilmentBusiness.updateOrderFulfilmentStatus db order = db := by
      unfold fulfilmentBusiness.updateOrderFulfilmentStatus
      simp [h]
    rw [h1]
    unfold fulfilmentBusiness.updateOrderFulfilmentStatus
    rw [hlines]
    simp [h]

/-- Claim C29: (1) the order-level recomputation is idempotent: running
`updateOrderFulfilmentStatus` a second time, on the same order object or on any copy of it
with the same id and lines (the object as mutated by the first run, or the order
reloaded), leaves the store as the first run left it; (2) an `UpdateFulfilment` call on a
fulfilment whose order has a line fulfilled below its ordered quantity leaves the order
table, so the order's status and fulfilment status, unchanged. -/
theorem C29_recomputation_idempotent :
    (∀ (db : DB) (order order2 : LoadedOrder),
        order2.row.ID = order.row.ID → order2.Lines = order.Lines →
        fulfilmentBusiness.updateOrderFulfilmentStatus
            (fulfilmentBusiness.updateOrderFulfilmentStatus db order) order2
          = fulfilmentBusiness.updateOrderFulfilmentStatus db order)
    ∧ (∀ (db : DB) (req : UpdateFulfilmentRequest) (f : LoadedFulfilment)
        (order : LoadedOrder),
        fulfilmentRepository.GetWithLines db req.Id = some f →
        orderRepository.GetWithLines db f.row.OrderID = some order →
        (∃ ol ∈ order.Lines,
          fulfilmentLineRepository.sumQuantity db ol.ID < ol.Quantity) →
        (fulfilmentBusiness.UpdateFulfilment db req).2.orders = db.orders) := by
  refine ⟨updateOrderFulfilmentStatus_again, ?_⟩
  intro db req f order hload hord hex
  obtain ⟨_, b2, _⟩ :=
    foldl_applyField_spec req (fulfilmentBusiness.updateFields req) (f.row, [])
  simp only at b2
  have hp := persistFulfilment_frame db
    ((fulfilmentBusiness.updateFields req).foldl (fulfilmentBusiness.applyField req)
      (f.row, []))
  have hnot : fulfilmentBusiness.allFulfilled db order.Lines = false := by
    cases hb : fulfilmentBusiness.allFulfilled db order.Lines with
    | false => rfl
    | true =>
      rw [allFulfilled_iff] at hb
      obtain ⟨ol, hol, hlt⟩ := hex
      exact absurd (hb ol hol).2 (not_le.mpr hlt)
  have hord2 : orderRepository.GetWithLines
      (fulfilmentBusiness.persistFulfilment db
        ((fulfilmentBusiness.updateFields req).foldl (fulfilmentBusiness.applyField req)
          (f.row, [])))
      ((fulfilmentBusiness.updateFields req).foldl (fulfilmentBusiness.applyField req)
        (f.row, [])).1.OrderID = some order := by
    rw [b2, ← hord]
    unfold orderRepository.GetWithLines
    rw [hp.1, hp.2.1]
  have hnot2 : fulfilmentBusiness.allFulfilled
      (fulfilmentBusiness.persistFulfilment db
        ((fulfilmentBusiness.updateFields req).foldl (fulfilmentBusiness.applyField req)
          (f.row, []))) order.Lines = false := by
    rw [← hnot]
    exact allFulfilled_congr hp.2.2 order.Lines
  unfold fulfilmentBusiness.UpdateFulfilment
  simp only [hload, fulfilmentBusiness.refreshOrderStatus, hord2,
    fulfilmentBusiness.updateOrderFulfilmentStatus, hnot2]
  exact hp.1

/-- Go division and remainder by 10^9, which truncate toward zero, in terms of the floor
division and remainder of the magnitude. -/
theorem tdiv_tmod_cases (x : Int) :
    (0 ≤ x ∧ Int.tdiv x 1000000000 = x / 1000000000
        ∧ Int.tmod x 1000000000 = x % 1000000000)
    ∨ (x < 0 ∧ Int.tdiv x 1000000000 = -((-x) / 1000000000)
        ∧ Int.tmod x 1000000000 = -((-x) % 1000000000)) := by
  by_cases hx : 0 ≤ x
  · exact Or.inl ⟨hx, Int.tdiv_eq_ediv hx (by norm_num), Int.tmod_eq_emod hx (by norm_num)⟩
  · have hneg : x < 0 := not_le.mp hx
    have h1 : Int.tdiv x 1000000000 = -((-x) / 1000000000) := by
      have h2 : Int.tdiv (-x) 1000000000 = (-x) / 1000000000 :=
        Int.tdiv_eq_ediv (by omega) (by norm_num)
      rw [← h2, Int.neg_tdiv, neg_neg]
    have h3 := Int.tdiv_add_tmod x 1000000000
    refine Or.inr ⟨hneg, h1, ?_⟩
    rw [h1] at h3
    omega

/-- The nanos of a line total always have magnitude below 10^9. -/
theorem lineTotal_nanos_bound (units nanos q : Int) :
    -1000000000 < (lineTotal units nanos q).2 ∧ (lineTotal units nanos q).2 < 1000000000 := by
  unfold lineTotal
  simp only []
  rcases tdiv_tmod_cases (wrapInt32 (wrapInt64 (nanos * q))) with ⟨_, _, h⟩ | ⟨_, _, h⟩
  · rw [h]; omega
  · rw [h]; omega

/-- One accumulation step on nanos of magnitude below 10^9: the `int32` addition does not
overflow, the new nanos have magnitude below 10^9, and when the units stay within `int64`
the new subtotal is the exact sum, its units growing by at most the line units plus one
carry. -/
theorem accumulate_spec (su sn lu ln : Int)
    (hsn : -1000000000 < sn ∧ sn < 1000000000)
    (hln : -1000000000 < ln ∧ ln < 1000000000) :
    isInt32 (sn + ln)
    ∧ (-1000000000 < (accumulate su sn lu ln).2 ∧ (accumulate su sn lu ln).2 < 1000000000)
    ∧ ∀ B : Int, -B ≤ su → su ≤ B → B + lu.natAbs + 1 ≤ 9223372036854775807 →
        (accumulate su sn lu ln).1 * 1000000000 + (accumulate su sn lu ln).2
          = su * 1000000000 + sn + (lu * 1000000000 + ln)
        ∧ -(B + lu.natAbs + 1) ≤ (accumulate su sn lu ln).1
        ∧ (accumulate su sn lu ln).1 ≤ B + lu.natAbs + 1 := by
  have hw32 : wrapInt32 (sn + ln) = sn + ln := by unfold wrapInt32; omega
  unfold accumulate
  simp only [hw32]
  refine ⟨by unfold isInt32; omega, ?_, ?_⟩
  · rcases tdiv_tmod_cases (sn + ln) with ⟨_, _, h⟩ | ⟨_, _, h⟩
    · rw [h]; omega
    · rw [h]; omega
  · intro B hB1 hB2 hB3
    have hw1 : wrapInt64 (su + lu) = su + lu :=
      wrapInt64_of_isInt64 (by unfold isInt64; omega)
    rw [hw1]
    rcases tdiv_tmod_cases (sn + ln) with ⟨h0, hd, hm⟩ | ⟨h0, hd, hm⟩
    · have hw2 : wrapInt64 (su + lu + (sn + ln) / 1000000000)
          = su + lu + (sn + ln) / 1000000000 :=
        wrapInt64_of_isInt64 (by unfold isInt64; omega)
      rw [hd, hm, hw2]
      omega
    · have hw2 : wrapInt64 (su + lu + -((-(sn + ln)) / 1000000000))
          = su + lu + -((-(sn + ln)) / 1000000000) :=
        wrapInt64_of_isInt64 (by unfold isInt64; omega)
      rw [hd, hm, hw2]
      omega

/-- The running subtotal nanos keep magnitude below 10^9 over any list of lines whose
nanos have magnitude below 10^9. -/
theorem foldl_addLine_nanos (lines : List OrderLine) :
    ∀ s : Int × Int,
      (-1000000000 < s.2 ∧ s.2 < 1000000000) →
      (∀ l ∈ lines, -1000000000 < l.TotalPriceNanos ∧ l.TotalPriceNanos < 1000000000) →
      -1000000000 < (lines.foldl addLine s).2 ∧ (lines.foldl addLine s).2 < 1000000000 := by
  induction lines with
  | nil => intro s hs _; exact hs
  | cons l rest ih =>
    intro s hs hl
    simp only [List.foldl_cons]
    apply ih
    · exact (accumulate_spec s.1 s.2 l.TotalPriceUnits l.TotalPriceNanos hs
        (hl l (List.mem_cons_self _ _))).2.1
    · exact fun x hx => hl x (List.mem_cons_of_mem _ hx)

/-- The running subtotal is the exact sum of the line totals as long as the units stay
within `int64`. -/
theorem foldl_addLine_exact (lines : List OrderLine) :
    ∀ (s : Int × Int) (B : Int),
      (-1000000000 < s.2 ∧ s.2 < 1000000000) → -B ≤ s.1 → s.1 ≤ B →
      (∀ l ∈ lines, -1000000000 < l.TotalPriceNanos ∧ l.TotalPriceNanos < 1000000000) →
      B + unitsBound lines ≤ 9223372036854775807 →
      (lines.foldl addLine s).1 * 1000000000 + (lines.foldl addLine s).2
        = s.1 * 1000000000 + s.2 + exactTotal lines := by
  induction lines with
  | nil => intro s B _ _ _ _ _; simp [exactTotal]
  | cons l rest ih =>
    intro s B hs hB1 hB2 hl hB
    have hub : unitsBound (l :: rest)
        = (l.TotalPriceUnits.natAbs : Int) + 1 + unitsBound rest := by
      simp [unitsBound]
    have hnn : 0 ≤ unitsBound rest := by
      unfold unitsBound
      apply List.sum_nonneg
      intro x hx
      rw [List.mem_map] at hx
      obtain ⟨y, _, rfl⟩ := hx
      omega
    obtain ⟨_, h2, h3⟩ := accumulate_spec s.1 s.2 l.TotalPriceUnits l.TotalPriceNanos hs
      (hl l (List.mem_cons_self _ _))
    obtain ⟨e1, e2, e3⟩ := h3 B hB1 hB2 (by omega)
    simp only [List.foldl_cons]
    have := ih (addLine s l) (B + l.TotalPriceUnits.natAbs + 1) h2 e2 e3
      (fun x hx => hl x (List.mem_cons_of_mem _ hx)) (by omega)
    rw [this]
    have hexact : exactTotal (l :: rest)
        = l.TotalPriceUnits * 1000000000 + l.TotalPriceNanos + exactTotal rest := by
      simp [exactTotal]
    rw [hexact]
    unfold addLine
    omega

/-- What a successful run of the loop of `buildOrderLines` returns: the lines of the
accumulator followed, in request order, by one built line per request line, and the
running subtotal accumulated over those lines. -/
theorem buildOrderLinesLoop_built (db : DB) (shopID : String) :
    ∀ (lines : List CreateOrderLine) (acc built : BuiltLines),
      orderBusiness.buildOrderLinesLoop db shopID lines acc = .ok built →
      ∃ new, built.orderLines = acc.orderLines ++ new
        ∧ List.Forall₂ (builtFrom db) lines new
        ∧ (built.subtotalUnits, built.subtotalNanos)
            = new.foldl addLine (acc.subtotalUnits, acc.subtotalNanos) := by
  intro lines
  induction lines with
  | nil =>
    intro acc built h
    unfold orderBusiness.buildOrderLinesLoop at h
    simp only [Except.ok.injEq] at h
    subst h
    exact ⟨[], by simp, List.Forall₂.nil, rfl⟩
  | cons l rest ih =>
    intro acc built h
    unfold orderBusiness.buildOrderLinesLoop at h
    by_cases hq : l.Quantity ≤ 0
    · simp [hq] at h
    · simp only [hq, if_false] at h
      cases hv : productVariantRepository.GetByID db l.VariantId with
      | none => rw [hv] at h; simp at h
      | some v =>
        rw [hv] at h
        simp only [] at h
        cases hs : orderBusiness.productShopCheck db shopID v with
        | some e => rw [hs] at h; simp at h
        | none =>
          rw [hs] at h
          by_cases hst : v.StockQuantity < l.Quantity
          · simp [hst] at h
          · simp only [hst, if_false] at h
            obtain ⟨new, h1, h2, h3⟩ := ih _ built h
            refine ⟨snapshotLine v l.Quantity :: new, ?_, ?_, ?_⟩
            · rw [h1]
              simp [snapshotLine]
            · exact List.Forall₂.cons
                ⟨v, hv, not_le.mp hq, not_lt.mp hst, rfl⟩ h2
            · rw [h3]
              rfl

/-- Every built line has nanos of magnitude below 10^9 and a positive quantity. -/
theorem builtFrom_lines {db : DB} {lines : List CreateOrderLine} {new : List OrderLine}
    (h : List.Forall₂ (builtFrom db) lines new) :
    ∀ ol ∈ new,
      (-1000000000 < ol.TotalPriceNanos ∧ ol.TotalPriceNanos < 1000000000)
      ∧ 0 < ol.Quantity := by
  induction h with
  | nil => intro ol hol; simp at hol
  | cons hab _ ih =>
    intro ol hol
    rcases List.mem_cons.1 hol with rfl | hmem
    · obtain ⟨v, _, hq, _, rfl⟩ := hab
      exact ⟨lineTotal_nanos_bound v.PriceUnits v.PriceNanos _, hq⟩
    · exact ih ol hmem

/-- Claim C26: for every list of request lines that `buildOrderLines` accepts, (1) the
returned subtotal is the running accumulation over the returned line totals; (2) at every
line the `int32` addition of the line's nanos to the running subtotal nanos does not
overflow, and after every line the running subtotal nanos have magnitude below 10^9;
(3) absent `int64` overflow of the units (the magnitudes of the line units plus one carry
a line stay within `int64`), the subtotal equals the sum of the line totals as exact
amounts: subtotalUnits*10^9 + subtotalNanos = sum of TotalPriceUnits*10^9 +
TotalPriceNanos. -/
theorem C26_subtotal_accumulation (db : DB) (shopID : String)
    (lines : List CreateOrderLine) (built : BuiltLines)
    (h : orderBusiness.buildOrderLines db shopID lines = .ok built) :
    (built.subtotalUnits, built.subtotalNanos) = built.orderLines.foldl addLine (0, 0)
    ∧ (∀ pre l post, built.orderLines = pre ++ l :: post →
        isInt32 ((pre.foldl addLine (0, 0)).2 + l.TotalPriceNanos)
        ∧ ((pre ++ [l]).foldl addLine (0, 0)).2.natAbs < 1000000000)
    ∧ (unitsBound built.orderLines ≤ 9223372036854775807 →
        built.subtotalUnits * 1000000000 + built.subtotalNanos
          = exactTotal built.orderLines) := by
  obtain ⟨new, h1, h2, h3⟩ := buildOrderLinesLoop_built db shopID lines _ built h
  simp only [List.nil_append] at h1
  subst h1
  have hb := builtFrom_lines h2
  refine ⟨h3, ?_, ?_⟩
  · intro pre l post hsplit
    have hpre : ∀ x ∈ pre,
        -1000000000 < x.TotalPriceNanos ∧ x.TotalPriceNanos < 1000000000 := by
      intro x hx
      exact (hb x (by rw [hsplit]; simp [hx])).1
    have hl := (hb l (by rw [hsplit]; simp)).1
    have hs := foldl_addLine_nanos pre (0, 0) (by norm_num) hpre
    obtain ⟨a1, a2, _⟩ := accumulate_spec (pre.foldl addLine (0, 0)).1
      (pre.foldl addLine (0, 0)).2 l.TotalPriceUnits l.TotalPriceNanos hs hl
    refine ⟨a1, ?_⟩
    rw [List.foldl_append]
    simp only [List.foldl_cons, List.foldl_nil]
    have a3 : -1000000000 < (addLine (pre.foldl addLine (0, 0)) l).2
        ∧ (addLine (pre.foldl addLine (0, 0)) l).2 < 1000000000 := a2
    omega
  · intro hub
    have := foldl_addLine_exact built.orderLines (0, 0) 0 (by norm_num) (by norm_num)
      (by norm_num) (fun l hl => (hb l hl).1) (by omega)
    have e1 : built.subtotalUnits = (built.orderLines.foldl addLine (0, 0)).1 := by
      rw [← h3]
    have e2 : built.subtotalNanos = (built.orderLines.foldl addLine (0, 0)).2 := by
      rw [← h3]
    rw [e1, e2, this]
    simp

/-- Witness for C26: the lines built for one unit at 10.50 and one unit at 100.00 have the
subtotal 110.50, the exact sum of the two line totals. -/
theorem C26_subtotal_accumulation_witness :
    (110 : Int) * 1000000000 + 500000000
      = exactTotal
          [snapshotLine exVariant 1, snapshotLine exVariantKES 1] :=
  (C26_subtotal_accumulation exTwoCurrencyDB "shop-1" [⟨"var-1", 1⟩, ⟨"var-2", 1⟩]
    { orderLines := [snapshotLine exVariant 1, snapshotLine exVariantKES 1],
      subtotalCurrency := "USD", subtotalUnits := 110, subtotalNanos := 500000000 }
    rfl).2.2 (by decide)

/-- Claim C28: for every list of request lines that `buildOrderLines` accepts, the returned
order lines have the same length as the request and, for every index i, the i-th order
line has the variant id and quantity of the i-th request line and the SKU, name, currency
and unit price (units, nanos) of the variant that `GetByID` reads for that line. -/
theorem C28_lines_snapshot_in_order (db : DB) (shopID : String)
    (lines : List CreateOrderLine) (built : BuiltLines)
    (h : orderBusiness.buildOrderLines db shopID lines = .ok built) :
    built.orderLines.length = lines.length
    ∧ ∀ (i : Nat) (h1 : i < lines.length) (h2 : i < built.orderLines.length),
        ∃ v, productVariantRepository.GetByID db (lines.get ⟨i, h1⟩).VariantId = some v
          ∧ (built.orderLines.get ⟨i, h2⟩).ProductVariantID = (lines.get ⟨i, h1⟩).VariantId
          ∧ (built.orderLines.get ⟨i, h2⟩).Quantity = (lines.get ⟨i, h1⟩).Quantity
          ∧ (built.orderLines.get ⟨i, h2⟩).SKUSnapshot = v.SKU
          ∧ (built.orderLines.get ⟨i, h2⟩).NameSnapshot = v.Name
          ∧ (built.orderLines.get ⟨i, h2⟩).UnitPriceCurrency = v.CurrencyCode
          ∧ (built.orderLines.get ⟨i, h2⟩).UnitPriceUnits = v.PriceUnits
          ∧ (built.orderLines.get ⟨i, h2⟩).UnitPriceNanos = v.PriceNanos := by
  obtain ⟨new, h1, h2, _⟩ := buildOrderLinesLoop_built db shopID lines _ built h
  simp only [List.nil_append] at h1
  subst h1
  rw [List.forall₂_iff_get] at h2
  refine ⟨h2.1.symm, ?_⟩
  intro i hi1 hi2
  obtain ⟨v, hv, _, _, hol⟩ := h2.2 i hi1 hi2
  have hvid : v.ID = (lines.get ⟨i, hi1⟩).VariantId := by
    unfold productVariantRepository.GetByID at hv
    simpa using List.find?_some hv
  refine ⟨v, hv, ?_, ?_, ?_, ?_, ?_, ?_, ?_⟩ <;> rw [hol] <;> simp [snapshotLine, hvid]

/-- Witness for C28: the two lines built for one unit of each example variant carry, in
request order, the ids, quantities and snapshots of the two variants. -/
theorem C28_lines_snapshot_in_order_witness :
    ∃ v, productVariantRepository.GetByID exTwoCurrencyDB "var-2" = some v
      ∧ (snapshotLine exVariantKES 1).ProductVariantID = "var-2"
      ∧ (snapshotLine exVariantKES 1).Quantity = 1
      ∧ (snapshotLine exVariantKES 1).SKUSnapshot = v.SKU
      ∧ (snapshotLine exVariantKES 1).NameSnapshot = v.Name
      ∧ (snapshotLine exVariantKES 1).UnitPriceCurrency = v.CurrencyCode
      ∧ (snapshotLine exVariantKES 1).UnitPriceUnits = v.PriceUnits
      ∧ (snapshotLine exVariantKES 1).UnitPriceNanos = v.PriceNanos :=
  (C28_lines_snapshot_in_order exTwoCurrencyDB "shop-1" [⟨"var-1", 1⟩, ⟨"var-2", 1⟩]
    { orderLines := [snapshotLine exVariant 1, snapshotLine exVariantKES 1],
      subtotalCurrency := "USD", subtotalUnits := 110, subtotalNanos := 500000000 }
    rfl).2 1 (by decide) (by decide)

/-- The stock read after `DecrementStock`: the requested quantity is taken from the variant
with the given id when its stock covers it, and nothing changes otherwise. -/
theorem stockOf_DecrementStock (db : DB) (id : String) (q : Int) (v : String) :
    stockOf (productVariantRepository.DecrementStock db id q).2 v
      = (stockOf db v).map (fun s => if v = id ∧ s ≥ q then s - q else s) := by
  unfold stockOf productVariantRepository.GetByID productVariantRepository.DecrementStock
  simp only [List.find?_map, Option.map_map]
  have hcomp : ((fun x : ProductVariant => x.ID == v) ∘ (fun x : ProductVariant =>
      if x.ID = id ∧ x.StockQuantity ≥ q
      then { x with StockQuantity := x.StockQuantity - q } else x))
      = (fun x : ProductVariant => x.ID == v) := by
    funext x
    simp only [Function.comp]
    split <;> rfl
  rw [hcomp]
  cases h : db.variants.find? (fun x => x.ID == v) with
  | none => rfl
  | some x =>
    have hx : x.ID = v := by simpa using List.find?_some h
    simp only [Option.map_some', Function.comp]
    subst hx
    by_cases hc : x.ID = id ∧ x.StockQuantity ≥ q
    · simp only [hc, and_self, if_true]
    · rw [if_neg hc, if_neg hc]

/-- One step of the second loop of `CreateOrder`: the line is inserted, its stock is
decremented, and the loop goes on with the rest. -/
theorem order_createLines_cons (oid : String) (ids : Nat → String) (i : Nat)
    (l : OrderLine) (rest : List OrderLine) (db : DB) :
    orderBusiness.createLines oid ids i (l :: rest) db
      = orderBusiness.createLines oid ids (i + 1) rest
          (productVariantRepository.DecrementStock
            (orderLineRepository.Create db { l with OrderID := oid, ID := ids i })
            l.ProductVariantID l.Quantity).2 := by
  conv_lhs => unfold orderBusiness.createLines
  rfl

/-- The second loop of `CreateOrder` over lines of non-negative quantity keeps the stock of
every variant between zero and its value before the loop. -/
theorem order_createLines_stock (oid : String) (ids : Nat → String) (v : String) :
    ∀ (lines : List OrderLine) (i : Nat) (db : DB) (s : Int),
      (∀ l ∈ lines, 0 ≤ l.Quantity) → stockOf db v = some s → 0 ≤ s →
      ∃ s2, stockOf (orderBusiness.createLines oid ids i lines db).2 v = some s2
        ∧ 0 ≤ s2 ∧ s2 ≤ s := by
  intro lines
  induction lines with
  | nil =>
    intro i db s _ hs h0
    exact ⟨s, by simpa [orderBusiness.createLines] using hs, h0, le_refl s⟩
  | cons l rest ih =>
    intro i db s hq hs h0
    rw [order_createLines_cons]
    have hql : 0 ≤ l.Quantity := hq l (List.mem_cons_self _ _)
    have hcr : stockOf (orderLineRepository.Create db
        { l with OrderID := oid, ID := ids i }) v = some s := hs
    have hdec := stockOf_DecrementStock (orderLineRepository.Create db
        { l with OrderID := oid, ID := ids i }) l.ProductVariantID l.Quantity v
    rw [hcr] at hdec
    simp only [Option.map_some'] at hdec
    have hb : 0 ≤ (if v = l.ProductVariantID ∧ s ≥ l.Quantity then s - l.Quantity else s)
        ∧ (if v = l.ProductVariantID ∧ s ≥ l.Quantity then s - l.Quantity else s) ≤ s := by
      split
      · rename_i hc
        have := hc.2
        omega
      · omega
    obtain ⟨s2, h1, h2, h3⟩ := ih (i + 1) _ _
      (fun x hx => hq x (List.mem_cons_of_mem _ hx)) hdec hb.1
    exact ⟨s2, h1, h2, le_trans h3 hb.2⟩

/-- Whatever `CreateOrder` does, the stock of every variant with non-negative stock stays
between zero and its value before the call. -/
theorem CreateOrder_stock (db : DB) (req : CreateOrderRequest)
    (orderNumber orderID : String) (ids : Nat → String) (v : String) (s : Int)
    (hs : stockOf db v = some s) (h0 : 0 ≤ s) :
    ∃ s2, stockOf (orderBusiness.CreateOrder db req orderNumber orderID ids).2 v = some s2
      ∧ 0 ≤ s2 ∧ s2 ≤ s := by
  unfold orderBusiness.CreateOrder
  cases hrep : (if req.IdempotencyKey ≠ "" then
      orderRepository.GetByIdempotencyKey db req.IdempotencyKey else none) with
  | some existing => exact ⟨s, hs, h0, le_refl s⟩
  | none =>
    simp only []
    cases hsh : shopRepository.GetByID db req.ShopId with
    | none => exact ⟨s, hs, h0, le_refl s⟩
    | some shop =>
      simp only []
      by_cases hl : req.Lines.length = 0
      · simp only [hl, if_true]
        exact ⟨s, hs, h0, le_refl s⟩
      · simp only [hl, if_false]
        cases hb : orderBusiness.buildOrderLines db req.ShopId req.Lines with
        | error e => exact ⟨s, hs, h0, le_refl s⟩
        | ok built =>
          simp only []
          generalize hord : orderRepository.Create db _ = dbh
          have hdh : stockOf dbh v = some s := by rw [← hord]; exact hs
          obtain ⟨new, h1, h2, _⟩ := buildOrderLinesLoop_built db req.ShopId req.Lines _ built hb
          simp only [List.nil_append] at h1
          have hq : ∀ l ∈ built.orderLines, 0 ≤ l.Quantity := by
            intro l hl
            rw [h1] at hl
            exact le_of_lt (builtFrom_lines h2 l hl).2
          have hst := order_createLines_stock orderID ids v built.orderLines 0 dbh s hq hdh h0
          cases hcl : orderBusiness.createLines orderID ids 0 built.orderLines dbh with
          | mk c db2 =>
            rw [hcl] at hst
            simp only at hst
            cases c with
            | none => exact hst
            | some e => exact hst

/-- A sequence of calls followed by one more call is the one more call on the store the
sequence leaves. -/
theorem runOrders_append (calls : List (CreateOrderRequest × String × String × (Nat → String)))
    (c : CreateOrderRequest × String × String × (Nat → String)) :
    ∀ db : DB, runOrders db (calls ++ [c])
      = (orderBusiness.CreateOrder (runOrders db calls) c.1 c.2.1 c.2.2.1 c.2.2.2).2 := by
  induction calls with
  | nil => intro db; rfl
  | cons d rest ih =>
    intro db
    simp only [List.cons_append, runOrders]
    exact ih _

/-- Over a sequence of `CreateOrder` calls the stock of a variant with non-negative stock
stays between zero and its initial value. -/
theorem runOrders_stock (v : String)
    (calls : List (CreateOrderRequest × String × String × (Nat → String))) :
    ∀ (db : DB) (s : Int), stockOf db v = some s → 0 ≤ s →
      ∃ s2, stockOf (runOrders db calls) v = some s2 ∧ 0 ≤ s2 ∧ s2 ≤ s := by
  induction calls with
  | nil => intro db s hs h0; exact ⟨s, hs, h0, le_refl s⟩
  | cons c rest ih =>
    intro db s hs h0
    obtain ⟨s1, a1, a2, a3⟩ := CreateOrder_stock db c.1 c.2.1 c.2.2.1 c.2.2.2 v s hs h0
    obtain ⟨s2, b1, b2, b3⟩ := ih _ s1 a1 a2
    exact ⟨s2, b1, b2, le_trans b3 a3⟩

/-- Claim C27: for every variant with stock s >= 0 and every sequential sequence of
`CreateOrder` calls, (1) the stock after the sequence is some s2 with 0 <= s2 <= s, so
the total decremented over the sequence, s - s2, is at most s; as every prefix of a
sequence is a sequence, this holds after every call; (2) each further call leaves the
stock at or below its value before that call, so the stock only ever moves by decrements;
(3) `DecrementStock` returns no error and changes the stock of the variant by exactly the
requested quantity when it names the variant and the stock covers the quantity, and
leaves it unchanged otherwise. -/
theorem C27_stock_never_negative (db : DB) (v : String) (s : Int)
    (hs : stockOf db v = some s) (h0 : 0 ≤ s) :
    (∀ calls, ∃ s2, stockOf (runOrders db calls) v = some s2
        ∧ 0 ≤ s2 ∧ s2 ≤ s ∧ s - s2 ≤ s)
    ∧ (∀ calls c, ∃ s1 s2, stockOf (runOrders db calls) v = some s1
        ∧ stockOf (runOrders db (calls ++ [c])) v = some s2 ∧ 0 ≤ s2 ∧ s2 ≤ s1)
    ∧ (∀ id q, (productVariantRepository.DecrementStock db id q).1 = none
        ∧ stockOf (productVariantRepository.DecrementStock db id q).2 v
            = some (if v = id ∧ s ≥ q then s - q else s)) := by
  refine ⟨?_, ?_, ?_⟩
  · intro calls
    obtain ⟨s2, a1, a2, a3⟩ := runOrders_stock v calls db s hs h0
    exact ⟨s2, a1, a2, a3, by omega⟩
  · intro calls c
    obtain ⟨s1, a1, a2, _⟩ := runOrders_stock v calls db s hs h0
    obtain ⟨s2, b1, b2, b3⟩ :=
      CreateOrder_stock (runOrders db calls) c.1 c.2.1 c.2.2.1 c.2.2.2 v s1 a1 a2
    exact ⟨s1, s2, a1, by rw [runOrders_append]; exact b1, b2, b3⟩
  · intro id q
    refine ⟨rfl, ?_⟩
    rw [stockOf_DecrementStock, hs]
    rfl

/-- Witness for C27: the example variant starts with stock 100; after two orders of 60
units, of which only the first is accepted, the stock is 40. -/
theorem C27_stock_never_negative_witness :
    stockOf exDB "var-1" = some 100
    ∧ stockOf (runOrders exDB
        exSixtyTwice) "var-1"
        = some 40
    ∧ ∃ s2, stockOf (runOrders exDB
        exSixtyTwice) "var-1"
        = some s2 ∧ 0 ≤ s2 ∧ s2 ≤ 100 ∧ 100 - s2 ≤ 100 :=
  ⟨by decide, by decide,
   (C27_stock_never_negative exDB "var-1" 100 (by decide) (by decide)).1
     exSixtyTwice⟩

/-- Witness for C24: with the example shop of slug "coffee-corner" stored, a blank name is
refused with InvalidArgument, the name "Coffee Corner" without slug is refused with
AlreadyExists, and the name " Tea House " without slug creates the shop "tea-house". -/
theorem C24_create_shop_outcomes_witness :
    shopBusiness.CreateShop asciiLower exDB ⟨"  ", "any", ""⟩ "shop-2"
      = (.error Code.InvalidArgument, exDB)
    ∧ shopBusiness.CreateShop asciiLower exDB ⟨"Coffee Corner", "", ""⟩ "shop-2"
      = (.error Code.AlreadyExists, exDB)
    ∧ (shopBusiness.CreateShop asciiLower exDB ⟨" Tea House ", " ", ""⟩ "shop-2").2.shops
      = [exShop, { ID := "shop-2", Name := "Tea House", Slug := "tea-house" }] :=
  ⟨(C24_create_shop_outcomes asciiLower exDB ⟨"  ", "any", ""⟩ "shop-2").1 (by decide),
   (C24_create_shop_outcomes asciiLower exDB ⟨"Coffee Corner", "", ""⟩ "shop-2").2.1
     (by decide) ⟨exShop, by decide, by decide⟩,
   by
     rw [(C24_create_shop_outcomes asciiLower exDB ⟨" Tea House ", " ", ""⟩ "shop-2").2.2
       (by decide) (by decide)]
     decide⟩

/-- Witness for C25: the order of 5 units on the example store persists one header, with
the statuses Confirmed, Pending and unspecified, the total equal to the subtotal, and the
order number as idempotency key. -/
theorem C25_persisted_header_witness :
    ∃ h, (orderBusiness.CreateOrder exDB (exOrderReq [⟨"var-1", 5⟩]) "ORD-1" "o1"
            exIds).2.orders = exDB.orders ++ [h]
        ∧ h.ID = "o1" ∧ h.OrderNumber = "ORD-1"
        ∧ h.Status = OrderStatus.ORDER_STATUS_CONFIRMED
        ∧ h.PaymentStatus = PaymentStatus.PAYMENT_STATUS_PENDING
        ∧ h.FulfilmentStatus = FulfilmentStatus.FULFILMENT_STATUS_UNSPECIFIED
        ∧ h.TotalCurrency = h.SubtotalCurrency
        ∧ h.TotalUnits = h.SubtotalUnits
        ∧ h.TotalNanos = h.SubtotalNanos
        ∧ ((exOrderReq [⟨"var-1", 5⟩]).IdempotencyKey = "" → h.IdempotencyKey = "ORD-1")
        ∧ ((exOrderReq [⟨"var-1", 5⟩]).IdempotencyKey ≠ "" →
            h.IdempotencyKey = (exOrderReq [⟨"var-1", 5⟩]).IdempotencyKey) :=
  (C25_persisted_header exDB (exOrderReq [⟨"var-1", 5⟩]) "ORD-1" "o1" exIds).resolve_left
    (by decide)

/-- Witness for C29: on the store where 3 of the 5 units of order `o1` are fulfilled,
updating the fulfilment to Shipped leaves the orders as they were. -/
theorem C29_recomputation_idempotent_witness :
    (fulfilmentBusiness.UpdateFulfilment exPartialDB exShipReq).2.orders
      = exPartialDB.orders :=
  C29_recomputation_idempotent.2 exPartialDB exShipReq _ _ rfl rfl (by decide)

/-- The status pair of an order is read from the order table alone. -/
theorem orderStatusOf_congr {db1 db2 : DB} (h : db1.orders = db2.orders) (id : String) :
    orderStatusOf db1 id = orderStatusOf db2 id := by
  unfold orderStatusOf orderRepository.GetWithLines
  rw [h]
  cases db2.orders.find? (fun o => o.ID == id) with
  | none => rfl
  | some o => rfl

/-- An order loaded by id carries that id. -/
theorem orderRepository_GetWithLines_id {db : DB} {id : String} {order : LoadedOrder}
    (h : orderRepository.GetWithLines db id = some order) : order.row.ID = id := by
  unfold orderRepository.GetWithLines at h
  cases hf : db.orders.find? (fun o => o.ID == id) with
  | none => rw [hf] at h; simp at h
  | some o =>
    rw [hf] at h
    simp only [Option.some.injEq] at h
    rw [← h]
    simpa using List.find?_some hf

/-- The order-level recomputation for one order leaves the status pair of every order with
another id as it was. -/
theorem updateOrderFulfilmentStatus_other (db : DB) (order : LoadedOrder) (id : String)
    (hne : order.row.ID ≠ id) :
    orderStatusOf (fulfilmentBusiness.updateOrderFulfilmentStatus db order) id
      = orderStatusOf db id := by
  unfold fulfilmentBusiness.updateOrderFulfilmentStatus
  by_cases h : fulfilmentBusiness.allFulfilled db order.Lines = true
  · simp only [h, if_true]
    unfold orderStatusOf orderRepository.GetWithLines orderRepository.Update
    simp only [List.find?_map]
    have hcomp : ((fun o : Order => o.ID == id) ∘ fun o : Order =>
        if o.ID = order.row.ID then
          { o with
            Status := if "status" ∈ ["status", "fulfilment_status"]
              then OrderStatus.ORDER_STATUS_FULFILLED else o.Status,
            FulfilmentStatus := if "fulfilment_status" ∈ ["status", "fulfilment_status"]
              then FulfilmentStatus.FULFILMENT_STATUS_DELIVERED else o.FulfilmentStatus }
        else o) = fun o : Order => o.ID == id := by
      funext o
      by_cases h2 : o.ID = order.row.ID <;> simp [h2]
    rw [hcomp]
    cases hf : db.orders.find? (fun o => o.ID == id) with
    | none => rfl
    | some o =>
      have hoid : o.ID = id := by simpa using List.find?_some hf
      have hne2 : ¬ o.ID = order.row.ID := by
        rw [hoid]
        exact fun h3 => hne h3.symm
      simp [hne2]
  · simp [h]

/-- The reload-and-recompute step for one order id leaves the status pair of every order
with another id as it was. -/
theorem refreshOrderStatus_other (db : DB) (orderID id : String) (hne : orderID ≠ id) :
    orderStatusOf (fulfilmentBusiness.refreshOrderStatus db orderID) id
      = orderStatusOf db id := by
  unfold fulfilmentBusiness.refreshOrderStatus
  cases h : orderRepository.GetWithLines db orderID with
  | none => rfl
  | some order =>
    simp only []
    apply updateOrderFulfilmentStatus_other
    rw [orderRepository_GetWithLines_id h]
    exact hne

/-- The reload-and-recompute step for an order: its status pair becomes Fulfilled and
Delivered when the loop answers true and stays as it was otherwise. -/
theorem refreshOrderStatus_self (db : DB) (id : String) (order : LoadedOrder)
    (h : orderRepository.GetWithLines db id = some order) :
    orderStatusOf (fulfilmentBusiness.refreshOrderStatus db id) id
      = (if fulfilmentBusiness.allFulfilled db order.Lines = true
         then some (OrderStatus.ORDER_STATUS_FULFILLED,
                    FulfilmentStatus.FULFILMENT_STATUS_DELIVERED)
         else some (order.row.Status, order.row.FulfilmentStatus)) := by
  unfold fulfilmentBusiness.refreshOrderStatus
  simp only [h]
  obtain ⟨order2, hget, _, _, htrue, hfalse⟩ :=
    updateOrderFulfilmentStatus_read db order id h
  unfold orderStatusOf
  rw [hget]
  cases hall : fulfilmentBusiness.allFulfilled db order.Lines with
  | true =>
    obtain ⟨a, b⟩ := htrue hall
    simp [a, b]
  | false =>
    obtain ⟨a, b⟩ := hfalse hall
    simp [a, b]

/-- The store `UpdateFulfilment` leaves for an existing fulfilment: the recomputation for
the fulfilment's order, run on a store with the same orders, order lines and fulfilment
lines as before the call. -/
theorem UpdateFulfilment_store (db : DB) (req : UpdateFulfilmentRequest)
    (f : LoadedFulfilment)
    (hload : fulfilmentRepository.GetWithLines db req.Id = some f) :
    ∃ db1, db1.orders = db.orders ∧ db1.orderLines = db.orderLines
      ∧ db1.fulfilmentLines = db.fulfilmentLines
      ∧ (fulfilmentBusiness.UpdateFulfilment db req).2
          = fulfilmentBusiness.refreshOrderStatus db1 f.row.OrderID := by
  obtain ⟨_, b2, _⟩ :=
    foldl_applyField_spec req (fulfilmentBusiness.updateFields req) (f.row, [])
  simp only at b2
  have hp := persistFulfilment_frame db
    ((fulfilmentBusiness.updateFields req).foldl (fulfilmentBusiness.applyField req)
      (f.row, []))
  refine ⟨_, hp.1, hp.2.1, hp.2.2, ?_⟩
  unfold fulfilmentBusiness.UpdateFulfilment
  simp only [hload, b2]

/-- Claim C30 (fails on the code as stated): in a store where order `o1` is fulfilled for
all 5 units by fulfilment `f1` and carries the status Cancelled, an `UpdateFulfilment`
request that marks `f1` as Shipped succeeds and the recomputation it runs sets the order's
status to Fulfilled. -/
theorem C30_cancelled_order_becomes_fulfilled :
    orderStatusOf exCancelledDB "o1"
      = some (OrderStatus.ORDER_STATUS_CANCELLED,
              FulfilmentStatus.FULFILMENT_STATUS_DELIVERED)
    ∧ (fulfilmentRepository.GetWithLines exCancelledDB "f1").map (fun f => f.row.OrderID)
      = some "o1"
    ∧ (fulfilmentBusiness.UpdateFulfilment exCancelledDB exShipReq).1.toOption.isSome = true
    ∧ orderStatusOf (fulfilmentBusiness.UpdateFulfilment exCancelledDB exShipReq).2 "o1"
      = some (OrderStatus.ORDER_STATUS_FULFILLED,
              FulfilmentStatus.FULFILMENT_STATUS_DELIVERED) := by
  decide

/-- Claim C30 (amended): for every order whose status is Cancelled, (1) after every
`CreateFulfilment` call the order's status and fulfilment status are as before, and a call
on the order itself fails with FailedPrecondition and leaves the store unchanged; (2) after
every `UpdateFulfilment` call that finds no fulfilment or a fulfilment of another order
they are as before; (3) after an `UpdateFulfilment` call on a fulfilment of the order they
are as before when some line of the order has a fulfilled sum that cannot be read or is
below its ordered quantity, and Fulfilled and Delivered when every line's fulfilled sum is
an `int64` value not below its ordered quantity: the recomputation after an update is
unconditional. -/
theorem C30_cancelled_order_after_fulfilment_calls (db : DB) (id : String)
    (fs : FulfilmentStatus)
    (hc : orderStatusOf db id = some (OrderStatus.ORDER_STATUS_CANCELLED, fs)) :
    (∀ (req : CreateFulfilmentRequest) (fulfilmentID : String) (ids : Nat → String),
        orderStatusOf (fulfilmentBusiness.CreateFulfilment db req fulfilmentID ids).2 id
          = some (OrderStatus.ORDER_STATUS_CANCELLED, fs)
        ∧ (req.OrderId = id →
            fulfilmentBusiness.CreateFulfilment db req fulfilmentID ids
              = (.error Code.FailedPrecondition, db)))
    ∧ (∀ req : UpdateFulfilmentRequest,
        (∀ f, fulfilmentRepository.GetWithLines db req.Id = some f → f.row.OrderID ≠ id) →
        orderStatusOf (fulfilmentBusiness.UpdateFulfilment db req).2 id
          = some (OrderStatus.ORDER_STATUS_CANCELLED, fs))
    ∧ (∀ (req : UpdateFulfilmentRequest) (f : LoadedFulfilment) (order : LoadedOrder),
        fulfilmentRepository.GetWithLines db req.Id = some f → f.row.OrderID = id →
        orderRepository.GetWithLines db id = some order →
        ((∃ ol ∈ order.Lines, ¬ (isInt64 (fulfilmentLineRepository.sumQuantity db ol.ID)
              ∧ ol.Quantity ≤ fulfilmentLineRepository.sumQuantity db ol.ID)) →
          orderStatusOf (fulfilmentBusiness.UpdateFulfilment db req).2 id
            = some (OrderStatus.ORDER_STATUS_CANCELLED, fs))
        ∧ ((∀ ol ∈ order.Lines, isInt64 (fulfilmentLineRepository.sumQuantity db ol.ID)
              ∧ ol.Quantity ≤ fulfilmentLineRepository.sumQuantity db ol.ID) →
          orderStatusOf (fulfilmentBusiness.UpdateFulfilment db req).2 id
            = some (OrderStatus.ORDER_STATUS_FULFILLED,
                    FulfilmentStatus.FULFILMENT_STATUS_DELIVERED))) := by
  have hcan : ∀ order, orderRepository.GetWithLines db id = some order →
      order.row.Status = OrderStatus.ORDER_STATUS_CANCELLED ∧ order.row.FulfilmentStatus = fs := by
    intro order ho
    unfold orderStatusOf at hc
    rw [ho] at hc
    simp only [Option.map_some', Option.some.injEq, Prod.mk.injEq] at hc
    exact hc
  refine ⟨?_, ?_, ?_⟩
  · intro req fulfilmentID ids
    constructor
    · rw [← hc]
      unfold fulfilmentBusiness.CreateFulfilment
      cases hload : orderRepository.GetWithLines db req.OrderId with
      | none => rfl
      | some order =>
        simp only []
        by_cases hs : order.row.Status = OrderStatus.ORDER_STATUS_CANCELLED
        · simp only [hs, if_true]
        · simp only [hs, if_false]
          by_cases hl : req.Lines.length = 0
          · simp only [hl, if_true]
          · simp only [hl, if_false]
            cases hv : fulfilmentBusiness.validateLines db order.Lines req.Lines with
            | some e => rfl
            | none =>
              simp only []
              have hne : order.row.ID ≠ id := by
                intro heq
                have hid := orderRepository_GetWithLines_id hload
                rw [heq] at hid
                rw [← hid] at hload
                exact hs (hcan order hload).1
              rw [updateOrderFulfilmentStatus_other _ order id hne]
              apply orderStatusOf_congr
              exact (fulfilment_createLines_frame fulfilmentID ids req.Lines 0 _).1
    · intro hid
      cases hload : orderRepository.GetWithLines db id with
      | none =>
        unfold orderStatusOf at hc
        rw [hload] at hc
        simp at hc
      | some order =>
        unfold fulfilmentBusiness.CreateFulfilment
        simp only [hid, hload, (hcan order hload).1, if_true]
  · intro req hother
    cases hload : fulfilmentRepository.GetWithLines db req.Id with
    | none =>
      unfold fulfilmentBusiness.UpdateFulfilment
      simp only [hload]
      exact hc
    | some f =>
      obtain ⟨db1, h1, _, _, hst⟩ := UpdateFulfilment_store db req f hload
      rw [hst, refreshOrderStatus_other db1 f.row.OrderID id (hother f hload),
        orderStatusOf_congr h1 id]
      exact hc
  · intro req f order hload hfid hord
    obtain ⟨db1, h1, h2, h3, hst⟩ := UpdateFulfilment_store db req f hload
    have hord1 : orderRepository.GetWithLines db1 id = some order := by
      rw [← hord]
      unfold orderRepository.GetWithLines
      rw [h1, h2]
    have hall : fulfilmentBusiness.allFulfilled db1 order.Lines
        = fulfilmentBusiness.allFulfilled db order.Lines := allFulfilled_congr h3 order.Lines
    rw [hst, hfid, refreshOrderStatus_self db1 id order hord1, hall]
    obtain ⟨hs1, hs2⟩ := hcan order hord
    constructor
    · intro hex
      have hnot : ¬ fulfilmentBusiness.allFulfilled db order.Lines = true := by
        rw [allFulfilled_iff]
        intro hall2
        obtain ⟨ol, hol, hbad⟩ := hex
        exact hbad (hall2 ol hol)
      rw [if_neg hnot, hs1, hs2]
    · intro hall2
      have hyes : fulfilmentBusiness.allFulfilled db order.Lines = true := by
        rw [allFulfilled_iff]
        exact hall2
      rw [if_pos hyes]

/-- Witness for C30: with order `o1` Cancelled, a `CreateFulfilment` request on it fails
with FailedPrecondition and leaves the store unchanged; with 3 of its 5 units fulfilled, an
`UpdateFulfilment` request on its fulfilment leaves it Cancelled; with all 5 units
fulfilled, the same request sets it to Fulfilled. -/
theorem C30_cancelled_order_after_fulfilment_calls_witness :
    fulfilmentBusiness.CreateFulfilment exCancelledDB (exFulfilReq [⟨"line-1", 1⟩]) "f2" exIds
      = (.error Code.FailedPrecondition, exCancelledDB)
    ∧ orderStatusOf (fulfilmentBusiness.UpdateFulfilment exCancelledPartialDB exShipReq).2 "o1"
      = some (OrderStatus.ORDER_STATUS_CANCELLED,
              FulfilmentStatus.FULFILMENT_STATUS_UNSPECIFIED)
    ∧ orderStatusOf (fulfilmentBusiness.UpdateFulfilment exCancelledDB exShipReq).2 "o1"
      = some (OrderStatus.ORDER_STATUS_FULFILLED,
              FulfilmentStatus.FULFILMENT_STATUS_DELIVERED) :=
  ⟨((C30_cancelled_order_after_fulfilment_calls exCancelledDB "o1"
        FulfilmentStatus.FULFILMENT_STATUS_DELIVERED (by decide)).1
      (exFulfilReq [⟨"line-1", 1⟩]) "f2" exIds).2 rfl,
   ((C30_cancelled_order_after_fulfilment_calls exCancelledPartialDB "o1"
        FulfilmentStatus.FULFILMENT_STATUS_UNSPECIFIED (by decide)).2.2
      exShipReq _ _ rfl rfl rfl).1 (by decide),
   ((C30_cancelled_order_after_fulfilment_calls exCancelledDB "o1"
        FulfilmentStatus.FULFILMENT_STATUS_DELIVERED (by decide)).2.2
      exShipReq _ _ rfl rfl rfl).2 (by decide)⟩

/-- A variant whose product is loaded is built without a shop lookup: `buildOrderLines`
for the example variant accepts a shop id that no shop carries. -/
theorem buildOrderLines_loaded_product_skips_shop :
    shopRepository.GetByID exDB "no-such-shop" = none
    ∧ (orderBusiness.buildOrderLines exDB "no-such-shop" [⟨"var-1", 1⟩]).toOption.map
        (fun b => b.orderLines.map (fun l => (l.ProductVariantID, l.Quantity)))
      = some [("var-1", 1)] := by
  decide

/-- Removing a cart line that does not exist fails with NotFound and changes nothing. -/
theorem RemoveCartLine_absent_line :
    cartBusiness.RemoveCartLine exTwoCartsDB ⟨"cart-a", "no-such-line"⟩
      = (.error Code.NotFound, exTwoCartsDB) := by
  rfl

end Commerce
